import Mathlib

/-!
# addon-operator: event watcher, task handler, modules and hooks controller

A shallow embedding of

* `src/kube_events_manager/kube_events_manager.go` (the resource-event watcher with its
  fingerprint table),
* `src/pkg/addon-operator/operator.go` (queue prepopulation, the task handler, the events
  of the module manager and the converge status),
* `src/module_manager/module.go` (the run of a module and the index of the modules), and
* `src/pkg/module_manager/hook/kube_event/hooks_controller.go` (the kubernetes hooks
  controller),

followed by theorems about them.

Conventions of the embedding.

* A Go `map[string]string` is a function `String → Option String`; reading a missing key
  gives the zero value `""`, as in Go.
* Library calls whose code is outside the repository (the meta accessor, `json.Marshal`,
  the `jq` subprocess, the checksum function, the module manager interface,
  the binding-context combiner, uuid generation) are fields of an environment record.
* A send on the channel `KubeEventCh` is recorded in the list of sent values that a handler
  returns next to the new informer state.
* A call that the operator makes on a collaborator for its effect is recorded in the list
  `Operator.calls`, oldest first; what a collaborator answers is read from the environment.
* Every `uuid.NewV4()` draws the next value of the sequence `uuid` of the environment.
* Logging is not modelled.
-/

namespace KubeEventsManager

/-! ## Go maps -/

/-- A Go `map[string]string`: `none` for an absent key. -/
abbrev StringMap := String → Option String

/-- The map made by `make(map[string]string)`. -/
def emptyMap : StringMap := fun _ => none

/-- The Go expression `m[k]`: the stored value, or the zero value `""` when `k` is absent. -/
def mapIndex (m : StringMap) (k : String) : String :=
  match m k with
  | some v => v
  | none => ""

/-- The Go statement `m[k] = v`. -/
def mapAssign (m : StringMap) (k v : String) : StringMap :=
  fun k' => if k' = k then some v else m k'

/-! ## Data model -/

/-- The Go type `InformerType` with its three constants. -/
inductive InformerType where
  | OnAdd
  | OnUpdate
  | OnDelete
  deriving DecidableEq, Repr

/-- The struct `KubeEventsInformer`. The fields `SharedInformer` and `SharedInformerStop` are
handles of the client library and carry no data of the change detection. -/
structure KubeEventsInformer where
  ConfigId : String
  Checksum : StringMap

/-- The constructor `NewKubeEventsInformer`: an empty fingerprint table and an empty `ConfigId`. -/
def NewKubeEventsInformer : KubeEventsInformer :=
  { ConfigId := "", Checksum := emptyMap }

/-- The library functions the watcher calls on an object of Go type `interface{}`,
for an arbitrary type `Obj` of objects. -/
structure KubeEnv (Obj : Type) where
  /-- The call `meta.NewAccessor().Name(obj)`. -/
  accessorName : Obj → Except String String
  /-- The call `meta.NewAccessor().Namespace(obj)`. -/
  accessorNamespace : Obj → Except String String
  /-- The method `GetName` of the interface `ListItemObject`. -/
  GetName : Obj → String
  /-- The method `GetNamespace` of the interface `ListItemObject`. -/
  GetNamespace : Obj → String
  /-- The call `json.Marshal(obj)`. -/
  jsonMarshal : Obj → Except String String
  /-- The function `execJq jqFilter data`, which runs the `jq` subprocess:
  trimmed stdout, trimmed stderr, and the error of the run if any. -/
  execJq : String → String → String × String × Option String
  /-- The function `utils.CalculateChecksum`. -/
  CalculateChecksum : String → String

/-! ## Operations -/

/-- The function `generateChecksumId`: `fmt.Sprintf("name=%s namespace=%s", name, namespace)`. -/
def generateChecksumId (name ns : String) : String :=
  "name=" ++ name ++ " namespace=" ++ ns

/-- The function `runtimeResourceId`: the table key of an object, or the accessor's error. -/
def runtimeResourceId {Obj : Type} (env : KubeEnv Obj) (obj : Obj) : Except String String :=
  match env.accessorName obj with
  | .error err => .error err
  | .ok name =>
    match env.accessorNamespace obj with
    | .error err => .error err
    | .ok ns => .ok (generateChecksumId name ns)

/-- The function `resourceFilter`: the serialised object, passed through `jq` when a filter is set. -/
def resourceFilter {Obj : Type} (env : KubeEnv Obj) (obj : Obj) (jqFilter : String) :
    Except String String :=
  match env.jsonMarshal obj with
  | .error err => .error err
  | .ok data =>
    if jqFilter ≠ "" then
      match env.execJq jqFilter data with
      | (_, stderr, some err) =>
        .error ("failed exec jq: \nerr: '" ++ err ++ "'\nstderr: '" ++ stderr ++ "'")
      | (stdout, _, none) => .ok stdout
    else
      .ok data

/-- The method `KubeEventsInformer.HandleKubeEvent`: the new informer state and the values sent on
`KubeEventCh`, or the error. -/
def HandleKubeEvent {Obj : Type} (env : KubeEnv Obj) (ei : KubeEventsInformer) (obj : Obj)
    (newChecksum : String) (sendSignal : Bool) :
    Except String (KubeEventsInformer × List String) :=
  match runtimeResourceId env obj with
  | .error err => .error ("failed to get object id: " ++ err)
  | .ok objectId =>
    if mapIndex ei.Checksum objectId ≠ newChecksum then
      let ei' : KubeEventsInformer :=
        { ei with Checksum := mapAssign ei.Checksum objectId newChecksum }
      if sendSignal then .ok (ei', [ei.ConfigId]) else .ok (ei', [])
    else
      .ok (ei, [])

/-- The `AddFunc` closure built in `MainKubeEventsManager.Run`. A callback returns nothing:
on an error it logs and leaves the informer as it was. -/
def AddFunc {Obj : Type} (env : KubeEnv Obj) (informerType : InformerType) (jqFilter : String)
    (ei : KubeEventsInformer) (obj : Obj) : KubeEventsInformer × List String :=
  match runtimeResourceId env obj with
  | .error _ => (ei, [])
  | .ok _ =>
    match resourceFilter env obj jqFilter with
    | .error _ => (ei, [])
    | .ok filtered =>
      let checksum := env.CalculateChecksum filtered
      match HandleKubeEvent env ei obj checksum (decide (informerType = InformerType.OnAdd)) with
      | .error _ => (ei, [])
      | .ok r => r

/-- The `UpdateFunc` closure built in `MainKubeEventsManager.Run`; the old object is ignored. -/
def UpdateFunc {Obj : Type} (env : KubeEnv Obj) (informerType : InformerType)
    (jqFilter : String) (ei : KubeEventsInformer) (obj : Obj) :
    KubeEventsInformer × List String :=
  match runtimeResourceId env obj with
  | .error _ => (ei, [])
  | .ok _ =>
    match resourceFilter env obj jqFilter with
    | .error _ => (ei, [])
    | .ok filtered =>
      let checksum := env.CalculateChecksum filtered
      match HandleKubeEvent env ei obj checksum
          (decide (informerType = InformerType.OnUpdate)) with
      | .error _ => (ei, [])
      | .ok r => r

/-- The `DeleteFunc` closure built in `MainKubeEventsManager.Run`: the event is handled with
the empty string as the new checksum. -/
def DeleteFunc {Obj : Type} (env : KubeEnv Obj) (informerType : InformerType)
    (ei : KubeEventsInformer) (obj : Obj) : KubeEventsInformer × List String :=
  match runtimeResourceId env obj with
  | .error _ => (ei, [])
  | .ok _ =>
    match HandleKubeEvent env ei obj "" (decide (informerType = InformerType.OnDelete)) with
    | .error _ => (ei, [])
    | .ok r => r

/-- The method `KubeEventsInformer.InitializeItemsList`: it stores the checksum of every
element of `objects`, in order; the first filter error is returned, and the caller then drops
the informer. -/
def InitializeItemsList {Obj : Type} (env : KubeEnv Obj) (ei : KubeEventsInformer)
    (objects : List Obj) (jqFilter : String) : Except String KubeEventsInformer :=
  match objects with
  | [] => .ok ei
  | obj :: rest =>
    let resourceId := generateChecksumId (env.GetName obj) (env.GetNamespace obj)
    match resourceFilter env obj jqFilter with
    | .error err => .error err
    | .ok filtered =>
      InitializeItemsList env
        { ei with Checksum := mapAssign ei.Checksum resourceId (env.CalculateChecksum filtered) }
        rest jqFilter

/-- The address taken by `&obj` in the loops of `addKubeEventsInformer`: the loop declares
one variable `obj` for all its iterations (the semantics of `for ... range` of the Go
versions this code was written for), so every pointer is the address of that variable. -/
inductive ObjPtr where
  | loopVar
  deriving DecidableEq, Repr

/-- The loop `for _, obj := range list.Items { objects = append(objects, &obj) }`:
each iteration copies the item into the loop variable and appends the variable's address.
The result is the final value of the variable and the slice `objects`. -/
def rangeAppendPointers {Obj : Type} (items : List Obj) : Option Obj × List ObjPtr :=
  items.foldl (fun st item => (some item, st.2 ++ [ObjPtr.loopVar])) (none, [])

/-- What the elements of the slice `objects` point to once the loop is over. -/
def derefObjects {Obj : Type} (st : Option Obj × List ObjPtr) : List Obj :=
  st.2.filterMap (fun p => match p with | ObjPtr.loopVar => st.1)

/-- The kinds with a case in the `switch kind` of `addKubeEventsInformer`. -/
def supportedKinds : List String :=
  ["cronjob", "daemonset", "deployment", "job", "pod", "replicaset", "replicationcontroller",
   "statefulset", "endpoints", "ingress", "service", "configmap", "secret",
   "persistentvolumeclaim", "storageclass", "node", "serviceaccount"]

/-- The method `MainKubeEventsManager.addKubeEventsInformer`, as far as the state of the
informer goes. `labelSelector` is the value of `labelSelector.String()`, `formatSelector` the
result of `formatLabelSelector`, `list` the result of the `List` call of the client of the
kind, made in the case of the kind, and `uuid` the value of `uuid.NewV4().String()`. Every
case of the switch has the same body, so the cases are folded into one membership test. -/
def addKubeEventsInformer {Obj : Type} (env : KubeEnv Obj) (kind : String)
    (labelSelector : String) (formatSelector : Except String String)
    (list : Except String (List Obj)) (jqFilter : String) (uuid : String) :
    Except String KubeEventsInformer :=
  let kubeEventsInformer := NewKubeEventsInformer
  match formatSelector with
  | .error _ => .error ("failed format label selector '" ++ labelSelector ++ "'")
  | .ok _ =>
    if kind ∈ supportedKinds then
      match list with
      | .error err => .error ("failed list resources: " ++ err)
      | .ok items =>
        let objects := derefObjects (rangeAppendPointers items)
        match InitializeItemsList env kubeEventsInformer objects jqFilter with
        | .error err => .error err
        | .ok ei => .ok { ei with ConfigId := uuid }
    else
      .error ("kind '" ++ kind ++ "' isn't supported")

/-- The fingerprint that `AddFunc` and `UpdateFunc` compute for an object:
`utils.CalculateChecksum` of the filtered object, when the filter succeeds. -/
def fingerprint {Obj : Type} (env : KubeEnv Obj) (jqFilter : String) (obj : Obj) :
    Option String :=
  match resourceFilter env obj jqFilter with
  | .error _ => none
  | .ok filtered => some (env.CalculateChecksum filtered)

/-- A sequence of Update deliveries handled one after the other by `UpdateFunc`:
the informer state at the end and all the values sent on `KubeEventCh`, in order. -/
def deliverUpdates {Obj : Type} (env : KubeEnv Obj) (informerType : InformerType)
    (jqFilter : String) (ei : KubeEventsInformer) (objs : List Obj) :
    KubeEventsInformer × List String :=
  match objs with
  | [] => (ei, [])
  | obj :: rest =>
    let r := UpdateFunc env informerType jqFilter ei obj
    let r' := deliverUpdates env informerType jqFilter r.1 rest
    (r'.1, r.2 ++ r'.2)

/-- The number of indices `i` in `1..n` with `c_i ≠ c_(i-1)`, for a baseline `c0` and the
fingerprints `c1..cn`. -/
def countChanges (c0 : String) (cs : List String) : Nat :=
  match cs with
  | [] => 0
  | c :: rest => (if c ≠ c0 then 1 else 0) + countChanges c rest

/-! ## A concrete environment

Objects are `(name, namespace, labels)` triples, serialised as their labels, with the
identity as checksum function. -/

/-- A small concrete object type: name, namespace and a label string. -/
abbrev DemoObj := String × String × String

/-- An environment over `DemoObj` in which no library call fails. -/
def demoEnv : KubeEnv DemoObj :=
  { accessorName := fun o => .ok o.1
    accessorNamespace := fun o => .ok o.2.1
    GetName := fun o => o.1
    GetNamespace := fun o => o.2.1
    jsonMarshal := fun o => .ok o.2.2
    execJq := fun _ data => (data, "", none)
    CalculateChecksum := fun s => s }

/-- An informer `cfg` without any stored fingerprint. -/
def demoFresh : KubeEventsInformer :=
  { ConfigId := "cfg", Checksum := emptyMap }

/-- An informer `cfg` whose table stores the fingerprint `x` for the object named `a` that
lives in the namespace `ns`. -/
def demoInformer : KubeEventsInformer :=
  { ConfigId := "cfg", Checksum := mapAssign emptyMap (generateChecksumId "a" "ns") "x" }

end KubeEventsManager

namespace AddonOperator

/-! ## Tasks

The task record and the handler result belong to the `shell-operator` library; the task
types and the hook metadata belong to package `task`. They are given here with the fields
that `operator.go` reads and writes. Log labels are left out. -/

/-- Modelled from the spec: the task types, constants of package `task`. -/
inductive TaskType where
  | GlobalHookRun
  | ModuleHookRun
  | GlobalHookEnableKubernetesBindings
  | GlobalHookEnableScheduleBindings
  | GlobalHookWaitKubernetesSynchronization
  | ReloadAllModules
  | DiscoverModulesState
  | ModuleRun
  | ModuleDelete
  | ModulePurge
  | ModuleManagerRetry
  deriving DecidableEq, Repr

/-- Modelled from the spec: the binding kinds, constants of the string type `BindingType`.
`Unset` is the zero value, the empty string, of a metadata record that sets no binding. -/
inductive BindingType where
  | Unset
  | OnStartup
  | Schedule
  | OnKubernetesEvent
  | BeforeAll
  | AfterAll
  | BeforeHelm
  | AfterHelm
  deriving DecidableEq, Repr

/-- The struct `BindingContext`, with the fields set in `operator.go`; `WatchEvent` stands for
the payload that the hook controller fills in. -/
structure BindingContext where
  Binding : String := ""
  BindingType : BindingType := BindingType.Unset
  IncludeAllSnapshots : Bool := false
  WatchEvent : String := ""
  deriving DecidableEq, Repr

/-- Modelled from the spec: the struct `task.HookMetadata`; every field defaults to its Go
zero value. -/
structure HookMetadata where
  EventDescription : String := ""
  HookName : String := ""
  ModuleName : String := ""
  BindingType : BindingType := BindingType.Unset
  BindingContext : List BindingContext := []
  AllowFailure : Bool := false
  OnStartupHooks : Bool := false
  KubernetesBindingId : String := ""
  WaitForSynchronization : Bool := false
  ValuesChecksum : String := ""
  LastAfterAllHook : Bool := false
  ReloadAllOnValuesChanges : Bool := false
  deriving DecidableEq, Repr

/-- A task of the library type `sh_task.Task`; `taskType` is the value of `GetType()`. -/
structure Task where
  Id : String
  taskType : TaskType
  QueueName : String := ""
  Metadata : HookMetadata := {}
  FailureCount : Nat := 0
  FailureMessage : String := ""
  deriving DecidableEq, Repr

/-- The code that a closure stored in `TaskResult.AfterHandle` runs. -/
inductive AfterHandleCall where
  /-- The call `op.CheckConvergeStatus(t)`, with the id of `t`. -/
  | CheckConvergeStatus (taskId : String)
  /-- The call `globalHook.HookController.StartMonitors()`, with the hook name. -/
  | StartMonitors (hookName : String)
  deriving DecidableEq, Repr

/-- The library struct `queue.TaskResult`; `AfterHandle` lists the calls of the closure in
order, and is empty for a nil closure. Every field defaults to its Go zero value. -/
structure TaskResult where
  Status : String := ""
  HeadTasks : List Task := []
  TailTasks : List Task := []
  AfterTasks : List Task := []
  DelayBeforeNextTask : Nat := 0
  AfterHandle : List AfterHandleCall := []
  deriving DecidableEq, Repr

/-- The library struct `controller.BindingExecutionInfo`, with the fields read in
`operator.go`. -/
structure BindingExecutionInfo where
  BindingContext : List BindingContext := []
  AllowFailure : Bool := false
  QueueName : String := ""
  WaitForSynchronization : Bool := false
  deriving DecidableEq, Repr

/-- A call that a handler makes on a collaborator for its effect only. -/
inductive Call where
  /-- The call `op.MetricStorage.SendCounter(metric, 1.0, labels)`. -/
  | SendCounter (metric : String) (labels : List (String × String))
  /-- The call `op.ModuleManager.SynchronizationDone(id)`. -/
  | SynchronizationDone (id : String)
  /-- The call `op.ModuleManager.SynchronizationQueued(id)`. -/
  | SynchronizationQueued (id : String)
  /-- The call `op.ModuleManager.DumpState()`. -/
  | DumpState
  /-- The call `op.HelmResourcesManager.StopMonitors()`. -/
  | StopMonitors
  /-- The call `op.HelmResourcesManager.PauseMonitor(moduleName)`. -/
  | PauseMonitor (moduleName : String)
  /-- The call `op.HelmResourcesManager.ResumeMonitor(moduleName)`. -/
  | ResumeMonitor (moduleName : String)
  /-- The statement `delete(taskHook.KubernetesBindingSynchronizationState, kubeId)`. -/
  | DeleteSynchronizationState (hookName : String) (id : String)
  /-- The statement `state.Done = true` on the entry of
  `taskHook.KubernetesBindingSynchronizationState` for `id`, if there is one. -/
  | MarkSynchronizationStateDone (hookName : String) (id : String)
  /-- The statement that sets the entry of `mHook.KubernetesBindingSynchronizationState` for
  `id` to a state with `Queued: true` and `Done: false`. -/
  | CreateSynchronizationState (hookName : String) (id : String)
  /-- The call `op.ModuleManager.Retry()`. -/
  | Retry
  /-- The call `op.ModuleManager.RegisterModuleHooks(module, labels)`, with the module name. -/
  | RegisterModuleHooks (moduleName : String)
  /-- The call `op.ModuleManager.DisableModuleHooks(moduleName)`. -/
  | DisableModuleHooks (moduleName : String)
  /-- The call `op.ModuleManager.StartModuleHooks(moduleName)`. -/
  | StartModuleHooks (moduleName : String)
  /-- The call `module.RunOnStartup(labels)`, with the module name. -/
  | RunOnStartup (moduleName : String)
  /-- The call `module.Run(labels)`, with the module name. -/
  | ModuleRun (moduleName : String)
  /-- The statement `module.IsReady = true`, with the module name. -/
  | SetIsReady (moduleName : String)
  /-- The call `Start()` on the queue `name`. -/
  | StartQueue (name : String)
  /-- The call `op.ModuleManager.DeleteModule(moduleName, labels)`. -/
  | DeleteModule (moduleName : String)
  /-- The call `helm.NewClient(labels).DeleteRelease(moduleName)`. -/
  | DeleteRelease (moduleName : String)
  /-- The call `globalHook.HookController.EnableScheduleBindings()`, with the hook name. -/
  | EnableScheduleBindings (hookName : String)
  /-- The statement `executor.ReapLocked = value`. -/
  | SetReapLocked (value : Bool)
  deriving DecidableEq, Repr

/-- The task queues: the name of the main queue and the tasks of every named queue, head
first; `none` for a name without queue. -/
structure TaskQueueSet where
  MainName : String := ""
  Queues : String → Option (List Task) := fun _ => none

/-- The operator state that the handlers read and write: the queues, the converge flags,
the number of uuids drawn so far and the calls made on collaborators, oldest first. -/
structure Operator where
  TaskQueues : TaskQueueSet := {}
  StartupConvergeStarted : Bool := false
  StartupConvergeDone : Bool := false
  uuids : Nat := 0
  calls : List Call := []

/-- The collaborators of the operator whose code is outside `operator.go`: the module
manager interface, the combiner of the `shell-operator` library, and the constants of the
binding types. A field gives the answer of the collaborator at the time of the call. -/
structure OperatorEnv where
  /-- The value of `uuid.NewV4().String()` for the n-th draw. -/
  uuid : Nat → String
  /-- The conversion `string(bindingType)`. -/
  bindingString : BindingType → String
  /-- The table `ContextBindingType`. -/
  ContextBindingType : BindingType → String
  /-- The method `ModuleManager.GetGlobalHooksInOrder`. -/
  GetGlobalHooksInOrder : BindingType → List String
  /-- The field `Config.Version` of `ModuleManager.GetGlobalHook(name)`. -/
  globalHookVersion : String → String
  /-- The value `path.Base(globalHook.Path)` of `ModuleManager.GetGlobalHook(name)`. -/
  globalHookLabel : String → String
  /-- The field `Config.Version` of `ModuleManager.GetModuleHook(name)`. -/
  moduleHookVersion : String → String
  /-- The values `path.Base(taskHook.Path)` and `taskHook.Module.Name` of
  `ModuleManager.GetModuleHook(name)`. -/
  moduleHookLabels : String → String × String
  /-- The method `ModuleManager.RunGlobalHook`: the checksums of the global values before and
  after the run, and the error if any. -/
  RunGlobalHook : String → BindingType → List BindingContext → String × String × Option String
  /-- The method `ModuleManager.RunModuleHook`: the error if any. -/
  RunModuleHook : String → BindingType → List BindingContext → Option String
  /-- The method `ModuleManager.HandleGlobalEnableKubernetesBindings`: the hook name and the
  execution info of each call of the callback, in order, and the error if any. -/
  HandleGlobalEnableKubernetesBindings :
    String → List (String × BindingExecutionInfo) × Option String
  /-- The method `ModuleManager.GlobalSynchronizationNeeded`. -/
  GlobalSynchronizationNeeded : Bool
  /-- The method `ModuleManager.GlobalSynchronizationDone`. -/
  GlobalSynchronizationDone : Bool
  /-- The method `CombineBindingContextForHook` of the embedded `ShellOperator`, applied to
  the tasks of a queue, the handled task and a stop predicate: the combined binding contexts,
  `none` for a nil slice, and the tasks left in the queue. -/
  CombineBindingContextForHook :
    List Task → Task → (Task → Bool) → Option (List BindingContext) × List Task

/-! ## Queue operations -/

/-- The call `sh_task.NewTask(taskType)`: a task with a fresh uuid as id. -/
def NewTask (env : OperatorEnv) (op : Operator) (taskType : TaskType) : Task × Operator :=
  ({ Id := env.uuid op.uuids, taskType := taskType }, { op with uuids := op.uuids + 1 })

/-- The call `tqs.NewNamedQueue(name, handler)`: an empty queue under `name`. -/
def NewNamedQueue (tqs : TaskQueueSet) (name : String) : TaskQueueSet :=
  { tqs with Queues := fun n => if n = name then some [] else tqs.Queues n }

/-- The call `tqs.GetByName(name)`. -/
def GetByName (tqs : TaskQueueSet) (name : String) : Option (List Task) :=
  tqs.Queues name

/-- The call `tqs.GetMain()`. -/
def GetMain (tqs : TaskQueueSet) : Option (List Task) :=
  tqs.Queues tqs.MainName

/-- The tasks that `Iterate` visits on the queue `name`: none if there is no such queue. -/
def queueTasks (tqs : TaskQueueSet) (name : String) : List Task :=
  match tqs.Queues name with
  | some q => q
  | none => []

/-- Replaces the tasks of the queue `name`, when that queue exists. -/
def setQueue (tqs : TaskQueueSet) (name : String) (q : List Task) : TaskQueueSet :=
  match tqs.Queues name with
  | some _ => { tqs with Queues := fun n => if n = name then some q else tqs.Queues n }
  | none => tqs

/-- The call `tqs.GetByName(name).AddLast(t)`. -/
def AddLast (tqs : TaskQueueSet) (name : String) (t : Task) : TaskQueueSet :=
  setQueue tqs name (queueTasks tqs name ++ [t])

/-- The call `tqs.GetByName(name).AddFirst(t)`. -/
def AddFirst (tqs : TaskQueueSet) (name : String) (t : Task) : TaskQueueSet :=
  setQueue tqs name (t :: queueTasks tqs name)

/-- A method of `t` that changes the task in place, such as `t.UpdateMetadata` or
`t.UpdateFailureMessage`: the queue holds the same task, found by its id. -/
def updateTask (tqs : TaskQueueSet) (t : Task) : TaskQueueSet :=
  setQueue tqs t.QueueName
    ((queueTasks tqs t.QueueName).map (fun tsk => if tsk.Id = t.Id then t else tsk))

/-- Records calls on collaborators. -/
def Operator.call (op : Operator) (cs : List Call) : Operator :=
  { op with calls := op.calls ++ cs }

/-- What a task is apart from its id and its failure record: type, queue and metadata. -/
def taskSummary (t : Task) : TaskType × String × HookMetadata :=
  (t.taskType, t.QueueName, t.Metadata)

/-- The main queue is the queue `main`, it exists, and its tasks, head first, are as listed
in `l`. -/
def mainQueueIs (op : Operator) (l : List (TaskType × String × HookMetadata)) : Prop :=
  op.TaskQueues.MainName = "main" ∧
    ∃ q, GetMain op.TaskQueues = some q ∧ q.map taskSummary = l

/-! ## Startup -/

/-- The body shared by the loops of `PrepopulateMainQueue`: a new task for the queue `main`
with the given metadata, added with `op.TaskQueues.GetMain().AddLast`. -/
def queueMainTask (env : OperatorEnv) (op : Operator) (taskType : TaskType)
    (metadata : HookMetadata) : Operator :=
  let r := NewTask env op taskType
  let newTask : Task := { r.1 with QueueName := "main", Metadata := metadata }
  { r.2 with TaskQueues := AddLast r.2.TaskQueues r.2.TaskQueues.MainName newTask }

/-- The method `AddonOperator.PrepopulateMainQueue`, called on `op.TaskQueues`. -/
def PrepopulateMainQueue (env : OperatorEnv) (op : Operator) : Operator :=
  let op : Operator :=
    { op with TaskQueues := NewNamedQueue { op.TaskQueues with MainName := "main" } "main" }
  let onStartupHooks := env.GetGlobalHooksInOrder BindingType.OnStartup
  let op := onStartupHooks.foldl (fun op hookName =>
    let onStartupBindingContext : BindingContext :=
      { Binding := env.bindingString BindingType.OnStartup,
        BindingType := BindingType.OnStartup }
    queueMainTask env op TaskType.GlobalHookRun
      { EventDescription := "PrepopulateMainQueue"
        HookName := hookName
        BindingType := BindingType.OnStartup
        BindingContext := [onStartupBindingContext]
        ReloadAllOnValuesChanges := false }) op
  let schedHooks := env.GetGlobalHooksInOrder BindingType.Schedule
  let op := schedHooks.foldl (fun op hookName =>
    queueMainTask env op TaskType.GlobalHookEnableScheduleBindings
      { EventDescription := "PrepopulateMainQueue"
        HookName := hookName }) op
  let kubeHooks := env.GetGlobalHooksInOrder BindingType.OnKubernetesEvent
  let op := kubeHooks.foldl (fun op hookName =>
    queueMainTask env op TaskType.GlobalHookEnableKubernetesBindings
      { EventDescription := "PrepopulateMainQueue"
        HookName := hookName }) op
  let op := queueMainTask env op TaskType.GlobalHookWaitKubernetesSynchronization
    { EventDescription := "PrepopulateMainQueue" }
  queueMainTask env op TaskType.ReloadAllModules
    { EventDescription := "PrepopulateMainQueue"
      OnStartupHooks := true }

/-! ## The task handler -/

/-- The end of `TaskHandler`, common to all task types: on `Success` the closure
`AfterHandle` first checks the converge status, then runs the closure set by the case. -/
def finishTaskResult (t : Task) (res : TaskResult) : TaskResult :=
  if res.Status = "Success" then
    { res with AfterHandle := AfterHandleCall.CheckConvergeStatus t.Id :: res.AfterHandle }
  else
    res

/-- The stop predicate that the hook run handlers pass to the combiner, for the metadata `hm`
of the handled task. -/
def stopCombine (hm : HookMetadata) (tsk : Task) : Bool :=
  let thm := tsk.Metadata
  if hm.KubernetesBindingId ≠ "" ∧ thm.KubernetesBindingId ≠ "" then
    if hm.WaitForSynchronization ≠ thm.WaitForSynchronization then true else false
  else
    false

/-- The keys put into the map `kubeIds` by one `Iterate` over a queue: the kubernetes
binding ids of the tasks of the hook, each once. -/
def kubeIdsOf (q : List Task) (hookName : String) : List String :=
  ((q.filter (fun tsk =>
      decide (tsk.Metadata.HookName = hookName ∧ tsk.Metadata.KubernetesBindingId ≠ ""))).map
    (fun tsk => tsk.Metadata.KubernetesBindingId)).dedup

/-- The block run for a hook of config version `v1`: the binding contexts of the adjacent
tasks of the hook are combined into the handled task and the combined tasks leave the queue.
The result is the operator, the handled task as updated, and the kubernetes binding ids that
were in the queue before and are not any more (the keys of `kubeIds` left at `false`), in
the order of the queue, the order of a Go map iteration being unspecified. -/
def combineForHook (env : OperatorEnv) (op : Operator) (t : Task) :
    Operator × Task × List String :=
  let hm := t.Metadata
  let q := queueTasks op.TaskQueues t.QueueName
  let kubeIds := kubeIdsOf q hm.HookName
  let r := env.CombineBindingContextForHook q t (stopCombine hm)
  let tqs := setQueue op.TaskQueues t.QueueName r.2
  let t' : Task :=
    match r.1 with
    | some bcs => { t with Metadata := { hm with BindingContext := bcs } }
    | none => t
  let tqs :=
    match r.1 with
    | some _ => updateTask tqs t'
    | none => tqs
  let remain := kubeIdsOf (queueTasks tqs t.QueueName) hm.HookName
  ({ op with TaskQueues := tqs }, t', kubeIds.filter (fun id => decide (id ∉ remain)))

/-- The decision of the GlobalHookRun case after a run without error: whether to reload all
modules, and the event description of the reload task. -/
def reloadAllDecision (hm : HookMetadata) (beforeChecksum afterChecksum : String) :
    Bool × String :=
  match hm.BindingType with
  | BindingType.Schedule =>
    if beforeChecksum ≠ afterChecksum then
      (true, "ScheduleChangeGlobalValues(" ++ hm.HookName ++ ")")
    else (false, "")
  | BindingType.OnKubernetesEvent =>
    if hm.ReloadAllOnValuesChanges = true ∧ beforeChecksum ≠ afterChecksum then
      (true, "KubernetesChangeGlobalValues(" ++ hm.HookName ++ ")")
    else (false, "")
  | BindingType.AfterAll =>
    if hm.LastAfterAllHook = true ∧ afterChecksum ≠ hm.ValuesChecksum then
      (true, "AfterAllHooksChangeGlobalValues")
    else (false, "")
  | _ => (false, "")

/-- The start of the GlobalHookRun case, up to the run of the hook: for a hook of config
version `v1` the queue is combined and the synchronization of every removed task is marked
done. The result is the operator and the handled task as it is when the hook runs. -/
def globalHookRunCombine (env : OperatorEnv) (op : Operator) (t : Task) : Operator × Task :=
  if env.globalHookVersion t.Metadata.HookName = "v1" then
    let r := combineForHook env op t
    (r.1.call (r.2.2.map Call.SynchronizationDone), r.2.1)
  else
    (op, t)

/-- The method `TaskHandler`, case `task.GlobalHookRun`, with the common end of the function. -/
def TaskHandler_GlobalHookRun (env : OperatorEnv) (op : Operator) (t : Task) :
    TaskResult × Operator :=
  let st := globalHookRunCombine env op t
  let op := st.1
  let t := st.2
  let hm := t.Metadata
  let run := env.RunGlobalHook hm.HookName hm.BindingType hm.BindingContext
  let beforeChecksum := run.1
  let afterChecksum := run.2.1
  let out : TaskResult × Operator :=
    match run.2.2 with
    | some err =>
      let hookLabel := env.globalHookLabel hm.HookName
      if hm.AllowFailure then
        ({ Status := "Success" },
          op.call [Call.SendCounter "global_hook_allowed_errors" [("hook", hookLabel)]])
      else
        let op := op.call [Call.SendCounter "global_hook_errors" [("hook", hookLabel)]]
        ({ Status := "Fail" },
          { op with TaskQueues := updateTask op.TaskQueues { t with FailureMessage := err } })
    | none =>
      let decision := reloadAllDecision hm beforeChecksum afterChecksum
      if decision.1 then
        let op := op.call [Call.StopMonitors]
        let r := NewTask env op TaskType.ReloadAllModules
        let reloadAllModulesTask : Task :=
          { r.1 with
            QueueName := "main"
            Metadata := { EventDescription := decision.2, OnStartupHooks := false } }
        ({ Status := "Success", TailTasks := [reloadAllModulesTask] }, r.2)
      else
        ({ Status := "Success" }, op)
  let res := out.1
  let op := out.2
  let op :=
    if res.Status = "Success" then
      if hm.KubernetesBindingId ≠ "" then
        op.call [Call.SynchronizationDone hm.KubernetesBindingId]
      else op
    else op
  (finishTaskResult t res, op)

/-- The start of `HandleModuleHookRun`, up to the run of the hook: the resources monitor
is paused, and for a hook of config version `v1` the queue is combined and the
synchronization state of every removed task is deleted. The result is the operator and the
handled task as it is when the hook runs. -/
def moduleHookRunCombine (env : OperatorEnv) (op : Operator) (t : Task) : Operator × Task :=
  let op := op.call [Call.PauseMonitor t.Metadata.ModuleName]
  if env.moduleHookVersion t.Metadata.HookName = "v1" then
    let r := combineForHook env op t
    (r.1.call (r.2.2.map (Call.DeleteSynchronizationState t.Metadata.HookName)), r.2.1)
  else
    (op, t)

/-- The method `AddonOperator.HandleModuleHookRun`. -/
def HandleModuleHookRun (env : OperatorEnv) (op : Operator) (t : Task) :
    TaskResult × Operator :=
  let st := moduleHookRunCombine env op t
  let op := st.1
  let t := st.2
  let hm := t.Metadata
  let out : TaskResult × Operator :=
    match env.RunModuleHook hm.HookName hm.BindingType hm.BindingContext with
    | some err =>
      let hookLabel := (env.moduleHookLabels hm.HookName).1
      let moduleLabel := (env.moduleHookLabels hm.HookName).2
      if hm.AllowFailure then
        ({ Status := "Success" },
          op.call [Call.SendCounter "module_hook_allowed_errors"
            [("module", moduleLabel), ("hook", hookLabel)]])
      else
        let op := op.call [Call.SendCounter "module_hook_errors"
          [("module", moduleLabel), ("hook", hookLabel)]]
        ({ Status := "Fail" },
          { op with TaskQueues := updateTask op.TaskQueues { t with FailureMessage := err } })
    | none => ({ Status := "Success" }, op)
  let res := out.1
  let op := out.2.call [Call.ResumeMonitor hm.ModuleName]
  let op :=
    if res.Status = "Success" then
      op.call [Call.MarkSynchronizationStateDone hm.HookName hm.KubernetesBindingId]
    else op
  (res, op)

/-- The method `TaskHandler`, case `task.ModuleHookRun`, with the common end of the function. -/
def TaskHandler_ModuleHookRun (env : OperatorEnv) (op : Operator) (t : Task) :
    TaskResult × Operator :=
  let r := HandleModuleHookRun env op t
  (finishTaskResult t r.1, r.2)

/-- The method `TaskHandler`, case `task.GlobalHookWaitKubernetesSynchronization`, with the
common end of the function. -/
def TaskHandler_GlobalHookWaitKubernetesSynchronization (env : OperatorEnv) (op : Operator)
    (t : Task) : TaskResult × Operator :=
  let res : TaskResult := { Status := "Success" }
  let out : TaskResult × Operator :=
    if env.GlobalSynchronizationNeeded && !env.GlobalSynchronizationDone then
      ({ res with Status := "Repeat" }, op.call [Call.DumpState])
    else
      (res, op)
  (finishTaskResult t out.1, out.2)

/-- The function `strings.Contains(s, substr)`. -/
def stringsContains (s substr : String) : Bool :=
  decide (substr.data <:+: s.data)

/-- The three collections filled by the callback of the GlobalHookEnableKubernetesBindings
case; `waitSyncTasks` is a Go map from kubernetes binding id to task, kept here in the order
of insertion. -/
structure SyncTasks where
  mainSyncTasks : List Task := []
  parallelSyncTasks : List Task := []
  waitSyncTasks : List (String × Task) := []
  deriving DecidableEq, Repr

/-- The Go statement `waitSyncTasks[id] = tsk`. -/
def waitSyncAssign (m : List (String × Task)) (id : String) (tsk : Task) :
    List (String × Task) :=
  if m.any (fun e => decide (e.1 = id)) then
    m.map (fun e => if e.1 = id then (id, tsk) else e)
  else
    m ++ [(id, tsk)]

/-- The callback that the GlobalHookEnableKubernetesBindings case passes to
`HandleGlobalEnableKubernetesBindings`, called for the hook `hookName` with `info`: a
GlobalHookRun task for the Synchronization run of one binding, filed by its queue. -/
def enableKubernetesBindingsCallback (env : OperatorEnv) (t : Task) (eventDescription : String)
    (st : Operator × SyncTasks) (hookName : String) (info : BindingExecutionInfo) :
    Operator × SyncTasks :=
  let op := st.1
  let sync := st.2
  let kubernetesBindingId := env.uuid op.uuids
  let op : Operator := { op with uuids := op.uuids + 1 }
  let r := NewTask env op TaskType.GlobalHookRun
  let newTask : Task :=
    { r.1 with
      QueueName := info.QueueName
      Metadata :=
        { EventDescription := eventDescription
          HookName := hookName
          BindingType := BindingType.OnKubernetesEvent
          BindingContext := info.BindingContext
          AllowFailure := info.AllowFailure
          ReloadAllOnValuesChanges := false
          KubernetesBindingId := kubernetesBindingId
          WaitForSynchronization := info.WaitForSynchronization } }
  if info.QueueName = t.QueueName then
    (r.2, { sync with mainSyncTasks := sync.mainSyncTasks ++ [newTask] })
  else if info.WaitForSynchronization then
    (r.2, { sync with
      waitSyncTasks := waitSyncAssign sync.waitSyncTasks kubernetesBindingId newTask })
  else
    (r.2, { sync with parallelSyncTasks := sync.parallelSyncTasks ++ [newTask] })

/-- The event description given to the Synchronization tasks. -/
def enableKubernetesBindingsDescription (hm : HookMetadata) : String :=
  if !stringsContains hm.EventDescription "HandleGlobalEnableKubernetesBindings" then
    hm.EventDescription ++ ".HandleGlobalEnableKubernetesBindings"
  else
    hm.EventDescription

/-- The call of `HandleGlobalEnableKubernetesBindings` in the
GlobalHookEnableKubernetesBindings case: the callback is run for every binding, in order. -/
def collectSyncTasks (env : OperatorEnv) (op : Operator) (t : Task) : Operator × SyncTasks :=
  (env.HandleGlobalEnableKubernetesBindings t.Metadata.HookName).1.foldl
    (fun st c =>
      enableKubernetesBindingsCallback env t (enableKubernetesBindingsDescription t.Metadata)
        st c.1 c.2)
    (op, {})

/-- The method `TaskHandler`, case `task.GlobalHookEnableKubernetesBindings`, with the common
end of the function. The loop over the map `waitSyncTasks` runs here in the order of insertion. -/
def TaskHandler_GlobalHookEnableKubernetesBindings (env : OperatorEnv) (op : Operator)
    (t : Task) : TaskResult × Operator :=
  let hm := t.Metadata
  let collected := collectSyncTasks env op t
  let op := collected.1
  let sync := collected.2
  let out : TaskResult × Operator :=
    match (env.HandleGlobalEnableKubernetesBindings hm.HookName).2 with
    | some err =>
      let hookLabel := env.globalHookLabel hm.HookName
      let op := op.call [Call.SendCounter "global_hook_errors" [("hook", hookLabel)]]
      ({ Status := "Fail" },
        { op with TaskQueues := updateTask op.TaskQueues { t with FailureMessage := err } })
    | none =>
      let op := sync.waitSyncTasks.foldl (fun (op : Operator) e =>
        match GetByName op.TaskQueues e.2.QueueName with
        | none => op
        | some _ =>
          let op := op.call [Call.SynchronizationQueued e.1]
          { op with TaskQueues := AddLast op.TaskQueues e.2.QueueName e.2 }) op
      let op := sync.parallelSyncTasks.foldl (fun (op : Operator) tsk =>
        match GetByName op.TaskQueues tsk.QueueName with
        | none => op
        | some _ => { op with TaskQueues := AddLast op.TaskQueues tsk.QueueName tsk }) op
      ({ Status := "Success"
         HeadTasks := sync.mainSyncTasks
         AfterHandle := [AfterHandleCall.StartMonitors hm.HookName] }, op)
  (finishTaskResult t out.1, out.2)

/-- The Synchronization tasks created while a GlobalHookEnableKubernetesBindings task is
handled, whatever collection they were filed in. -/
def createdSyncTasks (env : OperatorEnv) (op : Operator) (t : Task) : List Task :=
  let sync := (collectSyncTasks env op t).2
  sync.mainSyncTasks ++ sync.waitSyncTasks.map (fun e => e.2) ++ sync.parallelSyncTasks

/-- What every task made by the callback of the GlobalHookEnableKubernetesBindings case is: a
GlobalHookRun task with binding OnKubernetesEvent and `ReloadAllOnValuesChanges = false`. -/
def IsSynchronizationRun (tsk : Task) : Prop :=
  tsk.taskType = TaskType.GlobalHookRun ∧
    tsk.Metadata.BindingType = BindingType.OnKubernetesEvent ∧
    tsk.Metadata.ReloadAllOnValuesChanges = false

/-! ## A concrete environment -/

/-- An environment with one global hook per binding kind and hooks that run without error
and change the checksum of the global values from `before` to `after`. -/
def demoOperatorEnv : OperatorEnv :=
  { uuid := fun n => String.mk (List.replicate (n + 1) 'u')
    bindingString := fun _ => "binding"
    ContextBindingType := fun _ => "binding"
    GetGlobalHooksInOrder := fun b =>
      match b with
      | BindingType.OnStartup => ["startup-a", "startup-b"]
      | BindingType.Schedule => ["cron"]
      | BindingType.OnKubernetesEvent => ["watch"]
      | _ => []
    globalHookVersion := fun _ => "v0"
    globalHookLabel := fun name => name
    moduleHookVersion := fun _ => "v0"
    moduleHookLabels := fun name => (name, "module")
    RunGlobalHook := fun _ _ _ => ("before", "after", none)
    RunModuleHook := fun _ _ _ => none
    HandleGlobalEnableKubernetesBindings := fun _ =>
      ([("watch", { QueueName := "main", WaitForSynchronization := true }),
        ("watch", { QueueName := "side", WaitForSynchronization := true })], none)
    GlobalSynchronizationNeeded := true
    GlobalSynchronizationDone := false
    CombineBindingContextForHook := fun q _ _ => (none, q) }

/-- A GlobalHookRun task of the queue `main` for the schedule binding of the hook `cron`. -/
def demoScheduleTask : Task :=
  { Id := "t", taskType := TaskType.GlobalHookRun, QueueName := "main",
    Metadata :=
      { HookName := "cron", BindingType := BindingType.Schedule,
        ReloadAllOnValuesChanges := true } }

/-- A GlobalHookEnableKubernetesBindings task of the queue `main` for the hook `watch`. -/
def demoEnableTask : Task :=
  { Id := "e", taskType := TaskType.GlobalHookEnableKubernetesBindings, QueueName := "main",
    Metadata := { EventDescription := "PrepopulateMainQueue", HookName := "watch" } }

/-- The first Synchronization task that handling `demoEnableTask` creates in
`demoOperatorEnv`, starting from no uuid drawn. -/
def demoSyncTask : Task :=
  { Id := "uu", taskType := TaskType.GlobalHookRun, QueueName := "main",
    Metadata :=
      { EventDescription := "PrepopulateMainQueue.HandleGlobalEnableKubernetesBindings",
        HookName := "watch", BindingType := BindingType.OnKubernetesEvent,
        KubernetesBindingId := "u", WaitForSynchronization := true } }

/-- The second Synchronization task created there, for the queue `side`. -/
def demoSideSyncTask : Task :=
  { Id := "uuuu", taskType := TaskType.GlobalHookRun, QueueName := "side",
    Metadata :=
      { EventDescription := "PrepopulateMainQueue.HandleGlobalEnableKubernetesBindings",
        HookName := "watch", BindingType := BindingType.OnKubernetesEvent,
        KubernetesBindingId := "uuu", WaitForSynchronization := true } }

/-- A ModuleHookRun task of the queue `main` for a hook that is allowed to fail. -/
def demoModuleHookTask : Task :=
  { Id := "m", taskType := TaskType.ModuleHookRun, QueueName := "main",
    Metadata :=
      { HookName := "module-hook", ModuleName := "module",
        BindingType := BindingType.Schedule, AllowFailure := true } }

/-- The environment `demoOperatorEnv` with hooks that fail. -/
def demoFailingEnv : OperatorEnv :=
  { demoOperatorEnv with
    RunGlobalHook := fun _ _ _ => ("before", "before", some "exit status 1")
    RunModuleHook := fun _ _ _ => some "exit status 1" }

/-! ## Reload of all modules -/

/-- The library method `TaskQueue.Filter`: the predicate is called on every task, head
first, and the tasks for which it returns false leave the queue. The predicate is a Go
closure; `σ` is the type of the variables it captures and writes. -/
def Filter {σ : Type} (fn : σ → Task → Bool × σ) (s : σ) (q : List Task) : List Task × σ :=
  match q with
  | [] => ([], s)
  | tsk :: rest =>
    let r := fn s tsk
    let r' := Filter fn r.2 rest
    (if r.1 then tsk :: r'.1 else r'.1, r'.2)

/-- The closure that the ReloadAllModules case passes to `Filter`, for the handled task `t`;
the captured variable is `stopFilter`. -/
def reloadAllFilter (t : Task) (stopFilter : Bool) (tsk : Task) : Bool × Bool :=
  if tsk.Id = t.Id then
    (true, stopFilter)
  else
    let stopFilter := if tsk.taskType ≠ TaskType.ReloadAllModules then true else stopFilter
    (stopFilter, stopFilter)

/-- The method `AddonOperator.CreateReloadAllTasks`: one GlobalHookRun task per BeforeAll
hook, then one DiscoverModulesState task. -/
def CreateReloadAllTasks (env : OperatorEnv) (op : Operator) (onStartup : Bool)
    (eventDescription : String) : List Task × Operator :=
  let beforeAllHooks := env.GetGlobalHooksInOrder BindingType.BeforeAll
  let st : List Task × Operator := beforeAllHooks.foldl (fun st hookName =>
    let beforeAllBc : BindingContext :=
      { Binding := env.ContextBindingType BindingType.BeforeAll
        BindingType := BindingType.BeforeAll
        IncludeAllSnapshots := true }
    let r := NewTask env st.2 TaskType.GlobalHookRun
    let newTask : Task :=
      { r.1 with
        QueueName := "main"
        Metadata :=
          { EventDescription := eventDescription
            HookName := hookName
            BindingType := BindingType.BeforeAll
            BindingContext := [beforeAllBc]
            ReloadAllOnValuesChanges := false } }
    (st.1 ++ [newTask], r.2)) ([], op)
  let r := NewTask env st.2 TaskType.DiscoverModulesState
  let discoverTask : Task :=
    { r.1 with
      QueueName := "main"
      Metadata := { EventDescription := eventDescription, OnStartupHooks := onStartup } }
  (st.1 ++ [discoverTask], r.2)

/-- The method `TaskHandler`, case `task.ReloadAllModules`, with the common end of the
function. -/
def TaskHandler_ReloadAllModules (env : OperatorEnv) (op : Operator) (t : Task) :
    TaskResult × Operator :=
  let hm := t.Metadata
  let filtered := (Filter (reloadAllFilter t) false (queueTasks op.TaskQueues t.QueueName)).1
  let op : Operator := { op with TaskQueues := setQueue op.TaskQueues t.QueueName filtered }
  let r := CreateReloadAllTasks env op hm.OnStartupHooks hm.EventDescription
  (finishTaskResult t { Status := "Success", AfterTasks := r.1 }, r.2)

/-- The operator `op` with the tasks `q` in the queue `name`. -/
def withQueue (op : Operator) (name : String) (q : List Task) : Operator :=
  { op with
    TaskQueues :=
      { op.TaskQueues with
        Queues := fun n => if n = name then some q else op.TaskQueues.Queues n } }

/-! ## Converge tasks -/

/-- The visitor of `MainQueueHasConvergeTasks`, as a test: whether it counts the task. -/
def countsAsConvergeTask (t : Task) : Bool :=
  match t.taskType with
  | TaskType.ModuleRun => true
  | TaskType.DiscoverModulesState => true
  | TaskType.ModuleDelete => true
  | TaskType.ModulePurge => true
  | TaskType.ModuleManagerRetry => true
  | TaskType.ReloadAllModules => true
  | TaskType.GlobalHookEnableKubernetesBindings => true
  | TaskType.GlobalHookEnableScheduleBindings => true
  | ttype =>
    if ttype = TaskType.GlobalHookRun then
      match t.Metadata.BindingType with
      | BindingType.BeforeAll => true
      | BindingType.AfterAll => true
      | _ => false
    else
      false

/-- The method `AddonOperator.MainQueueHasConvergeTasks`: `Iterate` visits the tasks of the
main queue head first and the visitor increments `convergeTasks`. -/
def MainQueueHasConvergeTasks (op : Operator) : Nat :=
  (queueTasks op.TaskQueues op.TaskQueues.MainName).foldl
    (fun convergeTasks t => if countsAsConvergeTask t then convergeTasks + 1 else convergeTasks)
    0

/-! ## Modules -/

/-- The library struct `module_manager.ModulesState`, the result of
`ModuleManager.DiscoverModulesState`. -/
structure ModulesState where
  EnabledModules : List String := []
  ModulesToDisable : List String := []
  ReleasedUnknownModules : List String := []
  NewlyEnabledModules : List String := []
  deriving DecidableEq, Repr

/-- The answers of the methods `SynchronizationNeeded`, `SynchronizationQueued` and
`SynchronizationDone` of a module, read together in one condition. -/
structure ModuleSynchronization where
  Needed : Bool := false
  Queued : Bool := false
  Done : Bool := false
  deriving DecidableEq, Repr

/-- The collaborators that the module tasks and the module manager events call, on top of
those of `OperatorEnv`. A field gives the answer of the collaborator at the time of the
call. -/
structure ModulesEnv extends OperatorEnv where
  /-- The constant `queue.DelayOnFailedTask`. -/
  DelayOnFailedTask : Nat
  /-- The method `ModuleManager.DiscoverModulesState`. -/
  DiscoverModulesState : Except String ModulesState
  /-- The method `ModuleManager.RegisterModuleHooks`, for the module of this name: the error
  if any. -/
  RegisterModuleHooks : String → Option String
  /-- The call `op.ModuleManager.GlobalValues()` followed by `globalValues.Checksum()`: the
  checksum, or the error of the one that fails. -/
  GlobalValuesChecksum : Except String String
  /-- The method `ModuleManager.DeleteModule`: the error if any. -/
  DeleteModule : String → Option String
  /-- The call `helm.NewClient(labels).DeleteRelease(moduleName)`: the error if any. -/
  DeleteRelease : String → Option String
  /-- The queue names `hookBinding.Queue` of `GetGlobalHook(name).Config.Schedules`. -/
  globalHookScheduleQueues : String → List String
  /-- The queue names `hookBinding.Queue` of `GetGlobalHook(name).Config.OnKubernetesEvents`. -/
  globalHookKubernetesQueues : String → List String
  /-- The method `ModuleManager.GetModuleNamesInOrder`. -/
  GetModuleNamesInOrder : List String
  /-- The method `ModuleManager.GetModuleHooksInOrder`. -/
  GetModuleHooksInOrder : String → BindingType → List String
  /-- The queue names `hookBinding.Queue` of `GetModuleHook(name).Config.Schedules`. -/
  moduleHookScheduleQueues : String → List String
  /-- The queue names `hookBinding.Queue` of `GetModuleHook(name).Config.OnKubernetesEvents`. -/
  moduleHookKubernetesQueues : String → List String
  /-- The synchronization state of the module of this name as read by the n-th of the four
  conditions of `HandleModuleRun` that read it, counted from 0. -/
  moduleSynchronization : String → Nat → ModuleSynchronization
  /-- The method `module.RunOnStartup`: the error if any. -/
  RunOnStartup : String → Option String
  /-- The method `ModuleManager.HandleModuleEnableKubernetesBindings`: the hook name and the
  execution info of each call of the callback, in order, and the error if any. -/
  HandleModuleEnableKubernetesBindings :
    String → List (String × BindingExecutionInfo) × Option String
  /-- The method `module.Run`: whether the values changed, and the error if any. -/
  ModuleRun : String → Bool × Option String

/-! ## Discovery of the modules state -/

/-- The event description given to the tasks made by `RunDiscoverModulesState`. -/
def discoverModulesDescription (hm : HookMetadata) : String :=
  if !stringsContains hm.EventDescription "DiscoverModulesState" then
    hm.EventDescription ++ ".DiscoverModulesState"
  else
    hm.EventDescription

/-- The value of `runOnStartupHooks` for a module in the first loop of
`RunDiscoverModulesState`. -/
def runOnStartupHooksFor (hm : HookMetadata) (modulesState : ModulesState)
    (moduleName : String) : Bool :=
  if !hm.OnStartupHooks then
    modulesState.NewlyEnabledModules.any (fun name => decide (name = moduleName))
  else
    hm.OnStartupHooks

/-- The first loop of `RunDiscoverModulesState`: a ModuleRun task for every enabled module. -/
def queueModuleRunTasks (env : ModulesEnv) (hm : HookMetadata) (modulesState : ModulesState)
    (st : List Task × Operator) : List Task × Operator :=
  modulesState.EnabledModules.foldl (fun st moduleName =>
    let r := NewTask env.toOperatorEnv st.2 TaskType.ModuleRun
    let newTask : Task :=
      { r.1 with
        QueueName := "main"
        Metadata :=
          { EventDescription := discoverModulesDescription hm
            ModuleName := moduleName
            OnStartupHooks := runOnStartupHooksFor hm modulesState moduleName } }
    (st.1 ++ [newTask], r.2)) st

/-- The second loop of `RunDiscoverModulesState`, over the rest `modules` of the modules to
disable: on startup the hooks of the module are registered, and an error of that ends the
function; then a ModuleDelete task is made. -/
def queueModuleDeleteTasks (env : ModulesEnv) (hm : HookMetadata) (modules : List String)
    (st : List Task × Operator) : Except String (List Task) × Operator :=
  match modules with
  | [] => (.ok st.1, st.2)
  | moduleName :: rest =>
    let registered : Option String × Operator :=
      if hm.OnStartupHooks then
        (env.RegisterModuleHooks moduleName, st.2.call [Call.RegisterModuleHooks moduleName])
      else
        (none, st.2)
    match registered.1 with
    | some err => (.error err, registered.2)
    | none =>
      let r := NewTask env.toOperatorEnv registered.2 TaskType.ModuleDelete
      let newTask : Task :=
        { r.1 with
          QueueName := "main"
          Metadata :=
            { EventDescription := discoverModulesDescription hm
              ModuleName := moduleName } }
      queueModuleDeleteTasks env hm rest (st.1 ++ [newTask], r.2)

/-- The third loop of `RunDiscoverModulesState`: a ModulePurge task for every unknown
release. -/
def queueModulePurgeTasks (env : ModulesEnv) (hm : HookMetadata) (modulesState : ModulesState)
    (st : List Task × Operator) : List Task × Operator :=
  modulesState.ReleasedUnknownModules.foldl (fun st moduleName =>
    let r := NewTask env.toOperatorEnv st.2 TaskType.ModulePurge
    let newTask : Task :=
      { r.1 with
        QueueName := "main"
        Metadata :=
          { EventDescription := discoverModulesDescription hm
            ModuleName := moduleName } }
    (st.1 ++ [newTask], r.2)) st

/-- The fourth loop of `RunDiscoverModulesState`, over the rest `hooks` of the AfterAll hooks
from index `i` on, `n` being `len(afterAllHooks)`: a GlobalHookRun task for every hook; the
task of index `n - 1` is flagged as the last and carries the checksum of the global values,
and an error of reading that checksum ends the function. -/
def queueAfterAllTasks (env : ModulesEnv) (hm : HookMetadata) (n : Nat) (i : Nat)
    (hooks : List String) (st : List Task × Operator) : Except String (List Task) × Operator :=
  match hooks with
  | [] => (.ok st.1, st.2)
  | hookName :: rest =>
    let afterAllBc : BindingContext :=
      { Binding := env.ContextBindingType BindingType.AfterAll
        BindingType := BindingType.AfterAll
        IncludeAllSnapshots := true }
    let taskMetadata : HookMetadata :=
      { EventDescription := discoverModulesDescription hm
        HookName := hookName
        BindingType := BindingType.AfterAll
        BindingContext := [afterAllBc] }
    let flagged : Except String HookMetadata :=
      if i = n - 1 then
        match env.GlobalValuesChecksum with
        | .error err => .error err
        | .ok checksum =>
          .ok { taskMetadata with LastAfterAllHook := true, ValuesChecksum := checksum }
      else
        .ok taskMetadata
    match flagged with
    | .error err => (.error err, st.2)
    | .ok taskMetadata =>
      let r := NewTask env.toOperatorEnv st.2 TaskType.GlobalHookRun
      let newTask : Task := { r.1 with QueueName := "main", Metadata := taskMetadata }
      queueAfterAllTasks env hm n (i + 1) rest (st.1 ++ [newTask], r.2)

/-- The method `AddonOperator.RunDiscoverModulesState`: the new tasks or the error, and the
operator. -/
def RunDiscoverModulesState (env : ModulesEnv) (op : Operator) (discoverTask : Task) :
    Except String (List Task) × Operator :=
  match env.DiscoverModulesState with
  | .error err => (.error err, op)
  | .ok modulesState =>
    let hm := discoverTask.Metadata
    let st := queueModuleRunTasks env hm modulesState ([], op)
    match queueModuleDeleteTasks env hm modulesState.ModulesToDisable st with
    | (.error err, op) => (.error err, op)
    | (.ok newTasks, op) =>
      let st := queueModulePurgeTasks env hm modulesState (newTasks, op)
      let afterAllHooks := env.GetGlobalHooksInOrder BindingType.AfterAll
      match queueAfterAllTasks env hm afterAllHooks.length 0 afterAllHooks st with
      | (.error err, op) => (.error err, op)
      | (.ok newTasks, op) =>
        (.ok newTasks, op.call (modulesState.ModulesToDisable.map Call.DisableModuleHooks))

/-- The method `TaskHandler`, case `task.DiscoverModulesState`, with the common end of the
function. -/
def TaskHandler_DiscoverModulesState (env : ModulesEnv) (op : Operator) (t : Task) :
    TaskResult × Operator :=
  let out : TaskResult × Operator :=
    match RunDiscoverModulesState env op t with
    | (.error err, op) =>
      let op := op.call [Call.SendCounter "modules_discover_errors" []]
      ({ Status := "Fail" },
        { op with TaskQueues := updateTask op.TaskQueues { t with FailureMessage := err } })
    | (.ok tasks, op) => ({ Status := "Success", AfterTasks := tasks }, op)
  (finishTaskResult t out.1, out.2)

/-! ## Events of the module manager -/

/-- The function `QueueHasModuleRunTask`: `Filter` is called with a predicate that keeps
every task and notes in `hasTask` whether it saw a ModuleRun task of the module. The result
is the value returned and the tasks of the queue after the call. -/
def QueueHasModuleRunTask (q : List Task) (moduleName : String) : Bool × List Task :=
  let r := Filter (fun (hasTask : Bool) (t : Task) =>
    if t.taskType = TaskType.ModuleRun then
      if t.Metadata.ModuleName = moduleName then (true, true) else (true, hasTask)
    else
      (true, hasTask)) false q
  (r.2, r.1)

/-- The library constants of the type of a module manager event. -/
inductive ModuleEventType where
  | ModulesChanged
  | GlobalChanged
  | AmbiguousState
  deriving DecidableEq, Repr

/-- The library struct of a module manager event; `ModulesChanges` lists the field `Name` of
each module change. -/
structure ModuleEvent where
  EventType : ModuleEventType
  ModulesChanges : List String := []
  deriving DecidableEq, Repr

/-- The body of the loop over `moduleEvent.ModulesChanges` in the ModulesChanged case of
`StartModuleManagerEventHandler`, for the module change of name `moduleName`. -/
def queueModuleRunIfMissing (env : OperatorEnv) (op : Operator) (moduleName : String) :
    Operator :=
  let main := op.TaskQueues.MainName
  let r := QueueHasModuleRunTask (queueTasks op.TaskQueues main) moduleName
  let op : Operator := { op with TaskQueues := setQueue op.TaskQueues main r.2 }
  if !r.1 then
    let n := NewTask env op TaskType.ModuleRun
    let newTask : Task :=
      { n.1 with
        QueueName := "main"
        Metadata := { EventDescription := "ModuleValuesChanged", ModuleName := moduleName } }
    { n.2 with TaskQueues := AddLast n.2.TaskQueues n.2.TaskQueues.MainName newTask }
  else
    op

/-- The body of the loop of `StartModuleManagerEventHandler` for one event received from
`op.ModuleManager.Ch()`. The first uuid drawn is the `event.id` of the log labels. -/
def handleModuleManagerEvent (env : OperatorEnv) (op : Operator) (moduleEvent : ModuleEvent) :
    Operator :=
  let op : Operator := { op with uuids := op.uuids + 1 }
  match moduleEvent.EventType with
  | ModuleEventType.ModulesChanged =>
    moduleEvent.ModulesChanges.foldl (queueModuleRunIfMissing env) op
  | ModuleEventType.GlobalChanged =>
    let op := op.call [Call.StopMonitors]
    let n := NewTask env op TaskType.ReloadAllModules
    let reloadAllModulesTask : Task :=
      { n.1 with
        QueueName := "main"
        Metadata := { EventDescription := "GlobalConfigValuesChanged", OnStartupHooks := false } }
    { n.2 with TaskQueues := AddLast n.2.TaskQueues n.2.TaskQueues.MainName reloadAllModulesTask }
  | ModuleEventType.AmbiguousState =>
    let n := NewTask env op TaskType.ModuleManagerRetry
    let newTask : Task := { n.1 with QueueName := "main" }
    { n.2 with TaskQueues := AddFirst n.2.TaskQueues n.2.TaskQueues.MainName newTask }

/-- The body of the loop of `StartModuleManagerEventHandler` for one event received from
`op.HelmResourcesManager.Ch()`, about absent resources of the module `moduleName`. -/
def handleAbsentResourcesEvent (env : OperatorEnv) (op : Operator) (moduleName : String) :
    Operator :=
  let op : Operator := { op with uuids := op.uuids + 1 }
  let main := op.TaskQueues.MainName
  let r := QueueHasModuleRunTask (queueTasks op.TaskQueues main) moduleName
  let op : Operator := { op with TaskQueues := setQueue op.TaskQueues main r.2 }
  if !r.1 then
    let n := NewTask env op TaskType.ModuleRun
    let newTask : Task :=
      { n.1 with
        QueueName := "main"
        Metadata :=
          { EventDescription := "DetectAbsentHelmResources", ModuleName := moduleName } }
    { n.2 with TaskQueues := AddLast n.2.TaskQueues n.2.TaskQueues.MainName newTask }
  else
    op

/-- The method `TaskHandler`, case `task.ModuleManagerRetry`, with the common end of the
function. -/
def TaskHandler_ModuleManagerRetry (env : ModulesEnv) (op : Operator) (t : Task) :
    TaskResult × Operator :=
  let op := op.call [Call.SendCounter "modules_discover_errors" [], Call.Retry]
  (finishTaskResult t { Status := "Success", DelayBeforeNextTask := env.DelayOnFailedTask }, op)

/-- The method `TaskHandler`, case `task.GlobalHookEnableScheduleBindings`, with the common
end of the function. -/
def TaskHandler_GlobalHookEnableScheduleBindings (op : Operator) (t : Task) :
    TaskResult × Operator :=
  let op := op.call [Call.EnableScheduleBindings t.Metadata.HookName]
  (finishTaskResult t { Status := "Success" }, op)

/-- The method `TaskHandler`, case `task.ModuleDelete`, with the common end of the
function. -/
def TaskHandler_ModuleDelete (env : ModulesEnv) (op : Operator) (t : Task) :
    TaskResult × Operator :=
  let hm := t.Metadata
  let op := op.call [Call.DeleteModule hm.ModuleName]
  let out : TaskResult × Operator :=
    match env.DeleteModule hm.ModuleName with
    | some err =>
      let op := op.call [Call.SendCounter "module_delete_errors" [("module", hm.ModuleName)]]
      ({ Status := "Fail" },
        { op with TaskQueues := updateTask op.TaskQueues { t with FailureMessage := err } })
    | none => ({ Status := "Success" }, op)
  (finishTaskResult t out.1, out.2)

/-- The method `TaskHandler`, case `task.ModulePurge`, with the common end of the function:
an error of the release deletion is logged only. -/
def TaskHandler_ModulePurge (op : Operator) (t : Task) : TaskResult × Operator :=
  let op := op.call [Call.DeleteRelease t.Metadata.ModuleName]
  (finishTaskResult t { Status := "Success" }, op)

/-! ## Run of a module -/

/-- The statement guarded by `op.TaskQueues.GetByName(name) == nil` in
`InitAndStartHookQueues`: the queue `name` is created and started if it is missing. -/
def startQueueIfMissing (op : Operator) (name : String) : Operator :=
  match GetByName op.TaskQueues name with
  | none => ({ op with TaskQueues := NewNamedQueue op.TaskQueues name }).call [Call.StartQueue name]
  | some _ => op

/-- The method `AddonOperator.InitAndStartHookQueues`. -/
def InitAndStartHookQueues (env : ModulesEnv) (op : Operator) : Operator :=
  let schHooks := env.GetGlobalHooksInOrder BindingType.Schedule
  let op := schHooks.foldl (fun op hookName =>
    (env.globalHookScheduleQueues hookName).foldl startQueueIfMissing op) op
  let kubeHooks := env.GetGlobalHooksInOrder BindingType.OnKubernetesEvent
  let op := kubeHooks.foldl (fun op hookName =>
    (env.globalHookKubernetesQueues hookName).foldl startQueueIfMissing op) op
  let modules := env.GetModuleNamesInOrder
  modules.foldl (fun op modName =>
    let schHooks := env.GetModuleHooksInOrder modName BindingType.Schedule
    let op := schHooks.foldl (fun op hookName =>
      (env.moduleHookScheduleQueues hookName).foldl startQueueIfMissing op) op
    let kubeHooks := env.GetModuleHooksInOrder modName BindingType.OnKubernetesEvent
    kubeHooks.foldl (fun op hookName =>
      (env.moduleHookKubernetesQueues hookName).foldl startQueueIfMissing op) op) op

/-- The library method `TaskQueueSet.Remove(name)`. -/
def RemoveQueue (tqs : TaskQueueSet) (name : String) : TaskQueueSet :=
  { tqs with Queues := fun n => if n = name then none else tqs.Queues n }

/-- The name of the queue for the Synchronization tasks of a module that are bound to the
queue of its ModuleRun task. -/
def syncQueueName (hm : HookMetadata) : String :=
  "main-subqueue-kubernetes-Synchronization-module-" ++ hm.ModuleName

/-- The callback that `HandleModuleRun` passes to `HandleModuleEnableKubernetesBindings`,
called for the hook `hookName` with `info`: a ModuleHookRun task for the Synchronization run
of one binding, filed by its queue. -/
def moduleEnableKubernetesBindingsCallback (env : ModulesEnv) (t : Task)
    (eventDescription : String) (st : Operator × SyncTasks) (hookName : String)
    (info : BindingExecutionInfo) : Operator × SyncTasks :=
  let hm := t.Metadata
  let op := st.1
  let sync := st.2
  let queueName := if info.QueueName = t.QueueName then syncQueueName hm else info.QueueName
  let kubernetesBindingId := env.uuid op.uuids
  let op : Operator := { op with uuids := op.uuids + 1 }
  let taskMeta : HookMetadata :=
    { EventDescription := eventDescription
      ModuleName := hm.ModuleName
      HookName := hookName
      BindingType := BindingType.OnKubernetesEvent
      BindingContext := info.BindingContext
      AllowFailure := info.AllowFailure
      KubernetesBindingId := kubernetesBindingId
      WaitForSynchronization := info.WaitForSynchronization }
  let r := NewTask env.toOperatorEnv op TaskType.ModuleHookRun
  let newTask : Task := { r.1 with QueueName := queueName, Metadata := taskMeta }
  if info.QueueName = t.QueueName then
    (r.2, { sync with mainSyncTasks := sync.mainSyncTasks ++ [newTask] })
  else if info.WaitForSynchronization then
    (r.2, { sync with
      waitSyncTasks := waitSyncAssign sync.waitSyncTasks kubernetesBindingId newTask })
  else
    (r.2, { sync with parallelSyncTasks := sync.parallelSyncTasks ++ [newTask] })

/-- The event description given to the Synchronization tasks of a module. -/
def moduleSynchronizationDescription (hm : HookMetadata) : String :=
  if !stringsContains hm.EventDescription "EnableKubernetesBindings" then
    hm.EventDescription ++ ".EnableKubernetesBindings"
  else
    hm.EventDescription

/-- The call of `HandleModuleEnableKubernetesBindings` in `HandleModuleRun`: the callback is
run for every binding, in order. -/
def collectModuleSyncTasks (env : ModulesEnv) (op : Operator) (t : Task) :
    Operator × SyncTasks :=
  (env.HandleModuleEnableKubernetesBindings t.Metadata.ModuleName).1.foldl
    (fun st c =>
      moduleEnableKubernetesBindingsCallback env t (moduleSynchronizationDescription t.Metadata)
        st c.1 c.2)
    (op, {})

/-- The loop of `HandleModuleRun` over the map `waitSyncTasks`, here in the order of
insertion: a task whose queue exists gets a synchronization state and is added to the tail
of its queue. -/
def queueModuleWaitSyncTasks (waitSyncTasks : List (String × Task)) (op : Operator) :
    Operator :=
  waitSyncTasks.foldl (fun (op : Operator) e =>
    match GetByName op.TaskQueues e.2.QueueName with
    | none => op
    | some _ =>
      let op := op.call [Call.CreateSynchronizationState e.2.Metadata.HookName e.1]
      { op with TaskQueues := AddLast op.TaskQueues e.2.QueueName e.2 }) op

/-- The loop over `parallelSyncTasks`, the same in `HandleModuleRun` and in the
GlobalHookEnableKubernetesBindings case: a task whose queue exists is added to the tail of
its queue. -/
def queueParallelSyncTasks (parallelSyncTasks : List Task) (op : Operator) : Operator :=
  parallelSyncTasks.foldl (fun (op : Operator) tsk =>
    match GetByName op.TaskQueues tsk.QueueName with
    | none => op
    | some _ => { op with TaskQueues := AddLast op.TaskQueues tsk.QueueName tsk }) op

/-- The statement of `HandleModuleRun` guarded by `len(mainSyncTasks) > 0`: the tasks are
added to the queue `name` made for them, which is then started. -/
def queueModuleMainSyncTasks (mainSyncTasks : List Task) (name : String) (op : Operator) :
    Operator :=
  if mainSyncTasks.length > 0 then
    let op := mainSyncTasks.foldl (fun (op : Operator) tsk =>
      { op with TaskQueues := AddLast op.TaskQueues name tsk }) op
    op.call [Call.StartQueue name]
  else op

/-- The block of `HandleModuleRun` that queues the Synchronization tasks of the module: the
value of `moduleRunErr` after it, and the operator. -/
def queueModuleSynchronizationTasks (env : ModulesEnv) (op : Operator) (t : Task) :
    Option String × Operator :=
  let hm := t.Metadata
  let op : Operator := { op with TaskQueues := NewNamedQueue op.TaskQueues (syncQueueName hm) }
  let collected := collectModuleSyncTasks env op t
  match (env.HandleModuleEnableKubernetesBindings hm.ModuleName).2 with
  | some err => (some err, collected.1)
  | none =>
    (none,
      queueModuleMainSyncTasks collected.2.mainSyncTasks (syncQueueName hm)
        (queueParallelSyncTasks collected.2.parallelSyncTasks
          (queueModuleWaitSyncTasks collected.2.waitSyncTasks collected.1)))

/-- The first block of `HandleModuleRun`, the OnStartup hooks: the value of `moduleRunErr`
after it, and the operator. -/
def moduleRunOnStartup (env : ModulesEnv) (op : Operator) (t : Task) :
    Option String × Operator :=
  let hm := t.Metadata
  let s0 := env.moduleSynchronization hm.ModuleName 0
  if hm.OnStartupHooks && (!s0.Needed || (!s0.Queued && !s0.Done)) then
    let op := InitAndStartHookQueues env op
    (env.RunOnStartup hm.ModuleName, op.call [Call.RunOnStartup hm.ModuleName])
  else
    (none, op)

/-- The first two blocks of `HandleModuleRun`, the OnStartup hooks and the queueing of the
Synchronization tasks: the value of `moduleRunErr` after them, and the operator. -/
def moduleRunPrelude (env : ModulesEnv) (op : Operator) (t : Task) : Option String × Operator :=
  let hm := t.Metadata
  let st := moduleRunOnStartup env op t
  let s1 := env.moduleSynchronization hm.ModuleName 1
  if st.1.isNone && s1.Needed && !s1.Queued && !s1.Done then
    queueModuleSynchronizationTasks env st.2 t
  else
    st

/-- The condition of the block of `HandleModuleRun` that returns `Repeat`. -/
def moduleRunRepeats (env : ModulesEnv) (op : Operator) (t : Task) : Bool :=
  let s2 := env.moduleSynchronization t.Metadata.ModuleName 2
  (moduleRunPrelude env op t).1.isNone && s2.Needed && s2.Queued && !s2.Done

/-- Whether `HandleModuleRun` reaches the call of `module.Run`: it does not return `Repeat`
and the condition of the block that runs the module holds. -/
def moduleRunInvoked (env : ModulesEnv) (op : Operator) (t : Task) : Bool :=
  let s3 := env.moduleSynchronization t.Metadata.ModuleName 3
  !moduleRunRepeats env op t && ((moduleRunPrelude env op t).1.isNone && (!s3.Needed || s3.Done))

/-- The method `AddonOperator.HandleModuleRun`. -/
def HandleModuleRun (env : ModulesEnv) (op : Operator) (t : Task) : TaskResult × Operator :=
  let hm := t.Metadata
  let pre := moduleRunPrelude env op t
  if moduleRunRepeats env op t then
    ({ Status := "Repeat" }, pre.2)
  else
    let s3 := env.moduleSynchronization hm.ModuleName 3
    let ran : Bool × Option String × Operator :=
      if pre.1.isNone && (!s3.Needed || s3.Done) then
        let op : Operator :=
          { pre.2 with TaskQueues := RemoveQueue pre.2.TaskQueues (syncQueueName hm) }
        let op := op.call [Call.StartModuleHooks hm.ModuleName, Call.ModuleRun hm.ModuleName]
        ((env.ModuleRun hm.ModuleName).1, (env.ModuleRun hm.ModuleName).2, op)
      else
        (false, pre.1, pre.2)
    let valuesChanged := ran.1
    let op := ran.2.2
    match ran.2.1 with
    | some moduleRunErr =>
      let op := op.call [Call.SendCounter "module_run_errors" [("module", hm.ModuleName)]]
      ({ Status := "Fail" },
        { op with
          TaskQueues := updateTask op.TaskQueues { t with FailureMessage := moduleRunErr } })
    | none =>
      if valuesChanged then
        let eventDescription :=
          if !stringsContains hm.EventDescription "AfterHelmHooksChangeModuleValues" then
            hm.EventDescription ++ ".AfterHelmHooksChangeModuleValues"
          else
            hm.EventDescription
        let hm : HookMetadata :=
          { hm with OnStartupHooks := false, EventDescription := eventDescription }
        let r := NewTask env.toOperatorEnv op TaskType.ModuleRun
        let newTask : Task := { r.1 with QueueName := t.QueueName, Metadata := hm }
        ({ Status := "Success", AfterTasks := [newTask] }, r.2)
      else
        ({ Status := "Success" }, op.call [Call.SetIsReady hm.ModuleName])

/-- The method `TaskHandler`, case `task.ModuleRun`, with the common end of the function. -/
def TaskHandler_ModuleRun (env : ModulesEnv) (op : Operator) (t : Task) :
    TaskResult × Operator :=
  let r := HandleModuleRun env op t
  (finishTaskResult t r.1, r.2)

/-- The calls of `o` are those of `base` followed by calls that all satisfy `Q`. -/
def callsExtend (base : Operator) (Q : Call → Prop) (o : Operator) : Prop :=
  ∃ extra, o.calls = base.calls ++ extra ∧ ∀ c ∈ extra, Q c

/-! ## Placement of the Synchronization tasks of a global hook -/

/-- The Synchronization task that the callback of the GlobalHookEnableKubernetesBindings case
makes for the binding `c` of the handled task `t` when `n` uuids have been drawn: the
kubernetes binding id is the uuid of rank `n`, the task id the uuid of rank `n + 1`. -/
def syncTaskFor (env : OperatorEnv) (t : Task) (n : Nat) (c : String × BindingExecutionInfo) :
    Task :=
  { Id := env.uuid (n + 1)
    taskType := TaskType.GlobalHookRun
    QueueName := c.2.QueueName
    Metadata :=
      { EventDescription := enableKubernetesBindingsDescription t.Metadata
        HookName := c.1
        BindingType := BindingType.OnKubernetesEvent
        BindingContext := c.2.BindingContext
        AllowFailure := c.2.AllowFailure
        ReloadAllOnValuesChanges := false
        KubernetesBindingId := env.uuid n
        WaitForSynchronization := c.2.WaitForSynchronization } }

/-- The Synchronization tasks generated for the bindings `calls`, in binding order, when `n`
uuids have been drawn before the first one. -/
def syncTasksFrom (env : OperatorEnv) (t : Task) (n : Nat)
    (calls : List (String × BindingExecutionInfo)) : List Task :=
  match calls with
  | [] => []
  | c :: rest => syncTaskFor env t n c :: syncTasksFrom env t (n + 2) rest

/-- The Synchronization tasks generated while the GlobalHookEnableKubernetesBindings task `t`
is handled in the state `op`, one per binding, in binding order. -/
def generatedSyncTasks (env : OperatorEnv) (op : Operator) (t : Task) : List Task :=
  syncTasksFrom env t op.uuids (env.HandleGlobalEnableKubernetesBindings t.Metadata.HookName).1

/-- The loop of the GlobalHookEnableKubernetesBindings case over the map `waitSyncTasks`,
here in the order of insertion: a task whose queue exists is registered as queued and added
to the tail of its queue. -/
def queueGlobalWaitSyncTasks (waitSyncTasks : List (String × Task)) (op : Operator) :
    Operator :=
  waitSyncTasks.foldl (fun (op : Operator) e =>
    match GetByName op.TaskQueues e.2.QueueName with
    | none => op
    | some _ =>
      let op := op.call [Call.SynchronizationQueued e.1]
      { op with TaskQueues := AddLast op.TaskQueues e.2.QueueName e.2 }) op

/-! ## The dispatch on the task type -/

/-- The method `AddonOperator.TaskHandler`: the switch on the type of the task; the common
end of the function is part of every case. -/
def TaskHandler (env : ModulesEnv) (op : Operator) (t : Task) : TaskResult × Operator :=
  match t.taskType with
  | TaskType.GlobalHookRun => TaskHandler_GlobalHookRun env.toOperatorEnv op t
  | TaskType.GlobalHookEnableScheduleBindings => TaskHandler_GlobalHookEnableScheduleBindings op t
  | TaskType.GlobalHookEnableKubernetesBindings =>
    TaskHandler_GlobalHookEnableKubernetesBindings env.toOperatorEnv op t
  | TaskType.GlobalHookWaitKubernetesSynchronization =>
    TaskHandler_GlobalHookWaitKubernetesSynchronization env.toOperatorEnv op t
  | TaskType.ReloadAllModules => TaskHandler_ReloadAllModules env.toOperatorEnv op t
  | TaskType.DiscoverModulesState => TaskHandler_DiscoverModulesState env op t
  | TaskType.ModuleRun => TaskHandler_ModuleRun env op t
  | TaskType.ModuleDelete => TaskHandler_ModuleDelete env op t
  | TaskType.ModuleHookRun => TaskHandler_ModuleHookRun env.toOperatorEnv op t
  | TaskType.ModulePurge => TaskHandler_ModulePurge op t
  | TaskType.ModuleManagerRetry => TaskHandler_ModuleManagerRetry env op t

/-! ## A concrete environment for the module tasks -/

/-- The environment `demoOperatorEnv` with a BeforeAll hook and two AfterAll hooks, modules
`alpha` and `beta` enabled, `beta` newly so, `gamma` to disable and an unknown release
`delta`; no collaborator fails. -/
def demoModulesEnv : ModulesEnv :=
  { toOperatorEnv :=
      { demoOperatorEnv with
        GetGlobalHooksInOrder := fun b =>
          match b with
          | BindingType.BeforeAll => ["before"]
          | BindingType.AfterAll => ["after-a", "after-b"]
          | other => demoOperatorEnv.GetGlobalHooksInOrder other }
    DelayOnFailedTask := 5
    DiscoverModulesState := .ok
      { EnabledModules := ["alpha", "beta"]
        ModulesToDisable := ["gamma"]
        ReleasedUnknownModules := ["delta"]
        NewlyEnabledModules := ["beta"] }
    RegisterModuleHooks := fun _ => none
    GlobalValuesChecksum := .ok "sum"
    DeleteModule := fun _ => none
    DeleteRelease := fun _ => none
    globalHookScheduleQueues := fun _ => ["main"]
    globalHookKubernetesQueues := fun _ => ["main"]
    GetModuleNamesInOrder := ["alpha", "beta"]
    GetModuleHooksInOrder := fun _ _ => []
    moduleHookScheduleQueues := fun _ => []
    moduleHookKubernetesQueues := fun _ => []
    moduleSynchronization := fun _ _ => { Needed := true, Queued := true, Done := false }
    RunOnStartup := fun _ => none
    HandleModuleEnableKubernetesBindings := fun _ => ([], none)
    ModuleRun := fun _ => (true, none) }

/-- An operator with the queues `main`, the main queue, holding `demoScheduleTask`, and
`side`, empty. -/
def demoMainOperator : Operator :=
  { TaskQueues :=
      { MainName := "main"
        Queues := fun n =>
          if n = "main" then some [demoScheduleTask]
          else if n = "side" then some []
          else none } }

/-- The environment `demoModulesEnv` with the synchronization of every module done. -/
def demoSyncedEnv : ModulesEnv :=
  { demoModulesEnv with
    moduleSynchronization := fun _ _ => { Needed := true, Queued := true, Done := true } }

/-- A ModuleRun task of the queue `main` for the module `alpha`, with the OnStartup hooks. -/
def demoModuleRunTask : Task :=
  { Id := "mr", taskType := TaskType.ModuleRun, QueueName := "main",
    Metadata :=
      { EventDescription := "DiscoverModulesState", ModuleName := "alpha",
        OnStartupHooks := true } }

/-- A ReloadAllModules task of the queue `main`. -/
def demoReloadTask : Task :=
  { Id := "r1", taskType := TaskType.ReloadAllModules, QueueName := "main",
    Metadata := { EventDescription := "GlobalConfigValuesChanged" } }

/-- Another ReloadAllModules task of the queue `main`. -/
def demoReloadTask2 : Task :=
  { Id := "r2", taskType := TaskType.ReloadAllModules, QueueName := "main",
    Metadata := { EventDescription := "GlobalConfigValuesChanged" } }

/-- A DiscoverModulesState task made after startup. -/
def demoDiscoverTask : Task :=
  { Id := "d", taskType := TaskType.DiscoverModulesState, QueueName := "main",
    Metadata := { EventDescription := "ReloadAll", OnStartupHooks := false } }

/-- The tasks that `RunDiscoverModulesState` returns for `demoDiscoverTask` in
`demoModulesEnv`, starting from no uuid drawn. -/
def demoDiscoverTasks : List Task :=
  [ { Id := "u", taskType := TaskType.ModuleRun, QueueName := "main",
      Metadata :=
        { EventDescription := "ReloadAll.DiscoverModulesState", ModuleName := "alpha",
          OnStartupHooks := false } },
    { Id := "uu", taskType := TaskType.ModuleRun, QueueName := "main",
      Metadata :=
        { EventDescription := "ReloadAll.DiscoverModulesState", ModuleName := "beta",
          OnStartupHooks := true } },
    { Id := "uuu", taskType := TaskType.ModuleDelete, QueueName := "main",
      Metadata :=
        { EventDescription := "ReloadAll.DiscoverModulesState", ModuleName := "gamma" } },
    { Id := "uuuu", taskType := TaskType.ModulePurge, QueueName := "main",
      Metadata :=
        { EventDescription := "ReloadAll.DiscoverModulesState", ModuleName := "delta" } },
    { Id := "uuuuu", taskType := TaskType.GlobalHookRun, QueueName := "main",
      Metadata :=
        { EventDescription := "ReloadAll.DiscoverModulesState", HookName := "after-a",
          BindingType := BindingType.AfterAll,
          BindingContext :=
            [{ Binding := "binding", BindingType := BindingType.AfterAll,
               IncludeAllSnapshots := true }] } },
    { Id := "uuuuuu", taskType := TaskType.GlobalHookRun, QueueName := "main",
      Metadata :=
        { EventDescription := "ReloadAll.DiscoverModulesState", HookName := "after-b",
          BindingType := BindingType.AfterAll,
          BindingContext :=
            [{ Binding := "binding", BindingType := BindingType.AfterAll,
               IncludeAllSnapshots := true }],
          LastAfterAllHook := true, ValuesChecksum := "sum" } } ]

/-! ## The combiner -/

/-- Modelled from the spec: the peers that the combiner of the `shell-operator` library, the
code of which is outside the repository, fuses into the handled task `t`: the run of tasks
that follow `t` in the queue, are of the same hook name and the same binding kind, and on
which the stop predicate is false; the first other task ends the fusion. -/
def fusedPeers (q : List Task) (t : Task) (stop : Task → Bool) : List Task :=
  ((q.dropWhile (fun tsk => decide (tsk.Id ≠ t.Id))).drop 1).takeWhile (fun tsk =>
    decide (tsk.Metadata.HookName = t.Metadata.HookName) &&
      decide (tsk.Metadata.BindingType = t.Metadata.BindingType) && !stop tsk)

/-- Modelled from the spec: the combiner `CombineBindingContextForHook` of the
`shell-operator` library: the binding contexts of the handled task and of the fused peers,
concatenated in queue order, and the queue without the peers; a nil slice and the queue as
it is when there is no peer to fuse. -/
def CombineBindingContextForHook (q : List Task) (t : Task) (stop : Task → Bool) :
    Option (List BindingContext) × List Task :=
  let peers := fusedPeers q t stop
  if peers.isEmpty then
    (none, q)
  else
    (some (peers.foldl (fun bcs tsk => bcs ++ tsk.Metadata.BindingContext)
        t.Metadata.BindingContext),
      q.filter (fun tsk => !peers.any (fun peer => decide (peer.Id = tsk.Id))))

/-- The environment `demoOperatorEnv` with hooks of config version `v1` and the combiner
above. -/
def demoCombineEnv : OperatorEnv :=
  { demoOperatorEnv with
    globalHookVersion := fun _ => "v1"
    moduleHookVersion := fun _ => "v1"
    CombineBindingContextForHook := CombineBindingContextForHook }

/-- An Event task of the hook `watch` in the queue `main`, with one binding context. -/
def demoEventTask (id : String) : Task :=
  { Id := id, taskType := TaskType.GlobalHookRun, QueueName := "main",
    Metadata :=
      { HookName := "watch", BindingType := BindingType.OnKubernetesEvent,
        BindingContext := [{ Binding := "pods", WatchEvent := id }] } }

/-- A Synchronization task of the hook `watch` in the queue `main`, with one binding
context, the kubernetes binding id `k` and the given `WaitForSynchronization` flag. -/
def demoWaitTask (id : String) (wait : Bool) : Task :=
  { Id := id, taskType := TaskType.GlobalHookRun, QueueName := "main",
    Metadata :=
      { HookName := "watch", BindingType := BindingType.OnKubernetesEvent,
        BindingContext := [{ Binding := "pods", WatchEvent := "Synchronization" }],
        KubernetesBindingId := "k", WaitForSynchronization := wait } }

/-- The queue of two Events, a Synchronization with `WaitForSynchronization` set, and one
more Event, all of the hook `watch`. -/
def demoBarrierQueue : List Task :=
  [demoEventTask "e1", demoEventTask "e2", demoWaitTask "s" true, demoEventTask "e3"]

/-! ## ModuleRun tasks of a module -/

/-- Whether `t` is a ModuleRun task of the module `moduleName`. -/
def isModuleRunTaskOf (moduleName : String) (t : Task) : Bool :=
  decide (t.taskType = TaskType.ModuleRun ∧ t.Metadata.ModuleName = moduleName)

/-- The ModuleRun task that the ModulesChanged case makes for the module `moduleName` when
`uuids` uuids have been drawn. -/
def moduleValuesChangedTask (env : OperatorEnv) (uuids : Nat) (moduleName : String) : Task :=
  { Id := env.uuid uuids, taskType := TaskType.ModuleRun, QueueName := "main",
    Metadata := { EventDescription := "ModuleValuesChanged", ModuleName := moduleName } }

/-! ## The converge status -/

/-- The method `AddonOperator.CheckConvergeStatus`; its argument, the handled task, is read
for the log line only and is left out. -/
def CheckConvergeStatus (op : Operator) : Operator :=
  let convergeTasks := MainQueueHasConvergeTasks op
  let op : Operator :=
    if convergeTasks > 0 ∧ op.StartupConvergeStarted = false then
      { op with StartupConvergeStarted := true }
    else op
  if op.StartupConvergeDone = false ∧ op.StartupConvergeStarted = true then
    if convergeTasks = 0 then
      ({ op with StartupConvergeDone := true } : Operator).call [Call.SetReapLocked false]
    else op
  else op

/-- A sequence of calls of `CheckConvergeStatus`, each with the task queues as they are at
the time of the call; nothing else writes the two converge flags. -/
def checkConvergeStatusCalls (op : Operator) (steps : List TaskQueueSet) : Operator :=
  steps.foldl (fun op tqs => CheckConvergeStatus { op with TaskQueues := tqs }) op

/-- The task queues with the main queue `main` holding the tasks `q`. -/
def mainQueueOf (q : List Task) : TaskQueueSet :=
  { MainName := "main", Queues := fun n => if n = "main" then some q else none }

end AddonOperator

namespace ModuleManager

/-! ## Modules

The embedding of `src/module_manager/module.go`. The calls on the module manager, on helm
and on the file system are fields of an environment record; the calls made for their effect
are returned as a list, oldest first. -/

/-- The constants of the type `BindingType` that `module.go` names. -/
inductive BindingType where
  | BeforeHelm
  | AfterHelm
  deriving DecidableEq, Repr

/-- The struct `Module`; the field `moduleManager` is the receiver of the calls that the
environment answers. -/
structure Module where
  Name : String
  DirectoryName : String
  Path : String
  deriving DecidableEq, Repr

/-- The struct `ModuleHook`, with the name of the hook. -/
structure ModuleHook where
  Name : String
  deriving DecidableEq, Repr

/-- A call that a module run makes for its effect. -/
inductive Effect where
  /-- The call `helm.HelmDeleteSingleFailedRevision(releaseName)`. -/
  | HelmDeleteSingleFailedRevision (releaseName : String)
  /-- The call `moduleHook.run(binding)`, with the name of the hook. -/
  | HookRun (hookName : String) (binding : BindingType)
  /-- The call `dumpValuesYaml(fileName, m.values())`. -/
  | DumpValuesYaml (fileName : String)
  /-- The call `execCommand` of `helm upgrade releaseName . --install` in the directory `dir`
  with the values file `valuesPath`. -/
  | HelmUpgrade (dir releaseName valuesPath : String)
  deriving DecidableEq, Repr

/-- What the collaborators of a module run answer. -/
structure RunEnv where
  /-- The value `filepath.Join(path, "Chart.yaml")`. -/
  chartPath : String → String
  /-- Whether `os.Stat` finds the file of the given path. -/
  fileExists : String → Bool
  /-- The function `helm.HelmDeleteSingleFailedRevision`: the error if any. -/
  HelmDeleteSingleFailedRevision : String → Option String
  /-- The method `MainModuleManager.GetModuleHooksInOrder`. -/
  GetModuleHooksInOrder : String → BindingType → Except String (List String)
  /-- The method `MainModuleManager.GetModuleHook`. -/
  GetModuleHook : String → Except String ModuleHook
  /-- The method `ModuleHook.run`: the error if any. -/
  hookRun : ModuleHook → BindingType → Option String
  /-- The function `dumpValuesYaml`, given the file name: the path of the file written. -/
  dumpValuesYaml : String → Except String String
  /-- The run of `helm upgrade` by `execCommand`, given the directory, the release name and
  the path of the values file: the error if any. -/
  execHelmUpgrade : String → String → String → Option String

/-- The method `Module.checkHelmChart`. -/
def Module.checkHelmChart (env : RunEnv) (m : Module) : Bool × Option String :=
  let chartPath := env.chartPath m.Path
  if env.fileExists chartPath = false then
    (false, some ("module '" ++ m.Name ++ "' chart file not found '" ++ chartPath ++ "'"))
  else
    (true, none)

/-- The method `Module.generateHelmReleaseName`. -/
def Module.generateHelmReleaseName (m : Module) : String :=
  m.Name

/-- The method `Module.cleanup`: the error if any, and the calls made. -/
def Module.cleanup (env : RunEnv) (m : Module) : Option String × List Effect :=
  let r := m.checkHelmChart env
  if r.1 = false ∧ r.2.isSome then
    (none, [])
  else
    (env.HelmDeleteSingleFailedRevision m.generateHelmReleaseName,
      [Effect.HelmDeleteSingleFailedRevision m.generateHelmReleaseName])

/-- The method `Module.prepareValuesPath`. -/
def Module.prepareValuesPath (env : RunEnv) (m : Module) : Except String String :=
  env.dumpValuesYaml (m.Name ++ ".yaml")

/-- The method `Module.exec`: the error if any, and the calls made. -/
def Module.exec (env : RunEnv) (m : Module) : Option String × List Effect :=
  let r := m.checkHelmChart env
  if r.1 = false ∧ r.2.isSome then
    (none, [])
  else
    let helmReleaseName := m.generateHelmReleaseName
    match m.prepareValuesPath env with
    | .error err => (some err, [Effect.DumpValuesYaml (m.Name ++ ".yaml")])
    | .ok valuesPath =>
      let effects :=
        [Effect.DumpValuesYaml (m.Name ++ ".yaml"),
          Effect.HelmUpgrade m.Path helmReleaseName valuesPath]
      match env.execHelmUpgrade m.Path helmReleaseName valuesPath with
      | some err => (some ("module '" ++ m.Name ++ "': helm FAILED: " ++ err), effects)
      | none => (none, effects)

/-- A loop of `Module.run` over the names of the hooks of one binding: the first error
returns from the function. -/
def runModuleHooks (env : RunEnv) (binding : BindingType) :
    List String → Option String × List Effect
  | [] => (none, [])
  | moduleHookName :: rest =>
    match env.GetModuleHook moduleHookName with
    | .error err => (some err, [])
    | .ok moduleHook =>
      match env.hookRun moduleHook binding with
      | some err => (some err, [Effect.HookRun moduleHook.Name binding])
      | none =>
        let r := runModuleHooks env binding rest
        (r.1, Effect.HookRun moduleHook.Name binding :: r.2)

/-- The method `Module.run`: the error if any, and the calls made, oldest first. -/
def Module.run (env : RunEnv) (m : Module) : Option String × List Effect :=
  let c := m.cleanup env
  match c.1 with
  | some err => (some err, c.2)
  | none =>
    match env.GetModuleHooksInOrder m.Name BindingType.BeforeHelm with
    | .error err => (some err, c.2)
    | .ok moduleHooksBeforeHelm =>
      let b := runModuleHooks env BindingType.BeforeHelm moduleHooksBeforeHelm
      match b.1 with
      | some err => (some err, c.2 ++ b.2)
      | none =>
        let e := m.exec env
        match e.1 with
        | some err => (some err, c.2 ++ b.2 ++ e.2)
        | none =>
          match env.GetModuleHooksInOrder m.Name BindingType.AfterHelm with
          | .error err => (some err, c.2 ++ b.2 ++ e.2)
          | .ok moduleHooksAfterHelm =>
            let a := runModuleHooks env BindingType.AfterHelm moduleHooksAfterHelm
            (a.1, c.2 ++ b.2 ++ e.2 ++ a.2)

/-! ### A concrete environment -/

/-- The module `web` of the directory `010-web`. -/
def demoModule : Module :=
  { Name := "web", DirectoryName := "010-web", Path := "modules/010-web" }

/-- An environment in which the module has a chart, two beforeHelm hooks and one afterHelm
hook, and the hook `before-2` fails. -/
def demoRunEnv : RunEnv :=
  { chartPath := fun path => path ++ "/Chart.yaml"
    fileExists := fun _ => true
    HelmDeleteSingleFailedRevision := fun _ => none
    GetModuleHooksInOrder := fun _ binding =>
      match binding with
      | BindingType.BeforeHelm => .ok ["before-1", "before-2"]
      | BindingType.AfterHelm => .ok ["after-1"]
    GetModuleHook := fun name => .ok { Name := name }
    hookRun := fun hook _ => if hook.Name = "before-2" then some "exit status 1" else none
    dumpValuesYaml := fun fileName => .ok ("tmp/" ++ fileName)
    execHelmUpgrade := fun _ _ _ => none }

end ModuleManager

namespace ModuleManager

/-! ## The index of the modules

The part of the struct `MainModuleManager` that `initModulesIndex` writes. A Go map is a
function into `Option`. The function `initModuleHooks` is outside the file: the two indices
of hooks that it fills are kept as one value of the type `List String`, which the
environment transforms. Values are kept as text. -/

/-- The type `utils.Values`, kept as text. -/
abbrev Values := String

/-- The struct `utils.ModuleConfig`, with the fields that `initModulesIndex` reads. -/
structure ModuleConfig where
  IsEnabled : Bool
  Values : Values
  deriving DecidableEq, Repr

/-- An entry of a directory listing, of the interface `os.FileInfo`. -/
structure FileInfo where
  Name : String
  IsDir : Bool
  deriving DecidableEq, Repr

/-- The fields of the struct `MainModuleManager` that `initModulesIndex` writes; `hooks`
stands for the maps `modulesHooksByName` and `modulesHooksOrderByName`. -/
structure MainModuleManager where
  modulesByName : String → Option Module := fun _ => none
  hooks : List String := []
  allModuleNamesInOrder : List String := []
  globalConfigValues : Values := ""
  globalModulesConfigValues : String → Option Values := fun _ => none
  modulesDynamicValues : String → Option Values := fun _ => none

/-- The file system and the functions of other files that `initModulesIndex` calls. -/
structure IndexEnv where
  /-- The variable `WorkingDir`. -/
  WorkingDir : String
  /-- The function `filepath.Join` on two elements. -/
  Join : String → String → String
  /-- The function `filepath.Base`. -/
  Base : String → String
  /-- The function `ioutil.ReadDir`: the entries of the directory, sorted by file name. -/
  ReadDir : String → Except String (List FileInfo)
  /-- Whether `os.Stat` finds the file of the given path. -/
  fileExists : String → Bool
  /-- The function `ioutil.ReadFile`. -/
  ReadFile : String → Except String String
  /-- The function `readValuesYamlFile`, which reads the file and parses it with the YAML
  library. -/
  readValuesYamlFile : String → Except String Values
  /-- The function `utils.NewModuleConfigByYamlData`, given the module name and the data. -/
  NewModuleConfigByYamlData : String → String → Except String ModuleConfig
  /-- The method `initModuleHooks`, given the module and the indices of hooks so far: the
  indices with the hooks of the module added. -/
  initModuleHooks : Module → List String → Except String (List String)

/-- The match of the regular expression `^[0-9][0-9][0-9]-(.*)$` of `validModuleName` by
`FindStringSubmatch`: the first submatch when the name matches. In the syntax of the Go
library `.` is any character but a newline, and `$` is the end of the text. -/
def validModuleName (name : String) : Option String :=
  match name.toList with
  | c0 :: c1 :: c2 :: c3 :: rest =>
    if c0.isDigit && c1.isDigit && c2.isDigit && c3 == '-' &&
        rest.all (fun c => c != Char.ofNat 10) then
      some (String.mk rest)
    else
      none
  | _ => none

/-- The function `readModulesValues`. -/
def readModulesValues (env : IndexEnv) : Except String Values :=
  let path := env.Join (env.Join env.WorkingDir "modules") "values.yaml"
  if env.fileExists path = false then
    .ok ""
  else
    env.readValuesYamlFile path

/-- The method `setGlobalConfigValues`: the field is assigned also when the read fails, with
the nil value then. -/
def setGlobalConfigValues (env : IndexEnv) (mm : MainModuleManager) :
    Option String × MainModuleManager :=
  match readModulesValues env with
  | .error err => (some err, { mm with globalConfigValues := "" })
  | .ok values => (none, { mm with globalConfigValues := values })

/-- The method `getModuleConfig`: `none` for the nil config of a module without the file
`values.yaml`. -/
def getModuleConfig (env : IndexEnv) (modulePath : String) :
    Except String (Option ModuleConfig) :=
  let moduleName := env.Base modulePath
  let valuesYamlPath := env.Join modulePath "values.yaml"
  if env.fileExists valuesYamlPath = false then
    .ok none
  else
    match env.ReadFile valuesYamlPath with
    | .error err => .error ("cannot read '" ++ modulePath ++ "': " ++ err)
    | .ok data =>
      match env.NewModuleConfigByYamlData moduleName data with
      | .error err => .error err
      | .ok moduleConfig => .ok (some moduleConfig)

/-- The statements of the loop of `initModulesIndex` that register a module whose config is
absent or enabled, up to the call of `initModuleHooks`. -/
def registerModule (mm : MainModuleManager) (module : Module)
    (moduleConfig : Option ModuleConfig) : MainModuleManager :=
  let mm : MainModuleManager :=
    { mm with
      modulesByName := fun n => if n = module.Name then some module else mm.modulesByName n
      allModuleNamesInOrder := mm.allModuleNamesInOrder ++ [module.Name] }
  match moduleConfig with
  | some c =>
    { mm with
      globalModulesConfigValues := fun n => if n = module.Name then some c.Values
        else mm.globalModulesConfigValues n }
  | none => mm

/-- The loop of `initModulesIndex` over the entries of the modules directory: the error
that returns from the function, if any, the manager, and the slice `badModulesDirs`. -/
def indexModules (env : IndexEnv) (modulesDir : String) :
    List FileInfo → MainModuleManager → List String →
      Option String × MainModuleManager × List String
  | [], mm, badModulesDirs => (none, mm, badModulesDirs)
  | file :: rest, mm, badModulesDirs =>
    if file.IsDir then
      match validModuleName file.Name with
      | some moduleName =>
        let modulePath := env.Join modulesDir file.Name
        let module : Module :=
          { Name := moduleName, DirectoryName := file.Name, Path := modulePath }
        match getModuleConfig env modulePath with
        | .error err => (some err, mm, badModulesDirs)
        | .ok moduleConfig =>
          if moduleConfig.all (fun c => c.IsEnabled) then
            let mm := registerModule mm module moduleConfig
            match env.initModuleHooks module mm.hooks with
            | .error err => (some err, mm, badModulesDirs)
            | .ok hooks => indexModules env modulesDir rest { mm with hooks := hooks }
                badModulesDirs
          else
            indexModules env modulesDir rest mm badModulesDirs
      | none =>
        indexModules env modulesDir rest mm
          (badModulesDirs ++ [env.Join modulesDir file.Name])
    else
      indexModules env modulesDir rest mm badModulesDirs

/-- The method `MainModuleManager.initModulesIndex`: the error, if any, and the manager. -/
def initModulesIndex (env : IndexEnv) (mm : MainModuleManager) :
    Option String × MainModuleManager :=
  let mm : MainModuleManager := { mm with modulesByName := fun _ => none, hooks := [] }
  let modulesDir := env.Join env.WorkingDir "modules"
  match env.ReadDir modulesDir with
  | .error err =>
    (some ("cannot list modules directory '" ++ modulesDir ++ "': " ++ err), mm)
  | .ok files =>
    let g := setGlobalConfigValues env mm
    match g.1 with
    | some err => (some err, g.2)
    | none =>
      let mm : MainModuleManager := { g.2 with modulesDynamicValues := fun _ => none }
      let r := indexModules env modulesDir files mm []
      match r.1 with
      | some err => (some err, r.2.1)
      | none =>
        if r.2.2.length > 0 then
          (some ("bad module directory names, must match regex '"
            ++ "^[0-9][0-9][0-9]-(.*)$" ++ "': " ++ ", ".intercalate r.2.2), r.2.1)
        else
          (none, r.2.1)

/-- The pattern `^[0-9]{3}-(.+)$` of the spec: three digits, a dash and a non-empty name. -/
def matchesSpecPattern (name : String) : Bool :=
  match name.toList with
  | c0 :: c1 :: c2 :: c3 :: c4 :: rest =>
    c0.isDigit && c1.isDigit && c2.isDigit && c3 == '-' &&
      (c4 :: rest).all (fun c => c != Char.ofNat 10)
  | _ => false

/-- Whether the loop registers the entry `file` of the directory `modulesDir`: it is a
directory, its name matches the pattern of the code, and its config is absent or enabled. -/
def registers (env : IndexEnv) (modulesDir : String) (file : FileInfo) : Bool :=
  file.IsDir && (validModuleName file.Name).isSome &&
    match getModuleConfig env (env.Join modulesDir file.Name) with
    | .ok moduleConfig => moduleConfig.all (fun c => c.IsEnabled)
    | .error _ => false

/-- The name of the entry `file` without its first four characters. -/
def moduleNameOf (file : FileInfo) : String :=
  String.mk (file.Name.toList.drop 4)

/-- A file system with the given entries in the modules directory, no global values file,
and a file `values.yaml` that disables the module in the directory `020-off` only. -/
def demoIndexEnv (files : List FileInfo) : IndexEnv :=
  { WorkingDir := "work"
    Join := fun a b => a ++ "/" ++ b
    Base := fun path => path
    ReadDir := fun _ => .ok files
    fileExists := fun path => path == "work/modules/020-off/values.yaml"
    ReadFile := fun _ => .ok "offEnabled: false"
    readValuesYamlFile := fun _ => .ok ""
    NewModuleConfigByYamlData := fun _ data => .ok { IsEnabled := false, Values := data }
    initModuleHooks := fun module hooks => .ok (hooks ++ [module.Name ++ "/hook"]) }

/-- A listing of the modules directory: a directory with an empty name after the prefix,
two module directories, one of them disabled by its values, and a plain file. -/
def demoListing : List FileInfo :=
  [{ Name := "000-", IsDir := true }, { Name := "010-web", IsDir := true },
    { Name := "020-off", IsDir := true }, { Name := "README", IsDir := false }]

end ModuleManager

namespace HooksController

/-! ## The kubernetes hooks controller

The embedding of `src/pkg/module_manager/hook/kube_event/hooks_controller.go`. The map
`ModuleHooks` is iterated by the code, so it is a list of entries with distinct keys, in the
order of insertion; the order of a Go map iteration is unspecified. The calls on the
kube events manager are recorded in the field `calls`, oldest first. -/

/-- The library struct `kube_event.KubeEventHook`. -/
structure KubeEventHook where
  HookName : String
  ConfigName : String
  AllowFailure : Bool
  deriving DecidableEq, Repr

/-- An element of `Config.OnKubernetesEvents` of a hook, with the fields that the controller
reads; `ConfigId` is the field `Monitor.Metadata.ConfigId`. -/
structure OnKubernetesEventConfig where
  ConfigId : String
  ConfigName : String
  AllowFailure : Bool
  deriving DecidableEq, Repr

/-- A module hook as the controller reads it. -/
structure ModuleHook where
  Name : String
  OnKubernetesEvents : List OnKubernetesEventConfig
  deriving DecidableEq, Repr

/-- A call on the kube events manager. -/
inductive ManagerCall where
  /-- The call `AddMonitor("", config.Monitor, logEntry)`, with the config id. -/
  | AddMonitor (configId : String)
  /-- The call `Start()`. -/
  | Start
  /-- The call `StopMonitor(configId)`. -/
  | StopMonitor (configId : String)
  deriving DecidableEq, Repr

/-- The struct `kubernetesHooksController`, and the calls made on the kube events manager. -/
structure kubernetesHooksController where
  GlobalHooks : List (String × KubeEventHook) := []
  ModuleHooks : List (String × KubeEventHook) := []
  EnabledModules : List String := []
  calls : List ManagerCall := []
  deriving DecidableEq, Repr

/-- What the module manager and the kube events manager answer. -/
structure ControllerEnv where
  /-- The method `GetModuleHooksInOrder(moduleName, module_manager.KubeEvents)`. -/
  GetModuleHooksInOrder : String → Except String (List String)
  /-- The method `GetModuleHook`, the error of which the controller ignores. -/
  GetModuleHook : String → ModuleHook
  /-- The method `AddMonitor`, given the config id of the monitor: the error if any. -/
  AddMonitor : String → Option String
  /-- The method `StopMonitor`: the error if any. -/
  StopMonitor : String → Option String

/-- The function `NewKubernetesHooksController`. -/
def NewKubernetesHooksController : kubernetesHooksController :=
  {}

/-- The statement `m[k] = v` on the map `ModuleHooks`. -/
def hooksAssign (m : List (String × KubeEventHook)) (k : String) (v : KubeEventHook) :
    List (String × KubeEventHook) :=
  if m.any (fun e => e.1 == k) then m.map (fun e => if e.1 = k then (k, v) else e)
  else m ++ [(k, v)]

/-- The statement `delete(m, k)` on the map `ModuleHooks`. -/
def hooksDelete (m : List (String × KubeEventHook)) (k : String) :
    List (String × KubeEventHook) :=
  m.filter (fun e => e.1 != k)

/-- The inner loop of `EnableModuleHooks`, over the configs of one hook: the error that
returns from the function, if any, and the controller. -/
def addMonitors (env : ControllerEnv) (moduleHook : ModuleHook) :
    List OnKubernetesEventConfig → kubernetesHooksController →
      Option String × kubernetesHooksController
  | [], c => (none, c)
  | config :: rest, c =>
    let c : kubernetesHooksController :=
      { c with calls := c.calls ++ [ManagerCall.AddMonitor config.ConfigId] }
    match env.AddMonitor config.ConfigId with
    | some err => (some ("run kube monitor for hook " ++ moduleHook.Name ++ ": " ++ err), c)
    | none =>
      addMonitors env moduleHook rest
        { c with
          ModuleHooks := hooksAssign c.ModuleHooks config.ConfigId
            { HookName := moduleHook.Name, ConfigName := config.ConfigName,
              AllowFailure := config.AllowFailure } }

/-- The outer loop of `EnableModuleHooks`, over the names of the hooks of the module. -/
def enableHooks (env : ControllerEnv) :
    List String → kubernetesHooksController → Option String × kubernetesHooksController
  | [], c => (none, c)
  | moduleHookName :: rest, c =>
    let moduleHook := env.GetModuleHook moduleHookName
    let r := addMonitors env moduleHook moduleHook.OnKubernetesEvents c
    match r.1 with
    | some err => (some err, r.2)
    | none => enableHooks env rest r.2

/-- The method `EnableModuleHooks`: the error, if any, and the controller. -/
def EnableModuleHooks (env : ControllerEnv) (c : kubernetesHooksController)
    (moduleName : String) : Option String × kubernetesHooksController :=
  if c.EnabledModules.any (fun enabledModuleName => enabledModuleName == moduleName) then
    (none, c)
  else
    match env.GetModuleHooksInOrder moduleName with
    | .error err => (some err, c)
    | .ok moduleHooks =>
      let r := enableHooks env moduleHooks c
      match r.1 with
      | some err => (some err, r.2)
      | none =>
        (none,
          { r.2 with
            EnabledModules := r.2.EnabledModules ++ [moduleName]
            calls := r.2.calls ++ [ManagerCall.Start] })

/-- The loop of `DisableModuleHooks` over the entries of the map `ModuleHooks`, each visited
once: the monitor of an entry of one of the disabled hooks is stopped and the entry is
deleted; an error of `StopMonitor` returns from the function. -/
def stopMonitors (env : ControllerEnv) (disabledModuleHooks : List String) :
    List (String × KubeEventHook) → kubernetesHooksController →
      Option String × kubernetesHooksController
  | [], c => (none, c)
  | (configId, desc) :: rest, c =>
    if disabledModuleHooks.any (fun disabledModuleHookName =>
        desc.HookName == disabledModuleHookName) then
      let c : kubernetesHooksController :=
        { c with calls := c.calls ++ [ManagerCall.StopMonitor configId] }
      match env.StopMonitor configId with
      | some err => (some err, c)
      | none =>
        stopMonitors env disabledModuleHooks rest
          { c with ModuleHooks := hooksDelete c.ModuleHooks configId }
    else
      stopMonitors env disabledModuleHooks rest c

/-- The first loop of `DisableModuleHooks`: the index of the first element of
`EnabledModules` equal to `moduleName`, `none` for the value `-1`. -/
def moduleEnabledInd (enabledModules : List String) (moduleName : String) : Option Nat :=
  let i := enabledModules.findIdx (fun enabledModuleName => enabledModuleName == moduleName)
  if i < enabledModules.length then some i else none

/-- The method `DisableModuleHooks`: the error, if any, and the controller. -/
def DisableModuleHooks (env : ControllerEnv) (c : kubernetesHooksController)
    (moduleName : String) : Option String × kubernetesHooksController :=
  match moduleEnabledInd c.EnabledModules moduleName with
  | none => (none, c)
  | some i =>
    let c : kubernetesHooksController :=
      { c with EnabledModules := c.EnabledModules.take i ++ c.EnabledModules.drop (i + 1) }
    match env.GetModuleHooksInOrder moduleName with
    | .error err => (some err, c)
    | .ok disabledModuleHooks => stopMonitors env disabledModuleHooks c.ModuleHooks c

/-- A call of one of the two methods. -/
inductive ControllerCall where
  | Enable (moduleName : String)
  | Disable (moduleName : String)
  deriving DecidableEq, Repr

/-- The controller after a sequence of calls of `EnableModuleHooks` and
`DisableModuleHooks`, whatever they return. -/
def applyCalls (env : ControllerEnv) (c : kubernetesHooksController)
    (ops : List ControllerCall) : kubernetesHooksController :=
  ops.foldl (fun c op =>
    match op with
    | ControllerCall.Enable moduleName => (EnableModuleHooks env c moduleName).2
    | ControllerCall.Disable moduleName => (DisableModuleHooks env c moduleName).2) c

/-- An environment with the module `web`, whose hook `watch` has two monitors, the second of
which cannot be added. -/
def demoControllerEnv : ControllerEnv :=
  { GetModuleHooksInOrder := fun _ => .ok ["watch"]
    GetModuleHook := fun name =>
      { Name := name,
        OnKubernetesEvents :=
          [{ ConfigId := "c1", ConfigName := "pods", AllowFailure := false },
            { ConfigId := "c2", ConfigName := "nodes", AllowFailure := false }] }
    AddMonitor := fun configId => if configId = "c2" then some "no such kind" else none
    StopMonitor := fun _ => none }

end HooksController

/-! # Theorems -/

namespace KubeEventsManager

/-! ## Go maps -/

theorem mapIndex_mapAssign_same (m : StringMap) (k v : String) :
    mapIndex (mapAssign m k v) k = v := by
  simp [mapIndex, mapAssign]

theorem mapAssign_same (m : StringMap) (k v : String) : mapAssign m k v k = some v := by
  simp [mapAssign]

theorem mapAssign_other (m : StringMap) (k v k' : String) (h : k' ≠ k) :
    mapAssign m k v k' = m k' := by
  simp [mapAssign, h]

theorem mapIndex_of_some (m : StringMap) (k v : String) (h : m k = some v) :
    mapIndex m k = v := by
  simp [mapIndex, h]

theorem mapIndex_of_none (m : StringMap) (k : String) (h : m k = none) :
    mapIndex m k = "" := by
  simp [mapIndex, h]

/-! ## One event -/

/-- What `HandleKubeEvent` does for an object whose id can be read: when the stored checksum
differs the table is updated and a signal is sent if `sendSignal`; otherwise nothing. -/
theorem HandleKubeEvent_eq {Obj : Type} (env : KubeEnv Obj) (ei : KubeEventsInformer)
    (obj : Obj) (objectId newChecksum : String) (sendSignal : Bool)
    (hId : runtimeResourceId env obj = .ok objectId) :
    HandleKubeEvent env ei obj newChecksum sendSignal =
      .ok (if mapIndex ei.Checksum objectId ≠ newChecksum then
          ({ ei with Checksum := mapAssign ei.Checksum objectId newChecksum },
            if sendSignal then [ei.ConfigId] else [])
        else (ei, [])) := by
  unfold HandleKubeEvent
  rw [hId]
  by_cases h : mapIndex ei.Checksum objectId = newChecksum
  · simp [h]
  · cases sendSignal <;> simp [h]

/-- What `UpdateFunc` does for an object whose id can be read and whose fingerprint is `c`. -/
theorem UpdateFunc_eq {Obj : Type} (env : KubeEnv Obj) (informerType : InformerType)
    (jqFilter : String) (ei : KubeEventsInformer) (obj : Obj) (objectId c : String)
    (hId : runtimeResourceId env obj = .ok objectId)
    (hC : fingerprint env jqFilter obj = some c) :
    UpdateFunc env informerType jqFilter ei obj =
      (if mapIndex ei.Checksum objectId ≠ c then
          ({ ei with Checksum := mapAssign ei.Checksum objectId c },
            if informerType = InformerType.OnUpdate then [ei.ConfigId] else [])
        else (ei, [])) := by
  unfold fingerprint at hC
  unfold UpdateFunc
  rw [hId]
  cases hF : resourceFilter env obj jqFilter with
  | error e => rw [hF] at hC; simp at hC
  | ok filtered =>
    rw [hF] at hC
    simp only [Option.some.injEq] at hC
    simp only [hC, HandleKubeEvent_eq env ei obj objectId c _ hId]
    by_cases h : mapIndex ei.Checksum objectId = c
    · simp [h]
    · by_cases ht : informerType = InformerType.OnUpdate <;> simp [h, ht]

/-- C1: for an informer configured to report Update events, `HandleKubeEvent` sends a signal on
`KubeEventCh` if and only if the new fingerprint differs from the one stored for the object;
when they are equal nothing is sent and the informer (its fingerprint table) is unchanged. -/
theorem C1_update_signal_iff_fingerprint_differs {Obj : Type} (env : KubeEnv Obj)
    (informerType : InformerType) (ei : KubeEventsInformer) (obj : Obj)
    (objectId newChecksum : String)
    (hType : informerType = InformerType.OnUpdate)
    (hId : runtimeResourceId env obj = .ok objectId) :
    ∃ ei' sent,
      HandleKubeEvent env ei obj newChecksum (decide (informerType = InformerType.OnUpdate))
        = .ok (ei', sent) ∧
      (sent = [ei.ConfigId] ↔ mapIndex ei.Checksum objectId ≠ newChecksum) ∧
      (sent = [] ↔ mapIndex ei.Checksum objectId = newChecksum) ∧
      (mapIndex ei.Checksum objectId = newChecksum → ei' = ei) := by
  subst hType
  rw [HandleKubeEvent_eq env ei obj objectId newChecksum _ hId]
  by_cases h : mapIndex ei.Checksum objectId = newChecksum
  · exact ⟨ei, [], by simp [h], by simp [h], by simp [h], fun _ => rfl⟩
  · exact ⟨{ ei with Checksum := mapAssign ei.Checksum objectId newChecksum }, [ei.ConfigId],
      by simp [h], by simp [h], by simp [h], fun h' => absurd h' h⟩

/-- C1 at a concrete input: a stored fingerprint `x`, an Update with fingerprint `y`. -/
theorem C1_update_signal_iff_fingerprint_differs_witness :
    InformerType.OnUpdate = InformerType.OnUpdate ∧
    runtimeResourceId demoEnv ("a", "ns", "y") = .ok (generateChecksumId "a" "ns") ∧
    ∃ ei' sent,
      HandleKubeEvent demoEnv
          { ConfigId := "cfg", Checksum := mapAssign emptyMap (generateChecksumId "a" "ns") "x" }
          ("a", "ns", "y") "y" (decide (InformerType.OnUpdate = InformerType.OnUpdate))
        = .ok (ei', sent) ∧
      (sent = ["cfg"] ↔
        mapIndex (mapAssign emptyMap (generateChecksumId "a" "ns") "x")
          (generateChecksumId "a" "ns") ≠ "y") ∧
      (sent = [] ↔
        mapIndex (mapAssign emptyMap (generateChecksumId "a" "ns") "x")
          (generateChecksumId "a" "ns") = "y") ∧
      (mapIndex (mapAssign emptyMap (generateChecksumId "a" "ns") "x")
          (generateChecksumId "a" "ns") = "y" →
        ei' = { ConfigId := "cfg",
                Checksum := mapAssign emptyMap (generateChecksumId "a" "ns") "x" }) :=
  ⟨rfl, rfl,
    C1_update_signal_iff_fingerprint_differs demoEnv InformerType.OnUpdate
      { ConfigId := "cfg", Checksum := mapAssign emptyMap (generateChecksumId "a" "ns") "x" }
      ("a", "ns", "y") (generateChecksumId "a" "ns") "y" rfl rfl⟩

/-! ## Sequences of Update deliveries -/

theorem countChanges_all_eq (c0 : String) (cs : List String) (h : ∀ c ∈ cs, c = c0) :
    countChanges c0 cs = 0 := by
  induction cs with
  | nil => rfl
  | cons c rest ih =>
    have hc : c = c0 := h c (List.mem_cons_self _ _)
    subst hc
    simp only [countChanges, ne_eq, not_true_eq_false, if_false, Nat.zero_add]
    exact ih (fun c' hc' => h c' (List.mem_cons_of_mem _ hc'))

theorem countChanges_all_eq_append (c0 c : String) (cs : List String)
    (h : ∀ c' ∈ cs, c' = c0) (hc : c ≠ c0) : countChanges c0 (cs ++ [c]) = 1 := by
  induction cs with
  | nil => simp [countChanges, hc]
  | cons c1 rest ih =>
    have h1 : c1 = c0 := h c1 (List.mem_cons_self _ _)
    subst h1
    simp only [List.cons_append, countChanges, ne_eq, not_true_eq_false, if_false,
      Nat.zero_add]
    exact ih (fun c' hc' => h c' (List.mem_cons_of_mem _ hc'))

/-- The signals of a sequence of Update deliveries of one object, for an informer of type
`OnUpdate`: one per change of fingerprint, each carrying the informer's `ConfigId`. -/
theorem deliverUpdates_sent {Obj : Type} (env : KubeEnv Obj) (jqFilter : String)
    (objectId : String) (objs : List Obj) (cs : List String)
    (hDel : List.Forall₂ (fun o c => runtimeResourceId env o = .ok objectId ∧
      fingerprint env jqFilter o = some c) objs cs) :
    ∀ (ei : KubeEventsInformer) (c0 : String), mapIndex ei.Checksum objectId = c0 →
      (deliverUpdates env InformerType.OnUpdate jqFilter ei objs).2 =
        List.replicate (countChanges c0 cs) ei.ConfigId := by
  induction hDel with
  | nil => intro ei c0 _; rfl
  | @cons obj c objs cs hHead _ ih =>
    intro ei c0 hBase
    unfold deliverUpdates
    simp only [UpdateFunc_eq env InformerType.OnUpdate jqFilter ei obj objectId c hHead.1 hHead.2,
      hBase, countChanges]
    by_cases h : c0 = c
    · subst h
      simp only [ne_eq, not_true_eq_false, if_false, List.nil_append, Nat.zero_add]
      exact ih ei c0 hBase
    · have h' : c ≠ c0 := fun e => h e.symm
      simp only [ne_eq, h, h', not_false_eq_true, if_true]
      rw [ih { ei with Checksum := mapAssign ei.Checksum objectId c } c
        (mapIndex_mapAssign_same _ _ _)]
      rw [Nat.add_comm, List.replicate_succ]
      rfl

/-- C2: for an informer of type `OnUpdate`, an object with stored baseline fingerprint `c0`
and Update deliveries with fingerprints `c1..cn`, the number of signals sent equals the number
of indices `i` with `c_i ≠ c_(i-1)`; if all deliveries keep the baseline fingerprint no signal
is sent, and one further Update with another fingerprint sends exactly one. -/
theorem C2_update_signals_count_fingerprint_changes {Obj : Type} (env : KubeEnv Obj)
    (jqFilter : String) (ei : KubeEventsInformer) (objectId c0 : String)
    (objs : List Obj) (cs : List String)
    (hBase : ei.Checksum objectId = some c0)
    (hDel : List.Forall₂ (fun o c => runtimeResourceId env o = .ok objectId ∧
      fingerprint env jqFilter o = some c) objs cs) :
    (deliverUpdates env InformerType.OnUpdate jqFilter ei objs).2.length = countChanges c0 cs ∧
    ((∀ c ∈ cs, c = c0) →
      (deliverUpdates env InformerType.OnUpdate jqFilter ei objs).2 = [] ∧
      ∀ (obj : Obj) (c : String), runtimeResourceId env obj = .ok objectId →
        fingerprint env jqFilter obj = some c → c ≠ c0 →
        (deliverUpdates env InformerType.OnUpdate jqFilter ei (objs ++ [obj])).2
          = [ei.ConfigId]) := by
  have hIdx : mapIndex ei.Checksum objectId = c0 := mapIndex_of_some _ _ _ hBase
  refine ⟨?_, ?_⟩
  · rw [deliverUpdates_sent env jqFilter objectId objs cs hDel ei c0 hIdx]
    simp
  · intro hAll
    refine ⟨?_, ?_⟩
    · rw [deliverUpdates_sent env jqFilter objectId objs cs hDel ei c0 hIdx,
        countChanges_all_eq c0 cs hAll]
      rfl
    · intro obj c hId hC hne
      have hDel' : List.Forall₂ (fun o c => runtimeResourceId env o = .ok objectId ∧
          fingerprint env jqFilter o = some c) (objs ++ [obj]) (cs ++ [c]) :=
        List.rel_append hDel (List.Forall₂.cons ⟨hId, hC⟩ List.Forall₂.nil)
      rw [deliverUpdates_sent env jqFilter objectId _ _ hDel' ei c0 hIdx,
        countChanges_all_eq_append c0 c cs hAll hne]
      rfl

/-- C2 at a concrete input: baseline `x`, two Updates that keep the fingerprint `x`. -/
theorem C2_update_signals_count_fingerprint_changes_witness :
    demoInformer.Checksum (generateChecksumId "a" "ns") = some "x" ∧
    List.Forall₂ (fun o c => runtimeResourceId demoEnv o = .ok (generateChecksumId "a" "ns") ∧
      fingerprint demoEnv ".metadata.labels" o = some c)
      [("a", "ns", "x"), ("a", "ns", "x")] ["x", "x"] ∧
    (deliverUpdates demoEnv InformerType.OnUpdate ".metadata.labels" demoInformer
        [("a", "ns", "x"), ("a", "ns", "x")]).2.length = countChanges "x" ["x", "x"] ∧
    ((∀ c ∈ ["x", "x"], c = "x") →
      (deliverUpdates demoEnv InformerType.OnUpdate ".metadata.labels" demoInformer
        [("a", "ns", "x"), ("a", "ns", "x")]).2 = [] ∧
      ∀ (obj : DemoObj) (c : String),
        runtimeResourceId demoEnv obj = .ok (generateChecksumId "a" "ns") →
        fingerprint demoEnv ".metadata.labels" obj = some c → c ≠ "x" →
        (deliverUpdates demoEnv InformerType.OnUpdate ".metadata.labels" demoInformer
          ([("a", "ns", "x"), ("a", "ns", "x")] ++ [obj])).2 = [demoInformer.ConfigId]) :=
  ⟨by simp [demoInformer, mapAssign],
    List.Forall₂.cons ⟨rfl, rfl⟩ (List.Forall₂.cons ⟨rfl, rfl⟩ List.Forall₂.nil),
    C2_update_signals_count_fingerprint_changes demoEnv ".metadata.labels" demoInformer
      (generateChecksumId "a" "ns") "x" [("a", "ns", "x"), ("a", "ns", "x")] ["x", "x"]
      (by simp [demoInformer, mapAssign])
      (List.Forall₂.cons ⟨rfl, rfl⟩ (List.Forall₂.cons ⟨rfl, rfl⟩ List.Forall₂.nil))⟩

/-! ## Add and Delete deliveries -/

/-- What `AddFunc` does for an object whose id can be read and whose fingerprint is `c`. -/
theorem AddFunc_eq {Obj : Type} (env : KubeEnv Obj) (informerType : InformerType)
    (jqFilter : String) (ei : KubeEventsInformer) (obj : Obj) (objectId c : String)
    (hId : runtimeResourceId env obj = .ok objectId)
    (hC : fingerprint env jqFilter obj = some c) :
    AddFunc env informerType jqFilter ei obj =
      (if mapIndex ei.Checksum objectId ≠ c then
          ({ ei with Checksum := mapAssign ei.Checksum objectId c },
            if informerType = InformerType.OnAdd then [ei.ConfigId] else [])
        else (ei, [])) := by
  unfold fingerprint at hC
  unfold AddFunc
  rw [hId]
  cases hF : resourceFilter env obj jqFilter with
  | error e => rw [hF] at hC; simp at hC
  | ok filtered =>
    rw [hF] at hC
    simp only [Option.some.injEq] at hC
    simp only [hC, HandleKubeEvent_eq env ei obj objectId c _ hId]
    by_cases h : mapIndex ei.Checksum objectId = c
    · simp [h]
    · by_cases ht : informerType = InformerType.OnAdd <;> simp [h, ht]

/-- What `DeleteFunc` does for an object whose id can be read. -/
theorem DeleteFunc_eq {Obj : Type} (env : KubeEnv Obj) (informerType : InformerType)
    (ei : KubeEventsInformer) (obj : Obj) (objectId : String)
    (hId : runtimeResourceId env obj = .ok objectId) :
    DeleteFunc env informerType ei obj =
      (if mapIndex ei.Checksum objectId ≠ "" then
          ({ ei with Checksum := mapAssign ei.Checksum objectId "" },
            if informerType = InformerType.OnDelete then [ei.ConfigId] else [])
        else (ei, [])) := by
  unfold DeleteFunc
  rw [hId]
  simp only [HandleKubeEvent_eq env ei obj objectId "" _ hId]
  by_cases h : mapIndex ei.Checksum objectId = ""
  · simp [h]
  · by_cases ht : informerType = InformerType.OnDelete <;> simp [h, ht]

/-- C3: for an informer configured to report Add events and an Add delivery of an object with
a non-empty computed fingerprint `c`, a signal is sent if and only if the table has no entry
for the object or the stored fingerprint differs from `c`. -/
theorem C3_add_signal_iff_new_or_changed {Obj : Type} (env : KubeEnv Obj)
    (informerType : InformerType) (jqFilter : String) (ei : KubeEventsInformer) (obj : Obj)
    (objectId c : String)
    (hType : informerType = InformerType.OnAdd)
    (hId : runtimeResourceId env obj = .ok objectId)
    (hC : fingerprint env jqFilter obj = some c)
    (hNonEmpty : c ≠ "") :
    ((AddFunc env informerType jqFilter ei obj).2 = [ei.ConfigId] ↔
      (ei.Checksum objectId = none ∨ ∃ s, ei.Checksum objectId = some s ∧ s ≠ c)) ∧
    ((AddFunc env informerType jqFilter ei obj).2 = [] ↔ ei.Checksum objectId = some c) := by
  subst hType
  rw [AddFunc_eq env InformerType.OnAdd jqFilter ei obj objectId c hId hC]
  cases hS : ei.Checksum objectId with
  | none =>
    have hIdx : mapIndex ei.Checksum objectId = "" := mapIndex_of_none _ _ hS
    have hne : ¬ ("" = c) := fun e => hNonEmpty e.symm
    simp [hIdx, hne]
  | some s =>
    have hIdx : mapIndex ei.Checksum objectId = s := mapIndex_of_some _ _ _ hS
    by_cases h : s = c
    · simp [hIdx, h]
    · simp [hIdx, h]

/-- C3 at a concrete input: an Add of an object that has no entry yet. -/
theorem C3_add_signal_iff_new_or_changed_witness :
    InformerType.OnAdd = InformerType.OnAdd ∧
    runtimeResourceId demoEnv ("b", "ns", "y") = .ok (generateChecksumId "b" "ns") ∧
    fingerprint demoEnv "" ("b", "ns", "y") = some "y" ∧
    "y" ≠ "" ∧
    ((AddFunc demoEnv InformerType.OnAdd "" demoInformer ("b", "ns", "y")).2
        = [demoInformer.ConfigId] ↔
      (demoInformer.Checksum (generateChecksumId "b" "ns") = none ∨
        ∃ s, demoInformer.Checksum (generateChecksumId "b" "ns") = some s ∧ s ≠ "y")) ∧
    ((AddFunc demoEnv InformerType.OnAdd "" demoInformer ("b", "ns", "y")).2 = [] ↔
      demoInformer.Checksum (generateChecksumId "b" "ns") = some "y") :=
  ⟨rfl, rfl, rfl, by decide,
    C3_add_signal_iff_new_or_changed demoEnv InformerType.OnAdd "" demoInformer
      ("b", "ns", "y") (generateChecksumId "b" "ns") "y" rfl rfl rfl (by decide)⟩

/-- C4 as stated fails: a Delete delivery for an object without stored fingerprint sends no
signal, and a Delete delivery for an object with a stored fingerprint leaves an entry for the
object in the table (holding the empty string). -/
theorem C4_delete_counterexample :
    (DeleteFunc demoEnv InformerType.OnDelete demoFresh ("a", "ns", "x")).2 = [] ∧
    (DeleteFunc demoEnv InformerType.OnDelete demoInformer ("a", "ns", "x")).1.Checksum
      (generateChecksumId "a" "ns") = some "" := by
  constructor
  · rfl
  · rfl

/-- C4, amended: for an informer configured to report Delete events, a Delete delivery of an
object whose stored fingerprint is non-empty sends a signal and overwrites the entry with the
empty string, so the stored fingerprint then reads as empty; a Delete delivery of an object
with no entry or an empty stored fingerprint sends nothing and changes nothing. -/
theorem C4_delete_signal_iff_stored_nonempty {Obj : Type} (env : KubeEnv Obj)
    (informerType : InformerType) (ei : KubeEventsInformer) (obj : Obj) (objectId : String)
    (hType : informerType = InformerType.OnDelete)
    (hId : runtimeResourceId env obj = .ok objectId) :
    (mapIndex ei.Checksum objectId ≠ "" →
      (DeleteFunc env informerType ei obj).2 = [ei.ConfigId] ∧
      (DeleteFunc env informerType ei obj).1.Checksum objectId = some "" ∧
      mapIndex (DeleteFunc env informerType ei obj).1.Checksum objectId = "") ∧
    (mapIndex ei.Checksum objectId = "" →
      (DeleteFunc env informerType ei obj).2 = [] ∧
      (DeleteFunc env informerType ei obj).1 = ei) := by
  subst hType
  rw [DeleteFunc_eq env InformerType.OnDelete ei obj objectId hId]
  by_cases h : mapIndex ei.Checksum objectId = ""
  · simp [h]
  · simp [h, mapAssign_same, mapIndex_mapAssign_same]

/-- C4, amended, at a concrete input: a Delete of an object with stored fingerprint `x`. -/
theorem C4_delete_signal_iff_stored_nonempty_witness :
    InformerType.OnDelete = InformerType.OnDelete ∧
    runtimeResourceId demoEnv ("a", "ns", "x") = .ok (generateChecksumId "a" "ns") ∧
    (mapIndex demoInformer.Checksum (generateChecksumId "a" "ns") ≠ "" →
      (DeleteFunc demoEnv InformerType.OnDelete demoInformer ("a", "ns", "x")).2
        = [demoInformer.ConfigId] ∧
      (DeleteFunc demoEnv InformerType.OnDelete demoInformer ("a", "ns", "x")).1.Checksum
        (generateChecksumId "a" "ns") = some "" ∧
      mapIndex (DeleteFunc demoEnv InformerType.OnDelete demoInformer ("a", "ns", "x")).1.Checksum
        (generateChecksumId "a" "ns") = "") ∧
    (mapIndex demoInformer.Checksum (generateChecksumId "a" "ns") = "" →
      (DeleteFunc demoEnv InformerType.OnDelete demoInformer ("a", "ns", "x")).2 = [] ∧
      (DeleteFunc demoEnv InformerType.OnDelete demoInformer ("a", "ns", "x")).1
        = demoInformer) :=
  ⟨rfl, rfl,
    C4_delete_signal_iff_stored_nonempty demoEnv InformerType.OnDelete demoInformer
      ("a", "ns", "x") (generateChecksumId "a" "ns") rfl rfl⟩

/-! ## The initial list -/

theorem rangeAppendPointers_foldl {Obj : Type} (items : List Obj) :
    ∀ (st : Option Obj × List ObjPtr),
      items.foldl (fun st item => (some item, st.2 ++ [ObjPtr.loopVar])) st =
        (match items.getLast? with
          | some last => some last
          | none => st.1,
          st.2 ++ List.replicate items.length ObjPtr.loopVar) := by
  induction items with
  | nil => intro st; simp
  | cons item rest ih =>
    intro st
    rw [List.foldl_cons, ih]
    cases rest with
    | nil => simp
    | cons item' rest' =>
      have hl : (item' :: rest').getLast? = some ((item' :: rest').getLast (by simp)) :=
        List.getLast?_eq_getLast _ (by simp)
      simp [List.getLast?_cons_cons, List.replicate_succ, hl]

/-- The objects that `addKubeEventsInformer` hands to `InitializeItemsList`: as many as were
listed, every one of them being the last listed item. -/
theorem derefObjects_rangeAppendPointers {Obj : Type} (items : List Obj) :
    derefObjects (rangeAppendPointers items) =
      match items.getLast? with
      | some last => List.replicate items.length last
      | none => [] := by
  unfold rangeAppendPointers
  rw [rangeAppendPointers_foldl]
  cases h : items.getLast? with
  | none =>
    have : items = [] := List.getLast?_eq_none_iff.mp h
    subst this
    simp [derefObjects]
  | some last =>
    simp only [derefObjects, List.nil_append]
    induction items.length with
    | zero => simp
    | succ n ih => simp [List.replicate_succ, ih]

/-- C5 fails on the code: with the two pods `a` and `b` listed, the informer made by
`addKubeEventsInformer` stores a baseline fingerprint for `b`, the last listed item, and none
for `a`. The pointers `&obj` collected from the listed items all address the one loop
variable, so `InitializeItemsList` is given the last item twice; given the two listed items
themselves it stores a baseline for both. -/
theorem C5_initial_list_stores_last_item_only :
    (∃ ei, addKubeEventsInformer demoEnv "pod" "" (.ok "")
        (.ok [("a", "ns", "x"), ("b", "ns", "y")]) "" "cfg" = .ok ei ∧
      ei.Checksum (generateChecksumId "a" "ns") = none ∧
      ei.Checksum (generateChecksumId "b" "ns") = some "y") ∧
    derefObjects (rangeAppendPointers [(("a", "ns", "x") : DemoObj), ("b", "ns", "y")])
      = [("b", "ns", "y"), ("b", "ns", "y")] ∧
    (∃ ei, InitializeItemsList demoEnv NewKubeEventsInformer
        [("a", "ns", "x"), ("b", "ns", "y")] "" = .ok ei ∧
      ei.Checksum (generateChecksumId "a" "ns") = some "x" ∧
      ei.Checksum (generateChecksumId "b" "ns") = some "y") :=
  ⟨⟨_, rfl, rfl, rfl⟩, rfl, ⟨_, rfl, rfl, rfl⟩⟩

end KubeEventsManager

namespace AddonOperator

/-! ## Startup -/

theorem queueMainTask_mainQueueIs (env : OperatorEnv) (op : Operator) (taskType : TaskType)
    (metadata : HookMetadata) (l : List (TaskType × String × HookMetadata))
    (h : mainQueueIs op l) :
    mainQueueIs (queueMainTask env op taskType metadata) (l ++ [(taskType, "main", metadata)]) := by
  obtain ⟨hName, q, hq, hl⟩ := h
  unfold GetMain at hq
  rw [hName] at hq
  refine ⟨?_, q ++ [Task.mk (env.uuid op.uuids) taskType "main" metadata 0 ""], ?_, ?_⟩
  · simp [queueMainTask, NewTask, AddLast, setQueue, queueTasks, hName, hq]
  · simp [queueMainTask, NewTask, AddLast, setQueue, queueTasks, GetMain, hName, hq]
  · simp [hl, taskSummary]

theorem foldl_queueMainTask_mainQueueIs (env : OperatorEnv) (taskType : TaskType)
    (metadata : String → HookMetadata) (hooks : List String) :
    ∀ (op : Operator) (l : List (TaskType × String × HookMetadata)), mainQueueIs op l →
      mainQueueIs
        (hooks.foldl (fun op hookName => queueMainTask env op taskType (metadata hookName)) op)
        (l ++ hooks.map (fun hookName => (taskType, "main", metadata hookName))) := by
  induction hooks with
  | nil => intro op l h; simpa using h
  | cons hookName rest ih =>
    intro op l h
    have h1 := queueMainTask_mainQueueIs env op taskType (metadata hookName) l h
    have h2 := ih _ _ h1
    simpa [List.foldl_cons, List.append_assoc] using h2

/-- C6: whatever lists of OnStartup, Schedule and Kubernetes global hooks the module manager
returns, and whatever the queues held before, `PrepopulateMainQueue` leaves the main queue
`main` holding exactly: one GlobalHookRun per OnStartup hook in order, one
GlobalHookEnableScheduleBindings per schedule hook in order, one
GlobalHookEnableKubernetesBindings per kubernetes hook in order, one
GlobalHookWaitKubernetesSynchronization, and one ReloadAllModules with OnStartupHooks set. -/
theorem C6_prepopulate_main_queue (env : OperatorEnv) (op : Operator) :
    mainQueueIs (PrepopulateMainQueue env op)
      ((env.GetGlobalHooksInOrder BindingType.OnStartup).map (fun hookName =>
          (TaskType.GlobalHookRun, "main",
            { EventDescription := "PrepopulateMainQueue"
              HookName := hookName
              BindingType := BindingType.OnStartup
              BindingContext :=
                [{ Binding := env.bindingString BindingType.OnStartup,
                   BindingType := BindingType.OnStartup }]
              ReloadAllOnValuesChanges := false }))
        ++ (env.GetGlobalHooksInOrder BindingType.Schedule).map (fun hookName =>
          (TaskType.GlobalHookEnableScheduleBindings, "main",
            { EventDescription := "PrepopulateMainQueue", HookName := hookName }))
        ++ (env.GetGlobalHooksInOrder BindingType.OnKubernetesEvent).map (fun hookName =>
          (TaskType.GlobalHookEnableKubernetesBindings, "main",
            { EventDescription := "PrepopulateMainQueue", HookName := hookName }))
        ++ [(TaskType.GlobalHookWaitKubernetesSynchronization, "main",
            { EventDescription := "PrepopulateMainQueue" })]
        ++ [(TaskType.ReloadAllModules, "main",
            { EventDescription := "PrepopulateMainQueue", OnStartupHooks := true })]) := by
  have h0 : mainQueueIs
      ({ op with TaskQueues := NewNamedQueue { op.TaskQueues with MainName := "main" } "main" })
      [] := by
    refine ⟨rfl, [], ?_, rfl⟩
    simp [GetMain, NewNamedQueue]
  have h1 := foldl_queueMainTask_mainQueueIs env TaskType.GlobalHookRun
    (fun hookName =>
      { EventDescription := "PrepopulateMainQueue"
        HookName := hookName
        BindingType := BindingType.OnStartup
        BindingContext :=
          [{ Binding := env.bindingString BindingType.OnStartup,
             BindingType := BindingType.OnStartup }]
        ReloadAllOnValuesChanges := false })
    (env.GetGlobalHooksInOrder BindingType.OnStartup) _ _ h0
  have h2 := foldl_queueMainTask_mainQueueIs env TaskType.GlobalHookEnableScheduleBindings
    (fun hookName => { EventDescription := "PrepopulateMainQueue", HookName := hookName })
    (env.GetGlobalHooksInOrder BindingType.Schedule) _ _ h1
  have h3 := foldl_queueMainTask_mainQueueIs env TaskType.GlobalHookEnableKubernetesBindings
    (fun hookName => { EventDescription := "PrepopulateMainQueue", HookName := hookName })
    (env.GetGlobalHooksInOrder BindingType.OnKubernetesEvent) _ _ h2
  have h4 := queueMainTask_mainQueueIs env _ TaskType.GlobalHookWaitKubernetesSynchronization
    { EventDescription := "PrepopulateMainQueue" } _ h3
  have h5 := queueMainTask_mainQueueIs env _ TaskType.ReloadAllModules
    { EventDescription := "PrepopulateMainQueue", OnStartupHooks := true } _ h4
  simpa [PrepopulateMainQueue] using h5

/-! ## The task handler -/

theorem finishTaskResult_Status (t : Task) (res : TaskResult) :
    (finishTaskResult t res).Status = res.Status := by
  unfold finishTaskResult; split <;> rfl

theorem finishTaskResult_HeadTasks (t : Task) (res : TaskResult) :
    (finishTaskResult t res).HeadTasks = res.HeadTasks := by
  unfold finishTaskResult; split <;> rfl

theorem finishTaskResult_TailTasks (t : Task) (res : TaskResult) :
    (finishTaskResult t res).TailTasks = res.TailTasks := by
  unfold finishTaskResult; split <;> rfl

theorem finishTaskResult_AfterTasks (t : Task) (res : TaskResult) :
    (finishTaskResult t res).AfterTasks = res.AfterTasks := by
  unfold finishTaskResult; split <;> rfl

/-- Combining changes the handled task in its binding contexts only. -/
theorem combineForHook_task (env : OperatorEnv) (op : Operator) (t : Task) :
    ∃ bcs, (combineForHook env op t).2.1 =
      { t with Metadata := { t.Metadata with BindingContext := bcs } } := by
  unfold combineForHook
  cases h : (env.CombineBindingContextForHook (queueTasks op.TaskQueues t.QueueName) t
      (stopCombine t.Metadata)).1 with
  | none => exact ⟨t.Metadata.BindingContext, by simp [h]⟩
  | some bcs => exact ⟨bcs, by simp [h]⟩

theorem globalHookRunCombine_task (env : OperatorEnv) (op : Operator) (t : Task) :
    ∃ bcs, (globalHookRunCombine env op t).2 =
      { t with Metadata := { t.Metadata with BindingContext := bcs } } := by
  unfold globalHookRunCombine
  split
  · exact combineForHook_task env op t
  · exact ⟨t.Metadata.BindingContext, rfl⟩

theorem moduleHookRunCombine_task (env : OperatorEnv) (op : Operator) (t : Task) :
    ∃ bcs, (moduleHookRunCombine env op t).2 =
      { t with Metadata := { t.Metadata with BindingContext := bcs } } := by
  unfold moduleHookRunCombine
  split
  · exact combineForHook_task env _ t
  · exact ⟨t.Metadata.BindingContext, rfl⟩

/-- The reload decision does not look at the binding contexts. -/
theorem reloadAllDecision_bindingContext (hm : HookMetadata) (bcs : List BindingContext)
    (beforeChecksum afterChecksum : String) :
    reloadAllDecision { hm with BindingContext := bcs } beforeChecksum afterChecksum =
      reloadAllDecision hm beforeChecksum afterChecksum := by
  unfold reloadAllDecision
  rfl

/-- The reload decision is positive exactly under the three reload rules. -/
theorem reloadAllDecision_true_iff (hm : HookMetadata) (beforeChecksum afterChecksum : String) :
    (reloadAllDecision hm beforeChecksum afterChecksum).1 = true ↔
      ((hm.BindingType = BindingType.Schedule ∧ beforeChecksum ≠ afterChecksum) ∨
       (hm.BindingType = BindingType.OnKubernetesEvent ∧ hm.ReloadAllOnValuesChanges = true ∧
          beforeChecksum ≠ afterChecksum) ∨
       (hm.BindingType = BindingType.AfterAll ∧ hm.LastAfterAllHook = true ∧
          afterChecksum ≠ hm.ValuesChecksum)) := by
  unfold reloadAllDecision
  cases hB : hm.BindingType <;> simp
  · by_cases h : beforeChecksum = afterChecksum <;> simp [h]
  · by_cases h : hm.ReloadAllOnValuesChanges = true ∧ beforeChecksum ≠ afterChecksum
    · simp [h]
    · simp only [h, if_false]
      simp
  · by_cases h : hm.LastAfterAllHook = true ∧ afterChecksum ≠ hm.ValuesChecksum
    · simp [h]
    · simp only [h, if_false]
      simp

/-- The result of the GlobalHookRun case, by the outcome of the hook run. -/
theorem TaskHandler_GlobalHookRun_result (env : OperatorEnv) (op : Operator) (t : Task) :
    ∃ id : String,
      (TaskHandler_GlobalHookRun env op t).1 =
        finishTaskResult (globalHookRunCombine env op t).2
          (match (env.RunGlobalHook (globalHookRunCombine env op t).2.Metadata.HookName
              (globalHookRunCombine env op t).2.Metadata.BindingType
              (globalHookRunCombine env op t).2.Metadata.BindingContext) with
            | (_, _, some _) =>
              if t.Metadata.AllowFailure then { Status := "Success" } else { Status := "Fail" }
            | (beforeChecksum, afterChecksum, none) =>
              if (reloadAllDecision t.Metadata beforeChecksum afterChecksum).1 then
                { Status := "Success"
                  TailTasks := [Task.mk id TaskType.ReloadAllModules "main"
                    { EventDescription :=
                        (reloadAllDecision t.Metadata beforeChecksum afterChecksum).2
                      OnStartupHooks := false } 0 ""] }
              else { Status := "Success" }) := by
  obtain ⟨bcs, hT⟩ := globalHookRunCombine_task env op t
  refine ⟨env.uuid ((globalHookRunCombine env op t).1.call [Call.StopMonitors]).uuids, ?_⟩
  unfold TaskHandler_GlobalHookRun
  generalize globalHookRunCombine env op t = st at hT ⊢
  obtain ⟨op', t'⟩ := st
  simp only at hT
  subst hT
  simp only [reloadAllDecision_bindingContext]
  generalize env.RunGlobalHook _ _ _ = run
  obtain ⟨b, a, e⟩ := run
  cases e with
  | some err =>
    by_cases hA : t.Metadata.AllowFailure = true
    · simp [hA]
    · simp [hA]
  | none =>
    by_cases hD : (reloadAllDecision t.Metadata b a).1 = true
    · simp [hD, NewTask]
    · simp [hD]

/-- C7: when the hook of a GlobalHookRun task runs without error, with checksums
`beforeChecksum` and `afterChecksum` of the global values, the result is `Success` without
head or after tasks, and it holds a ReloadAllModules task if and only if the binding is
Schedule and the checksums differ, or the binding is OnKubernetesEvent,
`ReloadAllOnValuesChanges` is set and the checksums differ, or the binding is AfterAll,
`LastAfterAllHook` is set and `afterChecksum` differs from the stored `ValuesChecksum`.
That task is then the only element of `TailTasks`, is for the queue `main` and has
`OnStartupHooks = false`; in every other case `TailTasks` is empty. -/
theorem C7_global_hook_run_reload_all_rules (env : OperatorEnv) (op : Operator) (t : Task)
    (beforeChecksum afterChecksum : String)
    (hRun : env.RunGlobalHook (globalHookRunCombine env op t).2.Metadata.HookName
        (globalHookRunCombine env op t).2.Metadata.BindingType
        (globalHookRunCombine env op t).2.Metadata.BindingContext
      = (beforeChecksum, afterChecksum, none)) :
    (TaskHandler_GlobalHookRun env op t).1.Status = "Success" ∧
    (TaskHandler_GlobalHookRun env op t).1.HeadTasks = [] ∧
    (TaskHandler_GlobalHookRun env op t).1.AfterTasks = [] ∧
    ((∃ r ∈ (TaskHandler_GlobalHookRun env op t).1.TailTasks,
        r.taskType = TaskType.ReloadAllModules) ↔
      ((t.Metadata.BindingType = BindingType.Schedule ∧ beforeChecksum ≠ afterChecksum) ∨
       (t.Metadata.BindingType = BindingType.OnKubernetesEvent ∧
          t.Metadata.ReloadAllOnValuesChanges = true ∧ beforeChecksum ≠ afterChecksum) ∨
       (t.Metadata.BindingType = BindingType.AfterAll ∧ t.Metadata.LastAfterAllHook = true ∧
          afterChecksum ≠ t.Metadata.ValuesChecksum))) ∧
    ((TaskHandler_GlobalHookRun env op t).1.TailTasks = [] ∨
      ∃ r, (TaskHandler_GlobalHookRun env op t).1.TailTasks = [r] ∧
        r.taskType = TaskType.ReloadAllModules ∧ r.QueueName = "main" ∧
        r.Metadata.OnStartupHooks = false) := by
  obtain ⟨id, hRes⟩ := TaskHandler_GlobalHookRun_result env op t
  rw [hRun] at hRes
  simp only at hRes
  rw [hRes]
  simp only [finishTaskResult_Status, finishTaskResult_HeadTasks, finishTaskResult_AfterTasks,
    finishTaskResult_TailTasks]
  rw [← reloadAllDecision_true_iff]
  by_cases hD : (reloadAllDecision t.Metadata beforeChecksum afterChecksum).1 = true
  · simp [hD]
  · simp [hD]

/-- C7 at a concrete input: a Schedule hook that changes the checksum of the global values
from `before` to `after`. -/
theorem C7_global_hook_run_reload_all_rules_witness :
    demoOperatorEnv.RunGlobalHook
        (globalHookRunCombine demoOperatorEnv {} demoScheduleTask).2.Metadata.HookName
        (globalHookRunCombine demoOperatorEnv {} demoScheduleTask).2.Metadata.BindingType
        (globalHookRunCombine demoOperatorEnv {} demoScheduleTask).2.Metadata.BindingContext
      = ("before", "after", none) ∧
    (TaskHandler_GlobalHookRun demoOperatorEnv {} demoScheduleTask).1.Status = "Success" ∧
    (TaskHandler_GlobalHookRun demoOperatorEnv {} demoScheduleTask).1.HeadTasks = [] ∧
    (TaskHandler_GlobalHookRun demoOperatorEnv {} demoScheduleTask).1.AfterTasks = [] ∧
    ((∃ r ∈ (TaskHandler_GlobalHookRun demoOperatorEnv {} demoScheduleTask).1.TailTasks,
        r.taskType = TaskType.ReloadAllModules) ↔
      ((demoScheduleTask.Metadata.BindingType = BindingType.Schedule ∧ "before" ≠ "after") ∨
       (demoScheduleTask.Metadata.BindingType = BindingType.OnKubernetesEvent ∧
          demoScheduleTask.Metadata.ReloadAllOnValuesChanges = true ∧ "before" ≠ "after") ∨
       (demoScheduleTask.Metadata.BindingType = BindingType.AfterAll ∧
          demoScheduleTask.Metadata.LastAfterAllHook = true ∧
          "after" ≠ demoScheduleTask.Metadata.ValuesChecksum))) ∧
    ((TaskHandler_GlobalHookRun demoOperatorEnv {} demoScheduleTask).1.TailTasks = [] ∨
      ∃ r, (TaskHandler_GlobalHookRun demoOperatorEnv {} demoScheduleTask).1.TailTasks = [r] ∧
        r.taskType = TaskType.ReloadAllModules ∧ r.QueueName = "main" ∧
        r.Metadata.OnStartupHooks = false) :=
  ⟨rfl, C7_global_hook_run_reload_all_rules demoOperatorEnv {} demoScheduleTask
    "before" "after" rfl⟩

/-- The same run evaluated: the result holds one ReloadAllModules task, in `TailTasks`. -/
theorem TaskHandler_GlobalHookRun_demoScheduleTask :
    (TaskHandler_GlobalHookRun demoOperatorEnv {} demoScheduleTask).1 =
      { Status := "Success"
        TailTasks := [Task.mk "u" TaskType.ReloadAllModules "main"
          { EventDescription := "ScheduleChangeGlobalValues(cron)" } 0 ""]
        AfterHandle := [AfterHandleCall.CheckConvergeStatus "t"] } := by
  rfl

/-! ## Synchronization runs -/

theorem mem_waitSyncAssign (m : List (String × Task)) (id : String) (tsk : Task)
    (e : String × Task) (h : e ∈ waitSyncAssign m id tsk) : e ∈ m ∨ e = (id, tsk) := by
  unfold waitSyncAssign at h
  split at h
  · rw [List.mem_map] at h
    obtain ⟨e', he', hEq⟩ := h
    by_cases hk : e'.1 = id
    · right; rw [← hEq]; simp [hk]
    · left; rw [← hEq]; simpa [hk] using he'
  · rw [List.mem_append] at h
    rcases h with h | h
    · exact Or.inl h
    · right; simpa using h

theorem enableKubernetesBindingsCallback_sync (env : OperatorEnv) (t : Task)
    (eventDescription : String) (st : Operator × SyncTasks) (hookName : String)
    (info : BindingExecutionInfo)
    (h : ∀ tsk, tsk ∈ st.2.mainSyncTasks ++ st.2.waitSyncTasks.map (fun e => e.2)
      ++ st.2.parallelSyncTasks → IsSynchronizationRun tsk) :
    ∀ tsk,
      tsk ∈ (enableKubernetesBindingsCallback env t eventDescription st hookName
            info).2.mainSyncTasks
          ++ (enableKubernetesBindingsCallback env t eventDescription st hookName
            info).2.waitSyncTasks.map (fun e => e.2)
          ++ (enableKubernetesBindingsCallback env t eventDescription st hookName
            info).2.parallelSyncTasks →
        IsSynchronizationRun tsk := by
  intro tsk hMem
  unfold enableKubernetesBindingsCallback at hMem
  simp only [NewTask] at hMem
  split at hMem
  · simp only [List.mem_append, List.mem_map, List.mem_singleton] at hMem h
    rcases hMem with (hMem | hMem) | hMem
    · rcases hMem with hMem | hMem
      · exact h tsk (Or.inl (Or.inl hMem))
      · subst hMem; exact ⟨rfl, rfl, rfl⟩
    · exact h tsk (Or.inl (Or.inr hMem))
    · exact h tsk (Or.inr hMem)
  · split at hMem
    · simp only [List.mem_append, List.mem_map] at hMem h
      rcases hMem with (hMem | hMem) | hMem
      · exact h tsk (Or.inl (Or.inl hMem))
      · obtain ⟨e, he, hEq⟩ := hMem
        rcases mem_waitSyncAssign _ _ _ e he with he' | he'
        · exact h tsk (Or.inl (Or.inr ⟨e, he', hEq⟩))
        · subst he'; subst hEq; exact ⟨rfl, rfl, rfl⟩
      · exact h tsk (Or.inr hMem)
    · simp only [List.mem_append, List.mem_map, List.mem_singleton] at hMem h
      rcases hMem with (hMem | hMem) | hMem
      · exact h tsk (Or.inl (Or.inl hMem))
      · exact h tsk (Or.inl (Or.inr hMem))
      · rcases hMem with hMem | hMem
        · exact h tsk (Or.inr hMem)
        · subst hMem; exact ⟨rfl, rfl, rfl⟩

theorem foldl_enableKubernetesBindingsCallback_sync (env : OperatorEnv) (t : Task)
    (eventDescription : String) (calls : List (String × BindingExecutionInfo)) :
    ∀ (st : Operator × SyncTasks),
      (∀ tsk, tsk ∈ st.2.mainSyncTasks ++ st.2.waitSyncTasks.map (fun e => e.2)
        ++ st.2.parallelSyncTasks → IsSynchronizationRun tsk) →
      ∀ tsk,
        tsk ∈ (calls.foldl (fun st c =>
              enableKubernetesBindingsCallback env t eventDescription st c.1 c.2)
              st).2.mainSyncTasks
            ++ (calls.foldl (fun st c =>
              enableKubernetesBindingsCallback env t eventDescription st c.1 c.2)
              st).2.waitSyncTasks.map (fun e => e.2)
            ++ (calls.foldl (fun st c =>
              enableKubernetesBindingsCallback env t eventDescription st c.1 c.2)
              st).2.parallelSyncTasks →
          IsSynchronizationRun tsk := by
  induction calls with
  | nil => intro st h; simpa using h
  | cons c rest ih =>
    intro st h
    rw [List.foldl_cons]
    exact ih _ (enableKubernetesBindingsCallback_sync env t eventDescription st c.1 c.2 h)

theorem createdSyncTasks_isSynchronizationRun (env : OperatorEnv) (op : Operator) (t : Task)
    (tsk : Task) (h : tsk ∈ createdSyncTasks env op t) : IsSynchronizationRun tsk := by
  unfold createdSyncTasks collectSyncTasks at h
  refine foldl_enableKubernetesBindingsCallback_sync env t _ _ (op, {}) ?_ tsk h
  intro tsk' h'
  simp at h'

/-- A GlobalHookRun task with binding OnKubernetesEvent and `ReloadAllOnValuesChanges = false`
gives a result without any follow-up task. -/
theorem TaskHandler_GlobalHookRun_synchronization (env : OperatorEnv) (op : Operator)
    (t : Task) (hB : t.Metadata.BindingType = BindingType.OnKubernetesEvent)
    (hR : t.Metadata.ReloadAllOnValuesChanges = false) :
    (TaskHandler_GlobalHookRun env op t).1.HeadTasks = [] ∧
    (TaskHandler_GlobalHookRun env op t).1.TailTasks = [] ∧
    (TaskHandler_GlobalHookRun env op t).1.AfterTasks = [] := by
  obtain ⟨id, hRes⟩ := TaskHandler_GlobalHookRun_result env op t
  rw [hRes]
  simp only [finishTaskResult_HeadTasks, finishTaskResult_AfterTasks,
    finishTaskResult_TailTasks]
  generalize env.RunGlobalHook _ _ _ = run
  obtain ⟨b, a, e⟩ := run
  cases e with
  | some err => by_cases hA : t.Metadata.AllowFailure = true <;> simp [hA]
  | none =>
    have hD : ¬ (reloadAllDecision t.Metadata b a).1 = true := by
      rw [reloadAllDecision_true_iff]
      simp [hB, hR]
    simp [hD]

theorem createdSyncTasks_demo :
    createdSyncTasks demoOperatorEnv {} demoEnableTask = [demoSyncTask, demoSideSyncTask] := by
  rfl

theorem TaskHandler_GlobalHookEnableKubernetesBindings_HeadTasks (env : OperatorEnv)
    (op : Operator) (t : Task) :
    ∀ x ∈ (TaskHandler_GlobalHookEnableKubernetesBindings env op t).1.HeadTasks,
      x ∈ createdSyncTasks env op t := by
  intro x hx
  unfold TaskHandler_GlobalHookEnableKubernetesBindings at hx
  simp only [finishTaskResult_HeadTasks] at hx
  unfold createdSyncTasks
  cases hE : (env.HandleGlobalEnableKubernetesBindings t.Metadata.HookName).2 with
  | some err => rw [hE] at hx; simp at hx
  | none =>
    rw [hE] at hx
    simp only at hx
    simp [hx]

/-- C8: a GlobalHookRun task created while a GlobalHookEnableKubernetesBindings task is handled
(a Synchronization run) gives, when it is handled later, a result without any follow-up task,
so no ReloadAllModules task: this holds in every later state of the operator and its
collaborators, hence for every pair of checksums that the hook run returns, and whatever
binding contexts and failure record the task has by then. The tasks returned as `HeadTasks`
are among the created ones. -/
theorem C8_synchronization_run_never_reloads (env : OperatorEnv) (op : Operator) (t : Task)
    (tsk : Task) (hCreated : tsk ∈ createdSyncTasks env op t)
    (env' : OperatorEnv) (op' : Operator) (bcs : List BindingContext)
    (failureCount : Nat) (failureMessage : String) :
    tsk.taskType = TaskType.GlobalHookRun ∧
    (TaskHandler_GlobalHookRun env' op'
      { tsk with
        Metadata := { tsk.Metadata with BindingContext := bcs }
        FailureCount := failureCount
        FailureMessage := failureMessage }).1.HeadTasks = [] ∧
    (TaskHandler_GlobalHookRun env' op'
      { tsk with
        Metadata := { tsk.Metadata with BindingContext := bcs }
        FailureCount := failureCount
        FailureMessage := failureMessage }).1.TailTasks = [] ∧
    (TaskHandler_GlobalHookRun env' op'
      { tsk with
        Metadata := { tsk.Metadata with BindingContext := bcs }
        FailureCount := failureCount
        FailureMessage := failureMessage }).1.AfterTasks = [] ∧
    (∀ x ∈ (TaskHandler_GlobalHookEnableKubernetesBindings env op t).1.HeadTasks,
      x ∈ createdSyncTasks env op t) := by
  obtain ⟨hT, hB, hR⟩ := createdSyncTasks_isSynchronizationRun env op t tsk hCreated
  obtain ⟨h1, h2, h3⟩ := TaskHandler_GlobalHookRun_synchronization env' op'
    { tsk with
      Metadata := { tsk.Metadata with BindingContext := bcs }
      FailureCount := failureCount
      FailureMessage := failureMessage } hB hR
  exact ⟨hT, h1, h2, h3, TaskHandler_GlobalHookEnableKubernetesBindings_HeadTasks env op t⟩

/-- C8 at a concrete input: the Synchronization task created for the hook `watch` is handled
when the hook changes the checksum of the global values from `before` to `after`. -/
theorem C8_synchronization_run_never_reloads_witness :
    demoSyncTask ∈ createdSyncTasks demoOperatorEnv {} demoEnableTask ∧
    demoSyncTask.taskType = TaskType.GlobalHookRun ∧
    (TaskHandler_GlobalHookRun demoOperatorEnv {}
      { demoSyncTask with
        Metadata := { demoSyncTask.Metadata with BindingContext := [] }
        FailureCount := 0
        FailureMessage := "" }).1.HeadTasks = [] ∧
    (TaskHandler_GlobalHookRun demoOperatorEnv {}
      { demoSyncTask with
        Metadata := { demoSyncTask.Metadata with BindingContext := [] }
        FailureCount := 0
        FailureMessage := "" }).1.TailTasks = [] ∧
    (TaskHandler_GlobalHookRun demoOperatorEnv {}
      { demoSyncTask with
        Metadata := { demoSyncTask.Metadata with BindingContext := [] }
        FailureCount := 0
        FailureMessage := "" }).1.AfterTasks = [] ∧
    (∀ x ∈ (TaskHandler_GlobalHookEnableKubernetesBindings demoOperatorEnv {}
        demoEnableTask).1.HeadTasks,
      x ∈ createdSyncTasks demoOperatorEnv {} demoEnableTask) :=
  ⟨createdSyncTasks_demo ▸ List.mem_cons_self _ _,
    C8_synchronization_run_never_reloads demoOperatorEnv {} demoEnableTask demoSyncTask
      (createdSyncTasks_demo ▸ List.mem_cons_self _ _) demoOperatorEnv {} [] 0 ""⟩

/-! ## Failing hooks -/

/-- The result of `HandleModuleHookRun`, by the outcome of the hook run. -/
theorem HandleModuleHookRun_result (env : OperatorEnv) (op : Operator) (t : Task) :
    (HandleModuleHookRun env op t).1 =
      (match env.RunModuleHook (moduleHookRunCombine env op t).2.Metadata.HookName
          (moduleHookRunCombine env op t).2.Metadata.BindingType
          (moduleHookRunCombine env op t).2.Metadata.BindingContext with
        | some _ =>
          if t.Metadata.AllowFailure then { Status := "Success" } else { Status := "Fail" }
        | none => { Status := "Success" }) := by
  obtain ⟨bcs, hT⟩ := moduleHookRunCombine_task env op t
  unfold HandleModuleHookRun
  generalize moduleHookRunCombine env op t = st at hT ⊢
  obtain ⟨op', t'⟩ := st
  simp only at hT
  subst hT
  cases hR : env.RunModuleHook t.Metadata.HookName t.Metadata.BindingType bcs with
  | some err => by_cases hA : t.Metadata.AllowFailure = true <;> simp [hR, hA]
  | none => simp [hR]

/-- C9: when the hook of a GlobalHookRun task, or of a ModuleHookRun task, returns an error,
the status of the handler result is `Success` if the task metadata has `AllowFailure = true`
and `Fail` if it has `AllowFailure = false`; in both cases the result holds no follow-up
task, so an allowed failure produces no ReloadAllModules task. -/
theorem C9_hook_error_allow_failure (env : OperatorEnv) (op : Operator)
    (globalTask moduleTask : Task) (globalErr moduleErr : String)
    (hGlobal :
      (env.RunGlobalHook (globalHookRunCombine env op globalTask).2.Metadata.HookName
        (globalHookRunCombine env op globalTask).2.Metadata.BindingType
        (globalHookRunCombine env op globalTask).2.Metadata.BindingContext).2.2
      = some globalErr)
    (hModule :
      env.RunModuleHook (moduleHookRunCombine env op moduleTask).2.Metadata.HookName
        (moduleHookRunCombine env op moduleTask).2.Metadata.BindingType
        (moduleHookRunCombine env op moduleTask).2.Metadata.BindingContext
      = some moduleErr) :
    ((TaskHandler_GlobalHookRun env op globalTask).1.Status =
        if globalTask.Metadata.AllowFailure = true then "Success" else "Fail") ∧
    (TaskHandler_GlobalHookRun env op globalTask).1.HeadTasks = [] ∧
    (TaskHandler_GlobalHookRun env op globalTask).1.TailTasks = [] ∧
    (TaskHandler_GlobalHookRun env op globalTask).1.AfterTasks = [] ∧
    ((TaskHandler_ModuleHookRun env op moduleTask).1.Status =
        if moduleTask.Metadata.AllowFailure = true then "Success" else "Fail") ∧
    (TaskHandler_ModuleHookRun env op moduleTask).1.HeadTasks = [] ∧
    (TaskHandler_ModuleHookRun env op moduleTask).1.TailTasks = [] ∧
    (TaskHandler_ModuleHookRun env op moduleTask).1.AfterTasks = [] := by
  obtain ⟨id, hRes⟩ := TaskHandler_GlobalHookRun_result env op globalTask
  have hM := HandleModuleHookRun_result env op moduleTask
  rw [hModule] at hM
  simp only at hM
  rw [hRes]
  unfold TaskHandler_ModuleHookRun
  simp only [finishTaskResult_Status, finishTaskResult_HeadTasks, finishTaskResult_AfterTasks,
    finishTaskResult_TailTasks, hM]
  generalize env.RunGlobalHook _ _ _ = run at hGlobal ⊢
  obtain ⟨b, a, e⟩ := run
  simp only at hGlobal
  subst hGlobal
  by_cases hA : globalTask.Metadata.AllowFailure = true <;>
    by_cases hA' : moduleTask.Metadata.AllowFailure = true <;> simp [hA, hA']

/-- C9 at a concrete input: failing hooks, a global task that is not allowed to fail and a
module task that is. -/
theorem C9_hook_error_allow_failure_witness :
    (demoFailingEnv.RunGlobalHook
        (globalHookRunCombine demoFailingEnv {} demoScheduleTask).2.Metadata.HookName
        (globalHookRunCombine demoFailingEnv {} demoScheduleTask).2.Metadata.BindingType
        (globalHookRunCombine demoFailingEnv {} demoScheduleTask).2.Metadata.BindingContext).2.2
      = some "exit status 1" ∧
    demoFailingEnv.RunModuleHook
        (moduleHookRunCombine demoFailingEnv {} demoModuleHookTask).2.Metadata.HookName
        (moduleHookRunCombine demoFailingEnv {} demoModuleHookTask).2.Metadata.BindingType
        (moduleHookRunCombine demoFailingEnv {} demoModuleHookTask).2.Metadata.BindingContext
      = some "exit status 1" ∧
    ((TaskHandler_GlobalHookRun demoFailingEnv {} demoScheduleTask).1.Status =
        if demoScheduleTask.Metadata.AllowFailure = true then "Success" else "Fail") ∧
    (TaskHandler_GlobalHookRun demoFailingEnv {} demoScheduleTask).1.HeadTasks = [] ∧
    (TaskHandler_GlobalHookRun demoFailingEnv {} demoScheduleTask).1.TailTasks = [] ∧
    (TaskHandler_GlobalHookRun demoFailingEnv {} demoScheduleTask).1.AfterTasks = [] ∧
    ((TaskHandler_ModuleHookRun demoFailingEnv {} demoModuleHookTask).1.Status =
        if demoModuleHookTask.Metadata.AllowFailure = true then "Success" else "Fail") ∧
    (TaskHandler_ModuleHookRun demoFailingEnv {} demoModuleHookTask).1.HeadTasks = [] ∧
    (TaskHandler_ModuleHookRun demoFailingEnv {} demoModuleHookTask).1.TailTasks = [] ∧
    (TaskHandler_ModuleHookRun demoFailingEnv {} demoModuleHookTask).1.AfterTasks = [] :=
  ⟨rfl, rfl,
    C9_hook_error_allow_failure demoFailingEnv {} demoScheduleTask demoModuleHookTask
      "exit status 1" "exit status 1" rfl rfl⟩

/-- The two runs of the witness evaluated: `Fail` for the task that is not allowed to fail,
`Success` for the one that is. -/
theorem hook_error_demo :
    (TaskHandler_GlobalHookRun demoFailingEnv {} demoScheduleTask).1.Status = "Fail" ∧
    (TaskHandler_ModuleHookRun demoFailingEnv {} demoModuleHookTask).1.Status = "Success" := by
  constructor <;> rfl

/-! ## The synchronization barrier -/

/-- C10: handling a GlobalHookWaitKubernetesSynchronization task returns `Success` exactly when
global synchronization is not needed or is done, and `Repeat` exactly when it is needed and
not done; it never returns `Fail` and the result holds no follow-up task. -/
theorem C10_wait_synchronization_status (env : OperatorEnv) (op : Operator) (t : Task) :
    ((TaskHandler_GlobalHookWaitKubernetesSynchronization env op t).1.Status = "Success" ↔
      (env.GlobalSynchronizationNeeded = false ∨ env.GlobalSynchronizationDone = true)) ∧
    ((TaskHandler_GlobalHookWaitKubernetesSynchronization env op t).1.Status = "Repeat" ↔
      (env.GlobalSynchronizationNeeded = true ∧ env.GlobalSynchronizationDone = false)) ∧
    (TaskHandler_GlobalHookWaitKubernetesSynchronization env op t).1.Status ≠ "Fail" ∧
    (TaskHandler_GlobalHookWaitKubernetesSynchronization env op t).1.HeadTasks = [] ∧
    (TaskHandler_GlobalHookWaitKubernetesSynchronization env op t).1.TailTasks = [] ∧
    (TaskHandler_GlobalHookWaitKubernetesSynchronization env op t).1.AfterTasks = [] := by
  unfold TaskHandler_GlobalHookWaitKubernetesSynchronization
  simp only [finishTaskResult_Status, finishTaskResult_HeadTasks, finishTaskResult_AfterTasks,
    finishTaskResult_TailTasks]
  cases hN : env.GlobalSynchronizationNeeded <;> cases hD : env.GlobalSynchronizationDone <;>
    simp

/-! ## Reload of all modules -/

theorem Filter_reloadAllFilter_true (t : Task) (q : List Task) :
    Filter (reloadAllFilter t) true q = (q, true) := by
  induction q with
  | nil => rfl
  | cons tsk rest ih =>
    unfold Filter
    by_cases h : tsk.Id = t.Id
    · simp [reloadAllFilter, h, ih]
    · simp [reloadAllFilter, h, ih]

theorem Filter_reloadAllFilter_false (t : Task) (q : List Task)
    (hIds : ∀ x ∈ q, x.Id ≠ t.Id) :
    (Filter (reloadAllFilter t) false q).1 =
      q.dropWhile (fun x => decide (x.taskType = TaskType.ReloadAllModules)) := by
  induction q with
  | nil => rfl
  | cons tsk rest ih =>
    have hId : tsk.Id ≠ t.Id := hIds tsk (List.mem_cons_self _ _)
    have ih' := ih (fun x hx => hIds x (List.mem_cons_of_mem _ hx))
    unfold Filter
    by_cases hT : tsk.taskType = TaskType.ReloadAllModules
    · simp [reloadAllFilter, hId, hT, ih', List.dropWhile_cons]
    · simp [reloadAllFilter, hId, hT, Filter_reloadAllFilter_true, List.dropWhile_cons]

theorem Filter_reloadAllFilter_self (t : Task) (q : List Task) (stopFilter : Bool) :
    Filter (reloadAllFilter t) stopFilter (t :: q) =
      (t :: (Filter (reloadAllFilter t) stopFilter q).1,
        (Filter (reloadAllFilter t) stopFilter q).2) := by
  conv => lhs; unfold Filter
  simp [reloadAllFilter]

theorem Filter_reloadAllFilter_drop (t r : Task) (q : List Task)
    (hType : r.taskType = TaskType.ReloadAllModules) (hId : r.Id ≠ t.Id) :
    Filter (reloadAllFilter t) false (r :: q) = Filter (reloadAllFilter t) false q := by
  conv => lhs; unfold Filter
  simp [reloadAllFilter, hType, hId]

theorem queueTasks_withQueue (op : Operator) (name : String) (q : List Task) :
    queueTasks (withQueue op name q).TaskQueues name = q := by
  simp [queueTasks, withQueue]

theorem setQueue_withQueue (op : Operator) (name : String) (q q' : List Task) :
    setQueue (withQueue op name q).TaskQueues name q' = (withQueue op name q').TaskQueues := by
  unfold setQueue withQueue
  simp only [if_true]
  congr 1
  funext n
  by_cases h : n = name <;> simp [h]

/-- The ReloadAllModules case on a queue given by `withQueue`. -/
theorem TaskHandler_ReloadAllModules_withQueue (env : OperatorEnv) (op : Operator) (t : Task)
    (q : List Task) :
    TaskHandler_ReloadAllModules env (withQueue op t.QueueName q) t =
      (finishTaskResult t
        { Status := "Success"
          AfterTasks := (CreateReloadAllTasks env
            (withQueue op t.QueueName (Filter (reloadAllFilter t) false q).1)
            t.Metadata.OnStartupHooks t.Metadata.EventDescription).1 },
        (CreateReloadAllTasks env
          (withQueue op t.QueueName (Filter (reloadAllFilter t) false q).1)
          t.Metadata.OnStartupHooks t.Metadata.EventDescription).2) := by
  unfold TaskHandler_ReloadAllModules
  simp only [queueTasks_withQueue, setQueue_withQueue]
  rfl

theorem foldl_invariant {α β : Type} (P : β → Prop) (f : β → α → β)
    (hStep : ∀ b a, P b → P (f b a)) : ∀ (l : List α) (b : β), P b → P (l.foldl f b) := by
  intro l
  induction l with
  | nil => intro b hb; exact hb
  | cons a rest ih => intro b hb; exact ih _ (hStep b a hb)

theorem CreateReloadAllTasks_TaskQueues (env : OperatorEnv) (op : Operator) (onStartup : Bool)
    (eventDescription : String) :
    (CreateReloadAllTasks env op onStartup eventDescription).2.TaskQueues = op.TaskQueues := by
  unfold CreateReloadAllTasks
  simp only [NewTask]
  apply foldl_invariant (fun st : List Task × Operator => st.2.TaskQueues = op.TaskQueues)
  · intro b a hb
    exact hb
  · rfl

/-- C11: handling a ReloadAllModules task `t` at the head of its queue, the other tasks of
which are other tasks than `t`, removes the ReloadAllModules tasks between `t` and the first
task of another type and keeps `t` and the tasks from that one on, in order, and leaves the
other queues as they are; so handling `t` on `[t, r] ++ rest`, for a ReloadAllModules task
`r` other than `t`, gives the same result and the same operator state, queues included, as
handling `t` on `[t] ++ rest`. -/
theorem C11_reload_all_removes_adjacent_reloads (env : OperatorEnv) (op : Operator)
    (t r : Task) (q rest : List Task)
    (hIds : ∀ x ∈ q, x.Id ≠ t.Id)
    (hType : r.taskType = TaskType.ReloadAllModules) (hId : r.Id ≠ t.Id) :
    (TaskHandler_ReloadAllModules env (withQueue op t.QueueName (t :: q)) t).2.TaskQueues.Queues
        t.QueueName
      = some (t :: q.dropWhile (fun x => decide (x.taskType = TaskType.ReloadAllModules))) ∧
    (∀ name, name ≠ t.QueueName →
      (TaskHandler_ReloadAllModules env (withQueue op t.QueueName (t :: q)) t).2.TaskQueues.Queues
          name
        = op.TaskQueues.Queues name) ∧
    TaskHandler_ReloadAllModules env (withQueue op t.QueueName ([t, r] ++ rest)) t =
      TaskHandler_ReloadAllModules env (withQueue op t.QueueName ([t] ++ rest)) t := by
  refine ⟨?_, ?_, ?_⟩
  · rw [TaskHandler_ReloadAllModules_withQueue, CreateReloadAllTasks_TaskQueues,
      Filter_reloadAllFilter_self, Filter_reloadAllFilter_false t q hIds]
    simp [withQueue]
  · intro name hName
    rw [TaskHandler_ReloadAllModules_withQueue, CreateReloadAllTasks_TaskQueues]
    simp [withQueue, hName]
  · rw [TaskHandler_ReloadAllModules_withQueue, TaskHandler_ReloadAllModules_withQueue]
    simp only [List.cons_append, List.nil_append, Filter_reloadAllFilter_self,
      Filter_reloadAllFilter_drop t r rest hType hId]

/-- C11 at a concrete input: two ReloadAllModules tasks back to back, then a hook run. -/
theorem C11_reload_all_removes_adjacent_reloads_witness :
    (∀ x ∈ [demoReloadTask2, demoScheduleTask], x.Id ≠ demoReloadTask.Id) ∧
    demoReloadTask2.taskType = TaskType.ReloadAllModules ∧
    demoReloadTask2.Id ≠ demoReloadTask.Id ∧
    (TaskHandler_ReloadAllModules demoOperatorEnv
        (withQueue {} demoReloadTask.QueueName
          (demoReloadTask :: [demoReloadTask2, demoScheduleTask]))
        demoReloadTask).2.TaskQueues.Queues demoReloadTask.QueueName
      = some (demoReloadTask :: [demoReloadTask2, demoScheduleTask].dropWhile
          (fun x => decide (x.taskType = TaskType.ReloadAllModules))) ∧
    (∀ name, name ≠ demoReloadTask.QueueName →
      (TaskHandler_ReloadAllModules demoOperatorEnv
          (withQueue {} demoReloadTask.QueueName
            (demoReloadTask :: [demoReloadTask2, demoScheduleTask]))
          demoReloadTask).2.TaskQueues.Queues name
        = ({} : Operator).TaskQueues.Queues name) ∧
    TaskHandler_ReloadAllModules demoOperatorEnv
        (withQueue {} demoReloadTask.QueueName
          ([demoReloadTask, demoReloadTask2] ++ [demoScheduleTask])) demoReloadTask =
      TaskHandler_ReloadAllModules demoOperatorEnv
        (withQueue {} demoReloadTask.QueueName ([demoReloadTask] ++ [demoScheduleTask]))
        demoReloadTask :=
  ⟨by decide, rfl, by decide,
    C11_reload_all_removes_adjacent_reloads demoOperatorEnv {} demoReloadTask demoReloadTask2
      [demoReloadTask2, demoScheduleTask] [demoScheduleTask] (by decide) rfl (by decide)⟩

/-- The queue of the witness evaluated: the second reload task is gone. -/
theorem TaskHandler_ReloadAllModules_demo :
    (TaskHandler_ReloadAllModules demoOperatorEnv
        (withQueue {} "main" [demoReloadTask, demoReloadTask2, demoScheduleTask])
        demoReloadTask).2.TaskQueues.Queues "main"
      = some [demoReloadTask, demoScheduleTask] := by
  rfl

/-! ## Discovery of the modules state -/

theorem foldl_append_summary {α : Type} (f : List Task × Operator → α → List Task × Operator)
    (g : α → TaskType × String × HookMetadata)
    (hStep : ∀ st a, ∃ tsk, (f st a).1 = st.1 ++ [tsk] ∧ taskSummary tsk = g a) :
    ∀ (l : List α) (st : List Task × Operator),
      (l.foldl f st).1.map taskSummary = st.1.map taskSummary ++ l.map g := by
  intro l
  induction l with
  | nil => intro st; simp
  | cons a rest ih =>
    intro st
    obtain ⟨tsk, hEq, hSum⟩ := hStep st a
    rw [List.foldl_cons, ih, hEq]
    simp [hSum]

theorem queueModuleRunTasks_summary (env : ModulesEnv) (hm : HookMetadata)
    (modulesState : ModulesState) (st : List Task × Operator) :
    (queueModuleRunTasks env hm modulesState st).1.map taskSummary =
      st.1.map taskSummary ++ modulesState.EnabledModules.map (fun moduleName =>
        (TaskType.ModuleRun, "main",
          { EventDescription := discoverModulesDescription hm
            ModuleName := moduleName
            OnStartupHooks := runOnStartupHooksFor hm modulesState moduleName })) := by
  unfold queueModuleRunTasks
  apply foldl_append_summary
  intro st a
  exact ⟨_, rfl, rfl⟩

theorem queueModulePurgeTasks_summary (env : ModulesEnv) (hm : HookMetadata)
    (modulesState : ModulesState) (st : List Task × Operator) :
    (queueModulePurgeTasks env hm modulesState st).1.map taskSummary =
      st.1.map taskSummary ++ modulesState.ReleasedUnknownModules.map (fun moduleName =>
        (TaskType.ModulePurge, "main",
          { EventDescription := discoverModulesDescription hm
            ModuleName := moduleName })) := by
  unfold queueModulePurgeTasks
  apply foldl_append_summary
  intro st a
  exact ⟨_, rfl, rfl⟩

theorem queueModuleDeleteTasks_summary (env : ModulesEnv) (hm : HookMetadata)
    (modules : List String) :
    ∀ (st : List Task × Operator) (tasks : List Task) (op : Operator),
      queueModuleDeleteTasks env hm modules st = (.ok tasks, op) →
      tasks.map taskSummary =
        st.1.map taskSummary ++ modules.map (fun moduleName =>
          (TaskType.ModuleDelete, "main",
            { EventDescription := discoverModulesDescription hm
              ModuleName := moduleName })) := by
  induction modules with
  | nil =>
    intro st tasks op h
    simp only [queueModuleDeleteTasks, Prod.mk.injEq, Except.ok.injEq] at h
    simp [← h.1]
  | cons moduleName rest ih =>
    intro st tasks op h
    unfold queueModuleDeleteTasks at h
    simp only at h
    split at h
    · simp at h
    · have h' := ih _ _ _ h
      rw [h']
      simp [taskSummary, NewTask]

theorem queueAfterAllTasks_summary (env : ModulesEnv) (hm : HookMetadata) (n : Nat)
    (hooks : List String) :
    ∀ (i : Nat) (st : List Task × Operator) (tasks : List Task) (op : Operator),
      i + hooks.length = n →
      queueAfterAllTasks env hm n i hooks st = (.ok tasks, op) →
      ∃ checksum, (hooks ≠ [] → env.GlobalValuesChecksum = .ok checksum) ∧
        tasks.map taskSummary =
          st.1.map taskSummary
          ++ hooks.dropLast.map (fun hookName =>
            (TaskType.GlobalHookRun, "main",
              { EventDescription := discoverModulesDescription hm
                HookName := hookName
                BindingType := BindingType.AfterAll
                BindingContext :=
                  [{ Binding := env.ContextBindingType BindingType.AfterAll
                     BindingType := BindingType.AfterAll
                     IncludeAllSnapshots := true }] }))
          ++ hooks.getLast?.toList.map (fun hookName =>
            (TaskType.GlobalHookRun, "main",
              { EventDescription := discoverModulesDescription hm
                HookName := hookName
                BindingType := BindingType.AfterAll
                BindingContext :=
                  [{ Binding := env.ContextBindingType BindingType.AfterAll
                     BindingType := BindingType.AfterAll
                     IncludeAllSnapshots := true }]
                LastAfterAllHook := true
                ValuesChecksum := checksum })) := by
  induction hooks with
  | nil =>
    intro i st tasks op _ h
    simp only [queueAfterAllTasks, Prod.mk.injEq, Except.ok.injEq] at h
    exact ⟨"", by simp, by simp [← h.1]⟩
  | cons hookName rest ih =>
    intro i st tasks op hLen h
    unfold queueAfterAllTasks at h
    simp only at h
    cases rest with
    | nil =>
      have hi : i = n - 1 := by simp at hLen; omega
      simp only [hi, if_true] at h
      cases hC : env.GlobalValuesChecksum with
      | error err => rw [hC] at h; simp at h
      | ok checksum =>
        rw [hC] at h
        simp only [queueAfterAllTasks, Prod.mk.injEq, Except.ok.injEq] at h
        refine ⟨checksum, fun _ => rfl, ?_⟩
        simp [← h.1, taskSummary, NewTask]
    | cons hookName' rest' =>
      have hi : ¬ i = n - 1 := by simp at hLen; omega
      simp only [hi, if_false] at h
      obtain ⟨checksum, hC, hSum⟩ := ih (i + 1) _ tasks op (by simp at hLen ⊢; omega) h
      refine ⟨checksum, fun _ => hC (by simp), ?_⟩
      rw [hSum]
      simp [taskSummary, NewTask, List.dropLast_cons₂, List.getLast?_cons_cons]

/-- The tasks of a successful `RunDiscoverModulesState`, by type, queue and metadata. -/
theorem RunDiscoverModulesState_summary (env : ModulesEnv) (op : Operator) (discoverTask : Task)
    (tasks : List Task) (op' : Operator)
    (h : RunDiscoverModulesState env op discoverTask = (.ok tasks, op')) :
    ∃ modulesState checksum,
      env.DiscoverModulesState = .ok modulesState ∧
      (env.GetGlobalHooksInOrder BindingType.AfterAll ≠ [] →
        env.GlobalValuesChecksum = .ok checksum) ∧
      tasks.map taskSummary =
        modulesState.EnabledModules.map (fun moduleName =>
          (TaskType.ModuleRun, "main",
            { EventDescription := discoverModulesDescription discoverTask.Metadata
              ModuleName := moduleName
              OnStartupHooks :=
                runOnStartupHooksFor discoverTask.Metadata modulesState moduleName }))
        ++ modulesState.ModulesToDisable.map (fun moduleName =>
          (TaskType.ModuleDelete, "main",
            { EventDescription := discoverModulesDescription discoverTask.Metadata
              ModuleName := moduleName }))
        ++ modulesState.ReleasedUnknownModules.map (fun moduleName =>
          (TaskType.ModulePurge, "main",
            { EventDescription := discoverModulesDescription discoverTask.Metadata
              ModuleName := moduleName }))
        ++ (env.GetGlobalHooksInOrder BindingType.AfterAll).dropLast.map (fun hookName =>
          (TaskType.GlobalHookRun, "main",
            { EventDescription := discoverModulesDescription discoverTask.Metadata
              HookName := hookName
              BindingType := BindingType.AfterAll
              BindingContext :=
                [{ Binding := env.ContextBindingType BindingType.AfterAll
                   BindingType := BindingType.AfterAll
                   IncludeAllSnapshots := true }] }))
        ++ (env.GetGlobalHooksInOrder BindingType.AfterAll).getLast?.toList.map
          (fun hookName =>
            (TaskType.GlobalHookRun, "main",
              { EventDescription := discoverModulesDescription discoverTask.Metadata
                HookName := hookName
                BindingType := BindingType.AfterAll
                BindingContext :=
                  [{ Binding := env.ContextBindingType BindingType.AfterAll
                     BindingType := BindingType.AfterAll
                     IncludeAllSnapshots := true }]
                LastAfterAllHook := true
                ValuesChecksum := checksum })) := by
  unfold RunDiscoverModulesState at h
  cases hD : env.DiscoverModulesState with
  | error err => rw [hD] at h; simp at h
  | ok modulesState =>
    rw [hD] at h
    simp only at h
    cases hDel : queueModuleDeleteTasks env discoverTask.Metadata modulesState.ModulesToDisable
        (queueModuleRunTasks env discoverTask.Metadata modulesState ([], op)) with
    | mk r1 op1 =>
      rw [hDel] at h
      cases r1 with
      | error err => simp at h
      | ok tasks1 =>
        simp only at h
        cases hAfter : queueAfterAllTasks env discoverTask.Metadata
            (env.GetGlobalHooksInOrder BindingType.AfterAll).length 0
            (env.GetGlobalHooksInOrder BindingType.AfterAll)
            (queueModulePurgeTasks env discoverTask.Metadata modulesState (tasks1, op1)) with
        | mk r2 op2 =>
          rw [hAfter] at h
          cases r2 with
          | error err => simp at h
          | ok tasks2 =>
            simp only [Prod.mk.injEq, Except.ok.injEq] at h
            obtain ⟨checksum, hC, hSum⟩ := queueAfterAllTasks_summary env discoverTask.Metadata _
              _ 0 _ tasks2 op2 (by simp) hAfter
            have hDelSum := queueModuleDeleteTasks_summary env discoverTask.Metadata _ _ _ _ hDel
            refine ⟨modulesState, checksum, rfl, hC, ?_⟩
            rw [← h.1, hSum, queueModulePurgeTasks_summary]
            simp only [hDelSum, queueModuleRunTasks_summary]
            simp

theorem dropLast_append_getLast?_toList {α : Type} (l : List α) :
    l.dropLast ++ l.getLast?.toList = l := by
  cases h : l.getLast? with
  | none =>
    have : l = [] := List.getLast?_eq_none_iff.mp h
    subst this
    rfl
  | some a => exact List.dropLast_append_getLast? a h

theorem filter_map_of_forall_false {α β : Type} (p : β → Bool) (f : α → β) (l : List α)
    (h : ∀ a, p (f a) = false) : (l.map f).filter p = [] := by
  induction l with
  | nil => rfl
  | cons a rest ih => simp [List.filter_cons, h a, ih]

theorem filter_map_of_forall_true {α β : Type} (p : β → Bool) (f : α → β) (l : List α)
    (h : ∀ a, p (f a) = true) : (l.map f).filter p = l.map f := by
  induction l with
  | nil => rfl
  | cons a rest ih => simp [List.filter_cons, h a, ih]

theorem filter_map_taskSummary {γ : Type} (tasks : List Task)
    (p : TaskType × String × HookMetadata → Bool) (g : TaskType × String × HookMetadata → γ) :
    (tasks.filter (fun t => p (taskSummary t))).map (fun t => g (taskSummary t)) =
      ((tasks.map taskSummary).filter p).map g := by
  induction tasks with
  | nil => rfl
  | cons t rest ih =>
    by_cases h : p (taskSummary t) = true
    · simp [List.filter_cons, h, ih]
    · simp [List.filter_cons, h, ih]

theorem runOnStartupHooksFor_eq (hm : HookMetadata) (modulesState : ModulesState)
    (moduleName : String) :
    runOnStartupHooksFor hm modulesState moduleName =
      (hm.OnStartupHooks || decide (moduleName ∈ modulesState.NewlyEnabledModules)) := by
  unfold runOnStartupHooksFor
  cases hO : hm.OnStartupHooks
  · simp only [Bool.not_false, if_true, Bool.false_or]
    rw [Bool.eq_iff_iff]
    simp only [List.any_eq_true, decide_eq_true_eq]
    constructor
    · rintro ⟨x, hx, rfl⟩
      exact hx
    · intro hm'
      exact ⟨moduleName, hm', rfl⟩
  · simp

/-- C12: a successful `RunDiscoverModulesState` returns exactly one ModuleRun task per enabled
module in order, then one ModuleDelete task per module to disable in order, then one
ModulePurge task per unknown release in order, then one GlobalHookRun task with binding
AfterAll per AfterAll hook in order, all for the queue `main`; the length of the list is the
sum of the lengths of the four lists. -/
theorem C12_discover_modules_state_tasks (env : ModulesEnv) (op : Operator)
    (discoverTask : Task) (tasks : List Task) (op' : Operator)
    (h : RunDiscoverModulesState env op discoverTask = (.ok tasks, op')) :
    ∃ modulesState,
      env.DiscoverModulesState = .ok modulesState ∧
      tasks.map (fun t => (t.taskType, t.QueueName, t.Metadata.ModuleName,
          t.Metadata.HookName, t.Metadata.BindingType)) =
        modulesState.EnabledModules.map (fun moduleName =>
          (TaskType.ModuleRun, "main", moduleName, "", BindingType.Unset))
        ++ modulesState.ModulesToDisable.map (fun moduleName =>
          (TaskType.ModuleDelete, "main", moduleName, "", BindingType.Unset))
        ++ modulesState.ReleasedUnknownModules.map (fun moduleName =>
          (TaskType.ModulePurge, "main", moduleName, "", BindingType.Unset))
        ++ (env.GetGlobalHooksInOrder BindingType.AfterAll).map (fun hookName =>
          (TaskType.GlobalHookRun, "main", "", hookName, BindingType.AfterAll)) ∧
      tasks.length =
        modulesState.EnabledModules.length + modulesState.ModulesToDisable.length
          + modulesState.ReleasedUnknownModules.length
          + (env.GetGlobalHooksInOrder BindingType.AfterAll).length := by
  obtain ⟨modulesState, checksum, hD, _, hSum⟩ :=
    RunDiscoverModulesState_summary env op discoverTask tasks op' h
  have hMap : tasks.map (fun t => (t.taskType, t.QueueName, t.Metadata.ModuleName,
        t.Metadata.HookName, t.Metadata.BindingType)) =
      (tasks.map taskSummary).map (fun s => (s.1, s.2.1, s.2.2.ModuleName, s.2.2.HookName,
        s.2.2.BindingType)) := by
    simp [List.map_map, Function.comp_def, taskSummary]
  have hList : tasks.map (fun t => (t.taskType, t.QueueName, t.Metadata.ModuleName,
        t.Metadata.HookName, t.Metadata.BindingType)) =
      modulesState.EnabledModules.map (fun moduleName =>
        (TaskType.ModuleRun, "main", moduleName, "", BindingType.Unset))
      ++ modulesState.ModulesToDisable.map (fun moduleName =>
        (TaskType.ModuleDelete, "main", moduleName, "", BindingType.Unset))
      ++ modulesState.ReleasedUnknownModules.map (fun moduleName =>
        (TaskType.ModulePurge, "main", moduleName, "", BindingType.Unset))
      ++ (env.GetGlobalHooksInOrder BindingType.AfterAll).map (fun hookName =>
        (TaskType.GlobalHookRun, "main", "", hookName, BindingType.AfterAll)) := by
    rw [hMap, hSum]
    simp only [List.map_append, List.map_map, Function.comp_def, List.append_assoc]
    conv => rhs; rw [← dropLast_append_getLast?_toList
      (env.GetGlobalHooksInOrder BindingType.AfterAll)]
    simp only [List.map_append]
  refine ⟨modulesState, hD, hList, ?_⟩
  have hLen := congrArg List.length hList
  simpa [Nat.add_assoc] using hLen

theorem RunDiscoverModulesState_demo :
    RunDiscoverModulesState demoModulesEnv {} demoDiscoverTask =
      (.ok demoDiscoverTasks, (RunDiscoverModulesState demoModulesEnv {} demoDiscoverTask).2) := by
  rfl

/-- C12 at a concrete input: two enabled modules, one to disable, one unknown release and two
AfterAll hooks give six tasks. -/
theorem C12_discover_modules_state_tasks_witness :
    RunDiscoverModulesState demoModulesEnv {} demoDiscoverTask =
      (.ok demoDiscoverTasks, (RunDiscoverModulesState demoModulesEnv {} demoDiscoverTask).2) ∧
    ∃ modulesState,
      demoModulesEnv.DiscoverModulesState = .ok modulesState ∧
      demoDiscoverTasks.map (fun t => (t.taskType, t.QueueName, t.Metadata.ModuleName,
          t.Metadata.HookName, t.Metadata.BindingType)) =
        modulesState.EnabledModules.map (fun moduleName =>
          (TaskType.ModuleRun, "main", moduleName, "", BindingType.Unset))
        ++ modulesState.ModulesToDisable.map (fun moduleName =>
          (TaskType.ModuleDelete, "main", moduleName, "", BindingType.Unset))
        ++ modulesState.ReleasedUnknownModules.map (fun moduleName =>
          (TaskType.ModulePurge, "main", moduleName, "", BindingType.Unset))
        ++ (demoModulesEnv.GetGlobalHooksInOrder BindingType.AfterAll).map (fun hookName =>
          (TaskType.GlobalHookRun, "main", "", hookName, BindingType.AfterAll)) ∧
      demoDiscoverTasks.length =
        modulesState.EnabledModules.length + modulesState.ModulesToDisable.length
          + modulesState.ReleasedUnknownModules.length
          + (demoModulesEnv.GetGlobalHooksInOrder BindingType.AfterAll).length :=
  ⟨RunDiscoverModulesState_demo,
    C12_discover_modules_state_tasks demoModulesEnv {} demoDiscoverTask demoDiscoverTasks _
      RunDiscoverModulesState_demo⟩

/-- C13: among the tasks of a successful `RunDiscoverModulesState`, the GlobalHookRun tasks
are the AfterAll tasks, one per AfterAll hook in order; the last of them has
`LastAfterAllHook = true` and carries as `ValuesChecksum` the checksum of the global values
read when it is made, every other one has `LastAfterAllHook = false` and an empty
`ValuesChecksum`, and no task of another type is flagged; so without AfterAll hook no task is
flagged. -/
theorem C13_last_after_all_hook_flag (env : ModulesEnv) (op : Operator)
    (discoverTask : Task) (tasks : List Task) (op' : Operator)
    (h : RunDiscoverModulesState env op discoverTask = (.ok tasks, op')) :
    ∃ checksum,
      (env.GetGlobalHooksInOrder BindingType.AfterAll ≠ [] →
        env.GlobalValuesChecksum = .ok checksum) ∧
      (tasks.filter (fun t => decide (t.taskType = TaskType.GlobalHookRun))).map
          (fun t => (t.Metadata.HookName, t.Metadata.BindingType,
            t.Metadata.LastAfterAllHook, t.Metadata.ValuesChecksum)) =
        (env.GetGlobalHooksInOrder BindingType.AfterAll).dropLast.map (fun hookName =>
          (hookName, BindingType.AfterAll, false, ""))
        ++ (env.GetGlobalHooksInOrder BindingType.AfterAll).getLast?.toList.map
          (fun hookName => (hookName, BindingType.AfterAll, true, checksum)) ∧
      (∀ t ∈ tasks, t.taskType ≠ TaskType.GlobalHookRun →
        t.Metadata.LastAfterAllHook = false ∧ t.Metadata.ValuesChecksum = "") ∧
      (env.GetGlobalHooksInOrder BindingType.AfterAll = [] →
        ∀ t ∈ tasks, t.Metadata.LastAfterAllHook = false) := by
  obtain ⟨modulesState, checksum, hD, hC, hSum⟩ :=
    RunDiscoverModulesState_summary env op discoverTask tasks op' h
  have hRun := filter_map_taskSummary tasks
    (fun s => decide (s.1 = TaskType.GlobalHookRun))
    (fun s => (s.2.2.HookName, s.2.2.BindingType, s.2.2.LastAfterAllHook, s.2.2.ValuesChecksum))
  have hOther := filter_map_taskSummary tasks
    (fun s => decide (s.1 ≠ TaskType.GlobalHookRun))
    (fun s => (s.2.2.LastAfterAllHook, s.2.2.ValuesChecksum))
  simp only [taskSummary] at hRun hOther
  have hOtherAll : ∀ x ∈ (tasks.filter
      (fun t => decide (t.taskType ≠ TaskType.GlobalHookRun))).map
        (fun t => (t.Metadata.LastAfterAllHook, t.Metadata.ValuesChecksum)),
      x = (false, "") := by
    rw [hOther, hSum]
    intro x hx
    simp only [List.filter_append, List.map_append, List.mem_append, List.mem_map,
      List.mem_filter] at hx
    rcases hx with (((hx | hx) | hx) | hx) | hx <;>
      obtain ⟨s, ⟨hs, hp⟩, rfl⟩ := hx <;>
      obtain ⟨a, _, rfl⟩ := hs <;>
      first
        | rfl
        | simp at hp
  refine ⟨checksum, hC, ?_, ?_, ?_⟩
  · rw [hRun, hSum]
    simp only [List.filter_append, List.map_append]
    rw [filter_map_of_forall_false _ _ _ (fun _ => by simp),
      filter_map_of_forall_false _ _ _ (fun _ => by simp),
      filter_map_of_forall_false _ _ _ (fun _ => by simp),
      filter_map_of_forall_true _ _ _ (fun _ => by simp),
      filter_map_of_forall_true _ _ _ (fun _ => by simp)]
    simp [List.map_map, Function.comp_def]
  · intro t ht hne
    have hEq := hOtherAll (t.Metadata.LastAfterAllHook, t.Metadata.ValuesChecksum)
      (List.mem_map.mpr ⟨t, List.mem_filter.mpr ⟨ht, by simpa using hne⟩, rfl⟩)
    exact ⟨congrArg Prod.fst hEq, congrArg Prod.snd hEq⟩
  · intro hNone t ht
    have hMem : taskSummary t ∈ tasks.map taskSummary := List.mem_map_of_mem _ ht
    rw [hSum, hNone] at hMem
    simp only [List.dropLast_nil, List.map_nil, List.append_nil, List.getLast?_nil,
      Option.toList_none, List.mem_append, List.mem_map] at hMem
    rcases hMem with (hx | hx) | hx <;>
      obtain ⟨a, _, hEq⟩ := hx <;>
      · have := congrArg (fun s => s.2.2.LastAfterAllHook) hEq
        simpa [taskSummary] using this.symm

/-- C13 at a concrete input: of the two AfterAll tasks only `after-b` is flagged. -/
theorem C13_last_after_all_hook_flag_witness :
    RunDiscoverModulesState demoModulesEnv {} demoDiscoverTask =
      (.ok demoDiscoverTasks, (RunDiscoverModulesState demoModulesEnv {} demoDiscoverTask).2) ∧
    ∃ checksum,
      (demoModulesEnv.GetGlobalHooksInOrder BindingType.AfterAll ≠ [] →
        demoModulesEnv.GlobalValuesChecksum = .ok checksum) ∧
      (demoDiscoverTasks.filter (fun t => decide (t.taskType = TaskType.GlobalHookRun))).map
          (fun t => (t.Metadata.HookName, t.Metadata.BindingType,
            t.Metadata.LastAfterAllHook, t.Metadata.ValuesChecksum)) =
        (demoModulesEnv.GetGlobalHooksInOrder BindingType.AfterAll).dropLast.map
          (fun hookName => (hookName, BindingType.AfterAll, false, ""))
        ++ (demoModulesEnv.GetGlobalHooksInOrder BindingType.AfterAll).getLast?.toList.map
          (fun hookName => (hookName, BindingType.AfterAll, true, checksum)) ∧
      (∀ t ∈ demoDiscoverTasks, t.taskType ≠ TaskType.GlobalHookRun →
        t.Metadata.LastAfterAllHook = false ∧ t.Metadata.ValuesChecksum = "") ∧
      (demoModulesEnv.GetGlobalHooksInOrder BindingType.AfterAll = [] →
        ∀ t ∈ demoDiscoverTasks, t.Metadata.LastAfterAllHook = false) :=
  ⟨RunDiscoverModulesState_demo,
    C13_last_after_all_hook_flag demoModulesEnv {} demoDiscoverTask demoDiscoverTasks _
      RunDiscoverModulesState_demo⟩

/-- C14: among the tasks of a successful `RunDiscoverModulesState`, the ModuleRun tasks are
one per enabled module in order, and the one for the module `m` has
`OnStartupHooks = (OnStartupHooks of the discover task) || (m is in NewlyEnabledModules)`;
so the task of a newly enabled module has `OnStartupHooks = true`, and when the discover
task has the flag off, the task of a module that is not newly enabled has
`OnStartupHooks = false`. -/
theorem C14_module_run_on_startup_hooks (env : ModulesEnv) (op : Operator)
    (discoverTask : Task) (tasks : List Task) (op' : Operator)
    (h : RunDiscoverModulesState env op discoverTask = (.ok tasks, op')) :
    ∃ modulesState,
      env.DiscoverModulesState = .ok modulesState ∧
      (tasks.filter (fun t => decide (t.taskType = TaskType.ModuleRun))).map
          (fun t => (t.Metadata.ModuleName, t.Metadata.OnStartupHooks)) =
        modulesState.EnabledModules.map (fun moduleName =>
          (moduleName, (discoverTask.Metadata.OnStartupHooks ||
            decide (moduleName ∈ modulesState.NewlyEnabledModules)))) ∧
      (∀ t ∈ tasks, t.taskType = TaskType.ModuleRun →
        (t.Metadata.ModuleName ∈ modulesState.NewlyEnabledModules →
          t.Metadata.OnStartupHooks = true) ∧
        (discoverTask.Metadata.OnStartupHooks = false →
          t.Metadata.ModuleName ∉ modulesState.NewlyEnabledModules →
          t.Metadata.OnStartupHooks = false)) := by
  obtain ⟨modulesState, checksum, hD, hC, hSum⟩ :=
    RunDiscoverModulesState_summary env op discoverTask tasks op' h
  have hRun := filter_map_taskSummary tasks
    (fun s => decide (s.1 = TaskType.ModuleRun))
    (fun s => (s.2.2.ModuleName, s.2.2.OnStartupHooks))
  simp only [taskSummary] at hRun
  have hList : (tasks.filter (fun t => decide (t.taskType = TaskType.ModuleRun))).map
        (fun t => (t.Metadata.ModuleName, t.Metadata.OnStartupHooks)) =
      modulesState.EnabledModules.map (fun moduleName =>
        (moduleName, (discoverTask.Metadata.OnStartupHooks ||
          decide (moduleName ∈ modulesState.NewlyEnabledModules)))) := by
    rw [hRun, hSum]
    simp only [List.filter_append, List.map_append]
    rw [filter_map_of_forall_true _ _ _ (fun _ => by simp),
      filter_map_of_forall_false _ _ _ (fun _ => by simp),
      filter_map_of_forall_false _ _ _ (fun _ => by simp),
      filter_map_of_forall_false _ _ _ (fun _ => by simp),
      filter_map_of_forall_false _ _ _ (fun _ => by simp)]
    simp [List.map_map, Function.comp_def, runOnStartupHooksFor_eq]
  refine ⟨modulesState, hD, hList, ?_⟩
  intro t ht hType
  have hMem : (t.Metadata.ModuleName, t.Metadata.OnStartupHooks) ∈
      (tasks.filter (fun t => decide (t.taskType = TaskType.ModuleRun))).map
        (fun t => (t.Metadata.ModuleName, t.Metadata.OnStartupHooks)) :=
    List.mem_map.mpr ⟨t, List.mem_filter.mpr ⟨ht, by simpa using hType⟩, rfl⟩
  rw [hList, List.mem_map] at hMem
  obtain ⟨moduleName, _, hEq⟩ := hMem
  have hName : moduleName = t.Metadata.ModuleName := congrArg Prod.fst hEq
  have hFlag := congrArg Prod.snd hEq
  simp only at hFlag
  subst hName
  constructor
  · intro hNew
    rw [← hFlag]
    simp [hNew]
  · intro hOff hOld
    rw [← hFlag]
    simp [hOff, hOld]

/-- C14 at a concrete input: after startup, `alpha` keeps the flag off and the newly enabled
`beta` gets it. -/
theorem C14_module_run_on_startup_hooks_witness :
    RunDiscoverModulesState demoModulesEnv {} demoDiscoverTask =
      (.ok demoDiscoverTasks, (RunDiscoverModulesState demoModulesEnv {} demoDiscoverTask).2) ∧
    ∃ modulesState,
      demoModulesEnv.DiscoverModulesState = .ok modulesState ∧
      (demoDiscoverTasks.filter (fun t => decide (t.taskType = TaskType.ModuleRun))).map
          (fun t => (t.Metadata.ModuleName, t.Metadata.OnStartupHooks)) =
        modulesState.EnabledModules.map (fun moduleName =>
          (moduleName, (demoDiscoverTask.Metadata.OnStartupHooks ||
            decide (moduleName ∈ modulesState.NewlyEnabledModules)))) ∧
      (∀ t ∈ demoDiscoverTasks, t.taskType = TaskType.ModuleRun →
        (t.Metadata.ModuleName ∈ modulesState.NewlyEnabledModules →
          t.Metadata.OnStartupHooks = true) ∧
        (demoDiscoverTask.Metadata.OnStartupHooks = false →
          t.Metadata.ModuleName ∉ modulesState.NewlyEnabledModules →
          t.Metadata.OnStartupHooks = false)) :=
  ⟨RunDiscoverModulesState_demo,
    C14_module_run_on_startup_hooks demoModulesEnv {} demoDiscoverTask demoDiscoverTasks _
      RunDiscoverModulesState_demo⟩

/-! ## Converge tasks -/

theorem foldl_count_eq_countP (p : Task → Bool) (l : List Task) :
    ∀ n : Nat, l.foldl (fun c t => if p t then c + 1 else c) n = n + l.countP p := by
  induction l with
  | nil => intro n; simp
  | cons t rest ih =>
    intro n
    rw [List.foldl_cons, ih]
    by_cases h : p t = true
    · simp [List.countP_cons, h]; omega
    · simp [List.countP_cons, h]

theorem countsAsConvergeTask_eq (t : Task) :
    countsAsConvergeTask t =
      decide (t.taskType ∈ [TaskType.ModuleRun, TaskType.DiscoverModulesState,
          TaskType.ModuleDelete, TaskType.ModulePurge, TaskType.ModuleManagerRetry,
          TaskType.ReloadAllModules, TaskType.GlobalHookEnableKubernetesBindings,
          TaskType.GlobalHookEnableScheduleBindings] ∨
        (t.taskType = TaskType.GlobalHookRun ∧
          (t.Metadata.BindingType = BindingType.BeforeAll ∨
            t.Metadata.BindingType = BindingType.AfterAll))) := by
  unfold countsAsConvergeTask
  cases hT : t.taskType <;> cases hB : t.Metadata.BindingType <;> simp

/-- C17: `MainQueueHasConvergeTasks` returns the number of tasks of the main queue whose type
is ModuleRun, DiscoverModulesState, ModuleDelete, ModulePurge, ModuleManagerRetry,
ReloadAllModules, GlobalHookEnableKubernetesBindings or GlobalHookEnableScheduleBindings, or
that are GlobalHookRun tasks with binding BeforeAll or AfterAll; it returns 0 exactly when the
queue holds no such task. -/
theorem C17_main_queue_converge_tasks_count (op : Operator) :
    MainQueueHasConvergeTasks op =
      (queueTasks op.TaskQueues op.TaskQueues.MainName).countP (fun t =>
        decide (t.taskType ∈ [TaskType.ModuleRun, TaskType.DiscoverModulesState,
            TaskType.ModuleDelete, TaskType.ModulePurge, TaskType.ModuleManagerRetry,
            TaskType.ReloadAllModules, TaskType.GlobalHookEnableKubernetesBindings,
            TaskType.GlobalHookEnableScheduleBindings] ∨
          (t.taskType = TaskType.GlobalHookRun ∧
            (t.Metadata.BindingType = BindingType.BeforeAll ∨
              t.Metadata.BindingType = BindingType.AfterAll)))) ∧
    (MainQueueHasConvergeTasks op = 0 ↔
      ∀ t ∈ queueTasks op.TaskQueues op.TaskQueues.MainName,
        ¬ (t.taskType ∈ [TaskType.ModuleRun, TaskType.DiscoverModulesState,
            TaskType.ModuleDelete, TaskType.ModulePurge, TaskType.ModuleManagerRetry,
            TaskType.ReloadAllModules, TaskType.GlobalHookEnableKubernetesBindings,
            TaskType.GlobalHookEnableScheduleBindings] ∨
          (t.taskType = TaskType.GlobalHookRun ∧
            (t.Metadata.BindingType = BindingType.BeforeAll ∨
              t.Metadata.BindingType = BindingType.AfterAll)))) := by
  have hCount : MainQueueHasConvergeTasks op =
      (queueTasks op.TaskQueues op.TaskQueues.MainName).countP (fun t =>
        decide (t.taskType ∈ [TaskType.ModuleRun, TaskType.DiscoverModulesState,
            TaskType.ModuleDelete, TaskType.ModulePurge, TaskType.ModuleManagerRetry,
            TaskType.ReloadAllModules, TaskType.GlobalHookEnableKubernetesBindings,
            TaskType.GlobalHookEnableScheduleBindings] ∨
          (t.taskType = TaskType.GlobalHookRun ∧
            (t.Metadata.BindingType = BindingType.BeforeAll ∨
              t.Metadata.BindingType = BindingType.AfterAll)))) := by
    unfold MainQueueHasConvergeTasks
    rw [foldl_count_eq_countP, Nat.zero_add]
    congr 1
    funext t
    exact countsAsConvergeTask_eq t
  refine ⟨hCount, ?_⟩
  rw [hCount, List.countP_eq_zero]
  constructor
  · intro hAll t ht
    simpa using hAll t ht
  · intro hAll t ht
    simpa using hAll t ht

/-- The count evaluated on a queue with a plain hook run, the synchronization barrier, a
reload task and a BeforeAll hook run: two tasks count. -/
theorem MainQueueHasConvergeTasks_demo :
    MainQueueHasConvergeTasks
      { TaskQueues :=
          { MainName := "main"
            Queues := fun n =>
              if n = "main" then
                some [demoScheduleTask,
                  Task.mk "w" TaskType.GlobalHookWaitKubernetesSynchronization "main" {} 0 "",
                  demoReloadTask,
                  Task.mk "b" TaskType.GlobalHookRun "main"
                    { HookName := "before", BindingType := BindingType.BeforeAll } 0 ""]
              else none } } = 2 := by
  rfl

/-! ## Ambiguous state of the module manager -/

/-- C18: on an AmbiguousState event, when the main queue exists, exactly one task is added
to it, a ModuleManagerRetry task for the queue `main`, at the head, ahead of the tasks
already queued, which keep their order, and no other queue changes; handling such a task
returns `Success` with `DelayBeforeNextTask` equal to the delay of a failed task and no
follow-up task. -/
theorem C18_ambiguous_state_retry_first (env : OperatorEnv) (op : Operator)
    (changes : List String) (q : List Task)
    (hMain : GetMain op.TaskQueues = some q) :
    (∃ newTask,
      GetMain (handleModuleManagerEvent env op
          { EventType := ModuleEventType.AmbiguousState, ModulesChanges := changes }).TaskQueues
        = some (newTask :: q) ∧
      newTask.taskType = TaskType.ModuleManagerRetry ∧
      newTask.QueueName = "main" ∧
      ∀ (env' : ModulesEnv) (op' : Operator),
        (TaskHandler_ModuleManagerRetry env' op' newTask).1.Status = "Success" ∧
        (TaskHandler_ModuleManagerRetry env' op' newTask).1.DelayBeforeNextTask
          = env'.DelayOnFailedTask ∧
        (TaskHandler_ModuleManagerRetry env' op' newTask).1.HeadTasks = [] ∧
        (TaskHandler_ModuleManagerRetry env' op' newTask).1.TailTasks = [] ∧
        (TaskHandler_ModuleManagerRetry env' op' newTask).1.AfterTasks = []) ∧
    (∀ name, name ≠ op.TaskQueues.MainName →
      (handleModuleManagerEvent env op
          { EventType := ModuleEventType.AmbiguousState, ModulesChanges := changes
            }).TaskQueues.Queues name
        = op.TaskQueues.Queues name) := by
  unfold GetMain at hMain
  refine ⟨⟨Task.mk (env.uuid (op.uuids + 1)) TaskType.ModuleManagerRetry "main" {} 0 "",
    ?_, rfl, rfl, ?_⟩, ?_⟩
  · simp [handleModuleManagerEvent, NewTask, AddFirst, setQueue, queueTasks, GetMain, hMain]
  · intro env' op'
    simp [TaskHandler_ModuleManagerRetry, finishTaskResult]
  · intro name hName
    simp [handleModuleManagerEvent, NewTask, AddFirst, setQueue, queueTasks, hMain, hName]

/-- C18 at a concrete input: the main queue holds one hook run. -/
theorem C18_ambiguous_state_retry_first_witness :
    GetMain demoMainOperator.TaskQueues = some [demoScheduleTask] ∧
    (∃ newTask,
      GetMain (handleModuleManagerEvent demoOperatorEnv demoMainOperator
          { EventType := ModuleEventType.AmbiguousState, ModulesChanges := [] }).TaskQueues
        = some (newTask :: [demoScheduleTask]) ∧
      newTask.taskType = TaskType.ModuleManagerRetry ∧
      newTask.QueueName = "main" ∧
      ∀ (env' : ModulesEnv) (op' : Operator),
        (TaskHandler_ModuleManagerRetry env' op' newTask).1.Status = "Success" ∧
        (TaskHandler_ModuleManagerRetry env' op' newTask).1.DelayBeforeNextTask
          = env'.DelayOnFailedTask ∧
        (TaskHandler_ModuleManagerRetry env' op' newTask).1.HeadTasks = [] ∧
        (TaskHandler_ModuleManagerRetry env' op' newTask).1.TailTasks = [] ∧
        (TaskHandler_ModuleManagerRetry env' op' newTask).1.AfterTasks = []) ∧
    (∀ name, name ≠ demoMainOperator.TaskQueues.MainName →
      (handleModuleManagerEvent demoOperatorEnv demoMainOperator
          { EventType := ModuleEventType.AmbiguousState, ModulesChanges := []
            }).TaskQueues.Queues name
        = demoMainOperator.TaskQueues.Queues name) :=
  ⟨rfl, C18_ambiguous_state_retry_first demoOperatorEnv demoMainOperator [] [demoScheduleTask]
    rfl⟩

/-- The main queue of the witness evaluated, and the handling of the new task. -/
theorem handleModuleManagerEvent_demo :
    GetMain (handleModuleManagerEvent demoOperatorEnv demoMainOperator
        { EventType := ModuleEventType.AmbiguousState }).TaskQueues
      = some [Task.mk "uu" TaskType.ModuleManagerRetry "main" {} 0 "", demoScheduleTask] ∧
    (TaskHandler_ModuleManagerRetry demoModulesEnv demoMainOperator
        (Task.mk "uu" TaskType.ModuleManagerRetry "main" {} 0 "")).1
      = { Status := "Success", DelayBeforeNextTask := 5,
          AfterHandle := [AfterHandleCall.CheckConvergeStatus "uu"] } := by
  constructor <;> rfl

/-! ## Run of a module -/

theorem callsExtend_refl (base : Operator) (Q : Call → Prop) : callsExtend base Q base :=
  ⟨[], by simp, by simp⟩

theorem callsExtend_of_calls_eq (base : Operator) (Q : Call → Prop) (o o' : Operator)
    (hEq : o'.calls = o.calls) (h : callsExtend base Q o) : callsExtend base Q o' := by
  obtain ⟨extra, hCalls, hQ⟩ := h
  exact ⟨extra, by rw [hEq, hCalls], hQ⟩

theorem callsExtend_call (base : Operator) (Q : Call → Prop) (o : Operator) (cs : List Call)
    (h : callsExtend base Q o) (hcs : ∀ c ∈ cs, Q c) : callsExtend base Q (o.call cs) := by
  obtain ⟨extra, hCalls, hQ⟩ := h
  refine ⟨extra ++ cs, by simp [Operator.call, hCalls], ?_⟩
  intro c hc
  rcases List.mem_append.mp hc with hc | hc
  · exact hQ c hc
  · exact hcs c hc

theorem startQueueIfMissing_callsExtend (base : Operator) (Q : Call → Prop)
    (hStart : ∀ n, Q (Call.StartQueue n)) (o : Operator) (name : String)
    (h : callsExtend base Q o) : callsExtend base Q (startQueueIfMissing o name) := by
  unfold startQueueIfMissing
  split
  · apply callsExtend_call
    · exact callsExtend_of_calls_eq base Q o _ rfl h
    · intro c hc
      simp only [List.mem_singleton] at hc
      subst hc
      exact hStart name
  · exact h

theorem foldl_startQueueIfMissing_callsExtend (base : Operator) (Q : Call → Prop)
    (hStart : ∀ n, Q (Call.StartQueue n)) (names : List String) (o : Operator)
    (h : callsExtend base Q o) : callsExtend base Q (names.foldl startQueueIfMissing o) :=
  foldl_invariant (callsExtend base Q) startQueueIfMissing
    (fun b a hb => startQueueIfMissing_callsExtend base Q hStart b a hb) names o h

theorem InitAndStartHookQueues_callsExtend (env : ModulesEnv) (base : Operator)
    (Q : Call → Prop) (hStart : ∀ n, Q (Call.StartQueue n)) (o : Operator)
    (h : callsExtend base Q o) : callsExtend base Q (InitAndStartHookQueues env o) := by
  unfold InitAndStartHookQueues
  apply foldl_invariant (callsExtend base Q)
  · intro b modName hb
    apply foldl_invariant (callsExtend base Q)
    · intro b' hookName hb'
      exact foldl_startQueueIfMissing_callsExtend base Q hStart _ b' hb'
    · apply foldl_invariant (callsExtend base Q)
      · intro b' hookName hb'
        exact foldl_startQueueIfMissing_callsExtend base Q hStart _ b' hb'
      · exact hb
  · apply foldl_invariant (callsExtend base Q)
    · intro b hookName hb
      exact foldl_startQueueIfMissing_callsExtend base Q hStart _ b hb
    · apply foldl_invariant (callsExtend base Q)
      · intro b hookName hb
        exact foldl_startQueueIfMissing_callsExtend base Q hStart _ b hb
      · exact h

theorem moduleEnableKubernetesBindingsCallback_calls (env : ModulesEnv) (t : Task)
    (eventDescription : String) (st : Operator × SyncTasks) (hookName : String)
    (info : BindingExecutionInfo) :
    (moduleEnableKubernetesBindingsCallback env t eventDescription st hookName info).1.calls
      = st.1.calls := by
  unfold moduleEnableKubernetesBindingsCallback
  simp only [NewTask]
  split
  · rfl
  · split <;> rfl

theorem collectModuleSyncTasks_calls (env : ModulesEnv) (op : Operator) (t : Task) :
    (collectModuleSyncTasks env op t).1.calls = op.calls := by
  unfold collectModuleSyncTasks
  apply foldl_invariant (fun st : Operator × SyncTasks => st.1.calls = op.calls)
  · intro b c hb
    rw [moduleEnableKubernetesBindingsCallback_calls]
    exact hb
  · rfl

theorem queueModuleWaitSyncTasks_callsExtend (base : Operator) (Q : Call → Prop)
    (hCreate : ∀ hookName id, Q (Call.CreateSynchronizationState hookName id))
    (l : List (String × Task)) (o : Operator) (h : callsExtend base Q o) :
    callsExtend base Q (queueModuleWaitSyncTasks l o) := by
  unfold queueModuleWaitSyncTasks
  apply foldl_invariant (callsExtend base Q) _ _ l o h
  intro b e hb
  split
  · exact hb
  · refine callsExtend_of_calls_eq base Q
      (b.call [Call.CreateSynchronizationState e.2.Metadata.HookName e.1]) _ rfl ?_
    apply callsExtend_call base Q b _ hb
    intro c hc
    simp only [List.mem_singleton] at hc
    subst hc
    exact hCreate _ _

theorem queueParallelSyncTasks_calls (l : List Task) (o : Operator) :
    (queueParallelSyncTasks l o).calls = o.calls := by
  unfold queueParallelSyncTasks
  apply foldl_invariant (fun b : Operator => b.calls = o.calls) _ _ l o rfl
  intro b tsk hb
  split
  · exact hb
  · exact hb

theorem queueModuleMainSyncTasks_callsExtend (base : Operator) (Q : Call → Prop)
    (hStart : ∀ n, Q (Call.StartQueue n)) (l : List Task) (name : String) (o : Operator)
    (h : callsExtend base Q o) : callsExtend base Q (queueModuleMainSyncTasks l name o) := by
  unfold queueModuleMainSyncTasks
  split
  · apply callsExtend_call
    · apply foldl_invariant (callsExtend base Q) _ _ l o h
      intro b tsk hb
      exact callsExtend_of_calls_eq base Q b _ rfl hb
    · intro c hc
      simp only [List.mem_singleton] at hc
      subst hc
      exact hStart _
  · exact h

theorem queueModuleSynchronizationTasks_callsExtend (env : ModulesEnv) (base : Operator)
    (Q : Call → Prop) (hStart : ∀ n, Q (Call.StartQueue n))
    (hCreate : ∀ hookName id, Q (Call.CreateSynchronizationState hookName id))
    (o : Operator) (t : Task) (h : callsExtend base Q o) :
    callsExtend base Q (queueModuleSynchronizationTasks env o t).2 := by
  have hCollected : callsExtend base Q
      (collectModuleSyncTasks env
        { o with TaskQueues := NewNamedQueue o.TaskQueues (syncQueueName t.Metadata) } t).1 :=
    callsExtend_of_calls_eq base Q o _ (collectModuleSyncTasks_calls env _ t) h
  unfold queueModuleSynchronizationTasks
  simp only
  split
  · exact hCollected
  · apply queueModuleMainSyncTasks_callsExtend base Q hStart
    apply callsExtend_of_calls_eq base Q _ _ (queueParallelSyncTasks_calls _ _)
    exact queueModuleWaitSyncTasks_callsExtend base Q hCreate _ _ hCollected

/-- The calls made by the first two blocks of `HandleModuleRun` start queues, create
synchronization states and run the OnStartup hooks, nothing else. -/
theorem moduleRunPrelude_callsExtend (env : ModulesEnv) (op : Operator) (t : Task)
    (Q : Call → Prop) (hStart : ∀ n, Q (Call.StartQueue n))
    (hCreate : ∀ hookName id, Q (Call.CreateSynchronizationState hookName id))
    (hOnStartup : ∀ m, Q (Call.RunOnStartup m)) :
    callsExtend op Q (moduleRunPrelude env op t).2 := by
  have hFirst : callsExtend op Q (moduleRunOnStartup env op t).2 := by
    unfold moduleRunOnStartup
    simp only
    split
    · apply callsExtend_call
      · exact InitAndStartHookQueues_callsExtend env op Q hStart op (callsExtend_refl op Q)
      · intro c hc
        simp only [List.mem_singleton] at hc
        subst hc
        exact hOnStartup _
    · exact callsExtend_refl op Q
  unfold moduleRunPrelude
  simp only
  split
  · exact queueModuleSynchronizationTasks_callsExtend env op Q hStart hCreate _ t hFirst
  · exact hFirst

/-- The calls that `HandleModuleRun` makes when it returns `Repeat` or does not reach the run
of the module: those of its first two blocks, then at most a counter or the ready mark. -/
theorem HandleModuleRun_not_invoked_calls (env : ModulesEnv) (op : Operator) (t : Task)
    (hNot : moduleRunInvoked env op t = false) :
    callsExtend op (fun c => ∀ m, c ≠ Call.ModuleRun m) (HandleModuleRun env op t).2 := by
  have hPre := moduleRunPrelude_callsExtend env op t (fun c => ∀ m, c ≠ Call.ModuleRun m)
    (fun _ _ => by simp) (fun _ _ _ => by simp) (fun _ _ => by simp)
  unfold HandleModuleRun
  simp only
  by_cases hRep : moduleRunRepeats env op t = true
  · simp only [hRep, if_true]
    exact hPre
  · have hCond : ((moduleRunPrelude env op t).1.isNone &&
        (!(env.moduleSynchronization t.Metadata.ModuleName 3).Needed ||
          (env.moduleSynchronization t.Metadata.ModuleName 3).Done)) = false := by
      unfold moduleRunInvoked at hNot
      simp only [Bool.not_eq_true] at hRep
      simpa [hRep] using hNot
    simp only [hRep, hCond]
    cases hErr : (moduleRunPrelude env op t).1 with
    | some err =>
      simp only [Bool.false_eq_true, if_false]
      refine callsExtend_of_calls_eq _ _ ((moduleRunPrelude env op t).2.call
        [Call.SendCounter "module_run_errors" [("module", t.Metadata.ModuleName)]]) _ rfl ?_
      exact callsExtend_call _ _ _ _ hPre (fun c hc => by
        simp only [List.mem_singleton] at hc; subst hc; simp)
    | none =>
      simp only [Bool.false_eq_true, if_false]
      exact callsExtend_call _ _ _ _ hPre (fun c hc => by
        simp only [List.mem_singleton] at hc; subst hc; simp)

/-- C15: when no error has occurred in the first two blocks of `HandleModuleRun` and the
synchronization of the module is then needed, queued and not done, the result is `Repeat`
without any follow-up task, and none of the calls made is a run of the module. For every
task, if `HandleModuleRun` runs the module, then the synchronization of the module, as read
by the condition before the run, is not needed or is done. -/
theorem C15_module_run_repeats_until_synchronized (env : ModulesEnv) (op : Operator) (t : Task)
    (hNoErr : (moduleRunPrelude env op t).1 = none)
    (hNeeded : (env.moduleSynchronization t.Metadata.ModuleName 2).Needed = true)
    (hQueued : (env.moduleSynchronization t.Metadata.ModuleName 2).Queued = true)
    (hDone : (env.moduleSynchronization t.Metadata.ModuleName 2).Done = false) :
    (HandleModuleRun env op t).1.Status = "Repeat" ∧
    (HandleModuleRun env op t).1.HeadTasks = [] ∧
    (HandleModuleRun env op t).1.TailTasks = [] ∧
    (HandleModuleRun env op t).1.AfterTasks = [] ∧
    (∃ extra, (HandleModuleRun env op t).2.calls = op.calls ++ extra ∧
      ∀ c ∈ extra, ∀ m, c ≠ Call.ModuleRun m) ∧
    (∀ (op2 : Operator) (t2 : Task) (extra : List Call),
      (HandleModuleRun env op2 t2).2.calls = op2.calls ++ extra →
      (∃ m, Call.ModuleRun m ∈ extra) →
      (env.moduleSynchronization t2.Metadata.ModuleName 3).Needed = false ∨
        (env.moduleSynchronization t2.Metadata.ModuleName 3).Done = true) := by
  have hRep : moduleRunRepeats env op t = true := by
    simp [moduleRunRepeats, hNoErr, hNeeded, hQueued, hDone]
  have hNot : moduleRunInvoked env op t = false := by
    simp [moduleRunInvoked, hRep]
  refine ⟨?_, ?_, ?_, ?_, HandleModuleRun_not_invoked_calls env op t hNot, ?_⟩
  · simp [HandleModuleRun, hRep]
  · simp [HandleModuleRun, hRep]
  · simp [HandleModuleRun, hRep]
  · simp [HandleModuleRun, hRep]
  · intro op2 t2 extra hCalls hMem
    by_cases hInv : moduleRunInvoked env op2 t2 = true
    · unfold moduleRunInvoked at hInv
      simp only [Bool.and_eq_true, Bool.or_eq_true, Bool.not_eq_true'] at hInv
      exact hInv.2.2
    · simp only [Bool.not_eq_true] at hInv
      obtain ⟨extra', hCalls', hQ⟩ := HandleModuleRun_not_invoked_calls env op2 t2 hInv
      have hEq : extra = extra' := List.append_cancel_left (hCalls.symm.trans hCalls')
      obtain ⟨m, hm⟩ := hMem
      rw [hEq] at hm
      exact absurd rfl (hQ _ hm m)

/-- C15 at a concrete input: the synchronization of the module `alpha` is queued and not
done. -/
theorem C15_module_run_repeats_until_synchronized_witness :
    (moduleRunPrelude demoModulesEnv {} demoModuleRunTask).1 = none ∧
    (demoModulesEnv.moduleSynchronization demoModuleRunTask.Metadata.ModuleName 2).Needed
      = true ∧
    (demoModulesEnv.moduleSynchronization demoModuleRunTask.Metadata.ModuleName 2).Queued
      = true ∧
    (demoModulesEnv.moduleSynchronization demoModuleRunTask.Metadata.ModuleName 2).Done
      = false ∧
    (HandleModuleRun demoModulesEnv {} demoModuleRunTask).1.Status = "Repeat" ∧
    (HandleModuleRun demoModulesEnv {} demoModuleRunTask).1.HeadTasks = [] ∧
    (HandleModuleRun demoModulesEnv {} demoModuleRunTask).1.TailTasks = [] ∧
    (HandleModuleRun demoModulesEnv {} demoModuleRunTask).1.AfterTasks = [] ∧
    (∃ extra, (HandleModuleRun demoModulesEnv {} demoModuleRunTask).2.calls
        = ({} : Operator).calls ++ extra ∧
      ∀ c ∈ extra, ∀ m, c ≠ Call.ModuleRun m) ∧
    (∀ (op2 : Operator) (t2 : Task) (extra : List Call),
      (HandleModuleRun demoModulesEnv op2 t2).2.calls = op2.calls ++ extra →
      (∃ m, Call.ModuleRun m ∈ extra) →
      (demoModulesEnv.moduleSynchronization t2.Metadata.ModuleName 3).Needed = false ∨
        (demoModulesEnv.moduleSynchronization t2.Metadata.ModuleName 3).Done = true) :=
  ⟨rfl, rfl, rfl, rfl,
    C15_module_run_repeats_until_synchronized demoModulesEnv {} demoModuleRunTask
      rfl rfl rfl rfl⟩

/-- The result of `HandleModuleRun` when it reaches the run of the module. -/
theorem HandleModuleRun_invoked (env : ModulesEnv) (op : Operator) (t : Task)
    (hInvoked : moduleRunInvoked env op t = true) :
    HandleModuleRun env op t =
      (match (env.ModuleRun t.Metadata.ModuleName).2 with
        | some moduleRunErr =>
          ({ Status := "Fail" },
            { ((moduleRunPrelude env op t).2.call
                [Call.StartModuleHooks t.Metadata.ModuleName,
                  Call.ModuleRun t.Metadata.ModuleName,
                  Call.SendCounter "module_run_errors" [("module", t.Metadata.ModuleName)]]) with
              TaskQueues := updateTask
                (RemoveQueue (moduleRunPrelude env op t).2.TaskQueues (syncQueueName t.Metadata))
                { t with FailureMessage := moduleRunErr } })
        | none =>
          if (env.ModuleRun t.Metadata.ModuleName).1 then
            ({ Status := "Success"
               AfterTasks := [Task.mk (env.uuid (moduleRunPrelude env op t).2.uuids)
                 TaskType.ModuleRun t.QueueName
                 { t.Metadata with
                   OnStartupHooks := false
                   EventDescription :=
                     if !stringsContains t.Metadata.EventDescription
                         "AfterHelmHooksChangeModuleValues" then
                       t.Metadata.EventDescription ++ ".AfterHelmHooksChangeModuleValues"
                     else t.Metadata.EventDescription } 0 ""] },
              { ((moduleRunPrelude env op t).2.call
                  [Call.StartModuleHooks t.Metadata.ModuleName,
                    Call.ModuleRun t.Metadata.ModuleName]) with
                TaskQueues :=
                  RemoveQueue (moduleRunPrelude env op t).2.TaskQueues (syncQueueName t.Metadata)
                uuids := (moduleRunPrelude env op t).2.uuids + 1 })
          else
            ({ Status := "Success" },
              { ((moduleRunPrelude env op t).2.call
                  [Call.StartModuleHooks t.Metadata.ModuleName,
                    Call.ModuleRun t.Metadata.ModuleName,
                    Call.SetIsReady t.Metadata.ModuleName]) with
                TaskQueues :=
                  RemoveQueue (moduleRunPrelude env op t).2.TaskQueues
                    (syncQueueName t.Metadata) })) := by
  unfold moduleRunInvoked at hInvoked
  simp only [Bool.and_eq_true, Bool.not_eq_true'] at hInvoked
  obtain ⟨hRep, hNone, hSync⟩ := hInvoked
  unfold HandleModuleRun
  simp only [hRep, hNone, hSync, Bool.false_eq_true, if_false, Bool.and_self, if_true]
  cases hErr : (env.ModuleRun t.Metadata.ModuleName).2 with
  | some err => simp [Operator.call]
  | none =>
    by_cases hChanged : (env.ModuleRun t.Metadata.ModuleName).1 = true
    · simp [hChanged, NewTask, Operator.call]
    · simp [hChanged, Operator.call]

/-- C16: when `HandleModuleRun` runs the module and the run succeeds, the status is `Success`;
if the values changed, `AfterTasks` is exactly one ModuleRun task for the same module and the
same queue with `OnStartupHooks = false`, and no call made sets `IsReady`; if the values did
not change, `AfterTasks` is empty and `IsReady` of the module is set. When the run fails, the
status is `Fail`, `AfterTasks` is empty and no call made sets `IsReady`. -/
theorem C16_module_run_outcome (env : ModulesEnv) (op : Operator) (t : Task)
    (hInvoked : moduleRunInvoked env op t = true) :
    (env.ModuleRun t.Metadata.ModuleName = (true, none) →
      (HandleModuleRun env op t).1.Status = "Success" ∧
      (∃ newTask, (HandleModuleRun env op t).1.AfterTasks = [newTask] ∧
        newTask.taskType = TaskType.ModuleRun ∧
        newTask.Metadata.ModuleName = t.Metadata.ModuleName ∧
        newTask.QueueName = t.QueueName ∧
        newTask.Metadata.OnStartupHooks = false) ∧
      ∃ extra, (HandleModuleRun env op t).2.calls = op.calls ++ extra ∧
        ∀ c ∈ extra, ∀ m, c ≠ Call.SetIsReady m) ∧
    (env.ModuleRun t.Metadata.ModuleName = (false, none) →
      (HandleModuleRun env op t).1.Status = "Success" ∧
      (HandleModuleRun env op t).1.AfterTasks = [] ∧
      ∃ extra, (HandleModuleRun env op t).2.calls = op.calls ++ extra ∧
        Call.SetIsReady t.Metadata.ModuleName ∈ extra) ∧
    (∀ (changed : Bool) (err : String),
      env.ModuleRun t.Metadata.ModuleName = (changed, some err) →
      (HandleModuleRun env op t).1.Status = "Fail" ∧
      (HandleModuleRun env op t).1.AfterTasks = [] ∧
      ∃ extra, (HandleModuleRun env op t).2.calls = op.calls ++ extra ∧
        ∀ c ∈ extra, ∀ m, c ≠ Call.SetIsReady m) := by
  obtain ⟨extra, hCalls, hQ⟩ := moduleRunPrelude_callsExtend env op t
    (fun c => ∀ m, c ≠ Call.SetIsReady m)
    (fun _ _ => by simp) (fun _ _ _ => by simp) (fun _ _ => by simp)
  rw [HandleModuleRun_invoked env op t hInvoked]
  refine ⟨?_, ?_, ?_⟩
  · intro hRun
    rw [hRun]
    refine ⟨rfl, ⟨_, rfl, rfl, rfl, rfl, rfl⟩,
      extra ++ [Call.StartModuleHooks t.Metadata.ModuleName,
        Call.ModuleRun t.Metadata.ModuleName], ?_, ?_⟩
    · simp [Operator.call, hCalls]
    · intro c hc
      rcases List.mem_append.mp hc with hc | hc
      · exact hQ c hc
      · simp only [List.mem_cons, List.mem_singleton, List.not_mem_nil, or_false] at hc
        rcases hc with hc | hc <;> subst hc <;> simp
  · intro hRun
    rw [hRun]
    refine ⟨rfl, rfl, extra ++ [Call.StartModuleHooks t.Metadata.ModuleName,
      Call.ModuleRun t.Metadata.ModuleName, Call.SetIsReady t.Metadata.ModuleName], ?_, ?_⟩
    · simp [Operator.call, hCalls]
    · simp
  · intro changed err hRun
    rw [hRun]
    refine ⟨rfl, rfl, extra ++ [Call.StartModuleHooks t.Metadata.ModuleName,
      Call.ModuleRun t.Metadata.ModuleName,
      Call.SendCounter "module_run_errors" [("module", t.Metadata.ModuleName)]], ?_, ?_⟩
    · simp [Operator.call, hCalls]
    · intro c hc
      rcases List.mem_append.mp hc with hc | hc
      · exact hQ c hc
      · simp only [List.mem_cons, List.mem_singleton, List.not_mem_nil, or_false] at hc
        rcases hc with hc | hc | hc <;> subst hc <;> simp

/-- C16 at a concrete input: the module `alpha` is synchronized and an afterHelm hook of its
run changes the values. -/
theorem C16_module_run_outcome_witness :
    moduleRunInvoked demoSyncedEnv {} demoModuleRunTask = true ∧
    (demoSyncedEnv.ModuleRun demoModuleRunTask.Metadata.ModuleName = (true, none) →
      (HandleModuleRun demoSyncedEnv {} demoModuleRunTask).1.Status = "Success" ∧
      (∃ newTask, (HandleModuleRun demoSyncedEnv {} demoModuleRunTask).1.AfterTasks = [newTask] ∧
        newTask.taskType = TaskType.ModuleRun ∧
        newTask.Metadata.ModuleName = demoModuleRunTask.Metadata.ModuleName ∧
        newTask.QueueName = demoModuleRunTask.QueueName ∧
        newTask.Metadata.OnStartupHooks = false) ∧
      ∃ extra, (HandleModuleRun demoSyncedEnv {} demoModuleRunTask).2.calls
          = ({} : Operator).calls ++ extra ∧
        ∀ c ∈ extra, ∀ m, c ≠ Call.SetIsReady m) ∧
    (demoSyncedEnv.ModuleRun demoModuleRunTask.Metadata.ModuleName = (false, none) →
      (HandleModuleRun demoSyncedEnv {} demoModuleRunTask).1.Status = "Success" ∧
      (HandleModuleRun demoSyncedEnv {} demoModuleRunTask).1.AfterTasks = [] ∧
      ∃ extra, (HandleModuleRun demoSyncedEnv {} demoModuleRunTask).2.calls
          = ({} : Operator).calls ++ extra ∧
        Call.SetIsReady demoModuleRunTask.Metadata.ModuleName ∈ extra) ∧
    (∀ (changed : Bool) (err : String),
      demoSyncedEnv.ModuleRun demoModuleRunTask.Metadata.ModuleName = (changed, some err) →
      (HandleModuleRun demoSyncedEnv {} demoModuleRunTask).1.Status = "Fail" ∧
      (HandleModuleRun demoSyncedEnv {} demoModuleRunTask).1.AfterTasks = [] ∧
      ∃ extra, (HandleModuleRun demoSyncedEnv {} demoModuleRunTask).2.calls
          = ({} : Operator).calls ++ extra ∧
        ∀ c ∈ extra, ∀ m, c ≠ Call.SetIsReady m) :=
  ⟨rfl, C16_module_run_outcome demoSyncedEnv {} demoModuleRunTask rfl⟩

/-- The run of the witness evaluated: one new ModuleRun task without the OnStartup hooks, and
no ready mark among the calls. -/
theorem HandleModuleRun_demo :
    (HandleModuleRun demoSyncedEnv {} demoModuleRunTask).1 =
      { Status := "Success"
        AfterTasks := [Task.mk "u" TaskType.ModuleRun "main"
          { EventDescription := "DiscoverModulesState.AfterHelmHooksChangeModuleValues"
            ModuleName := "alpha"
            OnStartupHooks := false } 0 ""] } ∧
    (HandleModuleRun demoSyncedEnv {} demoModuleRunTask).2.calls =
      [Call.StartModuleHooks "alpha", Call.ModuleRun "alpha"] := by
  constructor <;> rfl

/-! ## Placement of the Synchronization tasks of a global hook -/

/-- The GlobalHookEnableKubernetesBindings case when the bindings are enabled without
error. -/
theorem TaskHandler_GlobalHookEnableKubernetesBindings_ok (env : OperatorEnv) (op : Operator)
    (t : Task) (hOk : (env.HandleGlobalEnableKubernetesBindings t.Metadata.HookName).2 = none) :
    TaskHandler_GlobalHookEnableKubernetesBindings env op t =
      (finishTaskResult t
        { Status := "Success"
          HeadTasks := (collectSyncTasks env op t).2.mainSyncTasks
          AfterHandle := [AfterHandleCall.StartMonitors t.Metadata.HookName] },
        queueParallelSyncTasks (collectSyncTasks env op t).2.parallelSyncTasks
          (queueGlobalWaitSyncTasks (collectSyncTasks env op t).2.waitSyncTasks
            (collectSyncTasks env op t).1)) := by
  unfold TaskHandler_GlobalHookEnableKubernetesBindings
  simp only [hOk]
  rfl

theorem waitSyncAssign_fresh (m : List (String × Task)) (id : String) (tsk : Task)
    (h : ∀ e ∈ m, e.1 ≠ id) : waitSyncAssign m id tsk = m ++ [(id, tsk)] := by
  unfold waitSyncAssign
  have hAny : (m.any (fun e => decide (e.1 = id))) = false := by
    rw [List.any_eq_false]
    intro e he
    simpa using h e he
  simp [hAny]

theorem enableKubernetesBindingsCallback_eq (env : OperatorEnv) (t : Task)
    (st : Operator × SyncTasks) (c : String × BindingExecutionInfo) :
    enableKubernetesBindingsCallback env t (enableKubernetesBindingsDescription t.Metadata)
        st c.1 c.2 =
      ({ st.1 with uuids := st.1.uuids + 2 },
        if c.2.QueueName = t.QueueName then
          { st.2 with mainSyncTasks := st.2.mainSyncTasks ++ [syncTaskFor env t st.1.uuids c] }
        else if c.2.WaitForSynchronization then
          { st.2 with
            waitSyncTasks := waitSyncAssign st.2.waitSyncTasks (env.uuid st.1.uuids)
              (syncTaskFor env t st.1.uuids c) }
        else
          { st.2 with
            parallelSyncTasks :=
              st.2.parallelSyncTasks ++ [syncTaskFor env t st.1.uuids c] }) := by
  unfold enableKubernetesBindingsCallback
  simp only [NewTask]
  split
  · rfl
  · split <;> rfl

/-- The three collections after the callback has run for the bindings `calls`, when uuids
are never drawn twice. -/
theorem foldl_enableKubernetesBindingsCallback_eq (env : OperatorEnv) (t : Task)
    (hUuid : Function.Injective env.uuid) (calls : List (String × BindingExecutionInfo)) :
    ∀ (st : Operator × SyncTasks),
      (∀ e ∈ st.2.waitSyncTasks, ∃ k, k < st.1.uuids ∧ e.1 = env.uuid k) →
      calls.foldl (fun st c =>
          enableKubernetesBindingsCallback env t (enableKubernetesBindingsDescription t.Metadata)
            st c.1 c.2) st =
        ({ st.1 with uuids := st.1.uuids + 2 * calls.length },
          { mainSyncTasks := st.2.mainSyncTasks ++
              (syncTasksFrom env t st.1.uuids calls).filter
                (fun x => decide (x.QueueName = t.QueueName))
            waitSyncTasks := st.2.waitSyncTasks ++
              ((syncTasksFrom env t st.1.uuids calls).filter
                (fun x => decide (x.QueueName ≠ t.QueueName) &&
                  x.Metadata.WaitForSynchronization)).map
                (fun x => (x.Metadata.KubernetesBindingId, x))
            parallelSyncTasks := st.2.parallelSyncTasks ++
              (syncTasksFrom env t st.1.uuids calls).filter
                (fun x => decide (x.QueueName ≠ t.QueueName) &&
                  !x.Metadata.WaitForSynchronization) }) := by
  induction calls with
  | nil => intro st _; simp [syncTasksFrom]
  | cons c rest ih =>
    intro st hKeys
    rw [List.foldl_cons, enableKubernetesBindingsCallback_eq]
    have hFresh : ∀ e ∈ st.2.waitSyncTasks, e.1 ≠ env.uuid st.1.uuids := by
      intro e he hEq
      obtain ⟨k, hk, hEk⟩ := hKeys e he
      have := hUuid (hEk.symm.trans hEq)
      omega
    have hKeys' : ∀ e ∈ st.2.waitSyncTasks, ∃ k, k < st.1.uuids + 2 ∧ e.1 = env.uuid k := by
      intro e he
      obtain ⟨k, hk, hEk⟩ := hKeys e he
      exact ⟨k, by omega, hEk⟩
    have hLen : st.1.uuids + 2 + 2 * rest.length = st.1.uuids + 2 * (rest.length + 1) := by
      omega
    by_cases hMain : c.2.QueueName = t.QueueName
    · rw [ih _ (by simpa [hMain] using hKeys')]
      simp [hMain, syncTasksFrom, syncTaskFor, List.filter_cons, hLen]
    · by_cases hWait : c.2.WaitForSynchronization = true
      · rw [ih _ (by
          simp only [hMain, hWait, if_false, if_true, waitSyncAssign_fresh _ _ _ hFresh]
          intro e he
          rcases List.mem_append.mp he with he | he
          · exact hKeys' e he
          · simp only [List.mem_singleton] at he
            subst he
            exact ⟨st.1.uuids, by omega, rfl⟩)]
        simp [hMain, hWait, waitSyncAssign_fresh _ _ _ hFresh, syncTasksFrom, syncTaskFor,
          List.filter_cons, hLen]
      · rw [ih _ (by simpa [hMain, hWait] using hKeys')]
        simp [hMain, hWait, syncTasksFrom, syncTaskFor, List.filter_cons, hLen]

theorem AddLast_Queues (tqs : TaskQueueSet) (name : String) (tsk : Task) (n : String) :
    (AddLast tqs name tsk).Queues n =
      if n = name then (tqs.Queues name).map (fun q => q ++ [tsk]) else tqs.Queues n := by
  unfold AddLast setQueue queueTasks
  cases h : tqs.Queues name with
  | none =>
    by_cases hn : n = name
    · simp [hn, h]
    · simp [hn]
  | some q =>
    by_cases hn : n = name
    · simp [hn]
    · simp [hn]

theorem queueGlobalWaitSyncTasks_Queues (l : List (String × Task)) (n : String) :
    ∀ (op : Operator),
      (queueGlobalWaitSyncTasks l op).TaskQueues.Queues n =
        (op.TaskQueues.Queues n).map (fun q =>
          q ++ (l.map (fun e => e.2)).filter (fun x => decide (x.QueueName = n))) := by
  induction l with
  | nil =>
    intro op
    cases h : op.TaskQueues.Queues n <;> simp [queueGlobalWaitSyncTasks, h]
  | cons e rest ih =>
    intro op
    unfold queueGlobalWaitSyncTasks at ih ⊢
    rw [List.foldl_cons]
    cases hQ : GetByName op.TaskQueues e.2.QueueName with
    | none =>
      simp only
      rw [ih]
      unfold GetByName at hQ
      by_cases hn : e.2.QueueName = n
      · rw [← hn, hQ]; rfl
      · simp [List.filter_cons, hn]
    | some q =>
      simp only
      rw [ih]
      unfold GetByName at hQ
      simp only [Operator.call, AddLast_Queues]
      by_cases hn : n = e.2.QueueName
      · subst hn
        simp [hQ, List.filter_cons]
      · have hn' : ¬ e.2.QueueName = n := fun h => hn h.symm
        simp [hn, hn', List.filter_cons]

theorem queueParallelSyncTasks_Queues (l : List Task) (n : String) :
    ∀ (op : Operator),
      (queueParallelSyncTasks l op).TaskQueues.Queues n =
        (op.TaskQueues.Queues n).map (fun q =>
          q ++ l.filter (fun x => decide (x.QueueName = n))) := by
  induction l with
  | nil =>
    intro op
    cases h : op.TaskQueues.Queues n <;> simp [queueParallelSyncTasks, h]
  | cons tsk rest ih =>
    intro op
    unfold queueParallelSyncTasks at ih ⊢
    rw [List.foldl_cons]
    cases hQ : GetByName op.TaskQueues tsk.QueueName with
    | none =>
      simp only
      rw [ih]
      unfold GetByName at hQ
      by_cases hn : tsk.QueueName = n
      · rw [← hn, hQ]; rfl
      · simp [List.filter_cons, hn]
    | some q =>
      simp only
      rw [ih]
      unfold GetByName at hQ
      simp only [AddLast_Queues]
      by_cases hn : n = tsk.QueueName
      · subst hn
        simp [hQ, List.filter_cons]
      · have hn' : ¬ tsk.QueueName = n := fun h => hn h.symm
        simp [hn, hn', List.filter_cons]

theorem queueGlobalWaitSyncTasks_calls (l : List (String × Task)) :
    ∀ (op : Operator),
      (queueGlobalWaitSyncTasks l op).calls =
        op.calls ++ (l.filter
          (fun e => (op.TaskQueues.Queues e.2.QueueName).isSome)).map
            (fun e => Call.SynchronizationQueued e.1) := by
  induction l with
  | nil => intro op; simp [queueGlobalWaitSyncTasks]
  | cons e rest ih =>
    intro op
    unfold queueGlobalWaitSyncTasks at ih ⊢
    rw [List.foldl_cons]
    cases hQ : GetByName op.TaskQueues e.2.QueueName with
    | none =>
      simp only
      rw [ih]
      unfold GetByName at hQ
      simp [List.filter_cons, hQ]
    | some q =>
      simp only
      rw [ih]
      unfold GetByName at hQ
      have hSome : ∀ n, ((AddLast op.TaskQueues e.2.QueueName e.2).Queues n).isSome
          = (op.TaskQueues.Queues n).isSome := by
        intro n
        rw [AddLast_Queues]
        by_cases hn : n = e.2.QueueName
        · simp [hn, hQ]
        · simp [hn]
      simp [List.filter_cons, hQ, hSome, Operator.call]

theorem queueParallelSyncTasks_calls_eq (l : List Task) (o : Operator) :
    (queueParallelSyncTasks l o).calls = o.calls :=
  queueParallelSyncTasks_calls l o

/-- The collections filled by the callback, in terms of the generated tasks, when uuids are
never drawn twice. -/
theorem collectSyncTasks_eq (env : OperatorEnv) (op : Operator) (t : Task)
    (hUuid : Function.Injective env.uuid) :
    collectSyncTasks env op t =
      ({ op with
          uuids := op.uuids
            + 2 * (env.HandleGlobalEnableKubernetesBindings t.Metadata.HookName).1.length },
        { mainSyncTasks := (generatedSyncTasks env op t).filter
            (fun x => decide (x.QueueName = t.QueueName))
          waitSyncTasks := ((generatedSyncTasks env op t).filter
            (fun x => decide (x.QueueName ≠ t.QueueName) &&
              x.Metadata.WaitForSynchronization)).map
            (fun x => (x.Metadata.KubernetesBindingId, x))
          parallelSyncTasks := (generatedSyncTasks env op t).filter
            (fun x => decide (x.QueueName ≠ t.QueueName) &&
              !x.Metadata.WaitForSynchronization) }) := by
  unfold collectSyncTasks generatedSyncTasks
  rw [foldl_enableKubernetesBindingsCallback_eq env t hUuid _ (op, {}) (by simp)]
  simp

theorem syncTasksFrom_map (env : OperatorEnv) (t : Task)
    (calls : List (String × BindingExecutionInfo)) :
    ∀ n, (syncTasksFrom env t n calls).map
        (fun x => (x.Metadata.HookName, x.QueueName, x.Metadata.WaitForSynchronization)) =
      calls.map (fun c => (c.1, c.2.QueueName, c.2.WaitForSynchronization)) := by
  induction calls with
  | nil => intro n; rfl
  | cons c rest ih => intro n; simp [syncTasksFrom, syncTaskFor, ih]

theorem filter_queue_wait_perm (l : List Task) (name : String) :
    (l.filter (fun x => decide (x.QueueName = name) && x.Metadata.WaitForSynchronization)
      ++ l.filter (fun x => decide (x.QueueName = name) && !x.Metadata.WaitForSynchronization)).Perm
      (l.filter (fun x => decide (x.QueueName = name))) := by
  have h := List.filter_append_perm (fun x : Task => x.Metadata.WaitForSynchronization)
    (l.filter (fun x => decide (x.QueueName = name)))
  simp only [List.filter_filter] at h
  have h1 : l.filter (fun x => x.Metadata.WaitForSynchronization && decide (x.QueueName = name))
      = l.filter (fun x => decide (x.QueueName = name) && x.Metadata.WaitForSynchronization) :=
    List.filter_congr (fun x _ => Bool.and_comm _ _)
  have h2 : l.filter (fun x => !x.Metadata.WaitForSynchronization && decide (x.QueueName = name))
      = l.filter (fun x => decide (x.QueueName = name) && !x.Metadata.WaitForSynchronization) :=
    List.filter_congr (fun x _ => Bool.and_comm _ _)
  rw [h1, h2] at h
  exact h

/-- The queues after the GlobalHookEnableKubernetesBindings case has succeeded. -/
theorem TaskHandler_GlobalHookEnableKubernetesBindings_Queues (env : OperatorEnv)
    (op : Operator) (t : Task)
    (hOk : (env.HandleGlobalEnableKubernetesBindings t.Metadata.HookName).2 = none)
    (hUuid : Function.Injective env.uuid) (name : String) :
    (TaskHandler_GlobalHookEnableKubernetesBindings env op t).2.TaskQueues.Queues name =
      (op.TaskQueues.Queues name).map (fun q =>
        q ++
          ((generatedSyncTasks env op t).filter (fun x =>
              decide (x.QueueName = name) &&
                (decide (x.QueueName ≠ t.QueueName) && x.Metadata.WaitForSynchronization))
            ++ (generatedSyncTasks env op t).filter (fun x =>
              decide (x.QueueName = name) &&
                (decide (x.QueueName ≠ t.QueueName) && !x.Metadata.WaitForSynchronization)))) := by
  rw [TaskHandler_GlobalHookEnableKubernetesBindings_ok env op t hOk,
    collectSyncTasks_eq env op t hUuid]
  simp only [queueParallelSyncTasks_Queues, queueGlobalWaitSyncTasks_Queues, List.map_map,
    Function.comp_def, List.map_id', List.filter_filter, Option.map_map]
  cases h : op.TaskQueues.Queues name <;> simp [List.append_assoc]

/-- C19: when the GlobalHookEnableKubernetesBindings case succeeds, uuids being never drawn
twice, one Synchronization task is generated per binding, in binding order. The tasks whose
queue is the queue of the handled task are the `HeadTasks` of the result, in that order, and
that queue is left as it was. A queue of another name that exists is the same queue followed
by the tasks generated for it, each once; so when the queue of every binding exists, every
other generated task is in the new tail of its own queue. The monitors are started in
`AfterHandle`, after the check of the converge status. -/
theorem C19_synchronization_tasks_placed_once (env : OperatorEnv) (op : Operator) (t : Task)
    (hOk : (env.HandleGlobalEnableKubernetesBindings t.Metadata.HookName).2 = none)
    (hUuid : Function.Injective env.uuid)
    (hQueues : ∀ c ∈ (env.HandleGlobalEnableKubernetesBindings t.Metadata.HookName).1,
      c.2.QueueName ≠ t.QueueName → ∃ q, op.TaskQueues.Queues c.2.QueueName = some q) :
    (generatedSyncTasks env op t).map
        (fun x => (x.Metadata.HookName, x.QueueName, x.Metadata.WaitForSynchronization)) =
      (env.HandleGlobalEnableKubernetesBindings t.Metadata.HookName).1.map
        (fun c => (c.1, c.2.QueueName, c.2.WaitForSynchronization)) ∧
    (TaskHandler_GlobalHookEnableKubernetesBindings env op t).1.Status = "Success" ∧
    (TaskHandler_GlobalHookEnableKubernetesBindings env op t).1.HeadTasks =
      (generatedSyncTasks env op t).filter (fun x => decide (x.QueueName = t.QueueName)) ∧
    (TaskHandler_GlobalHookEnableKubernetesBindings env op t).1.AfterHandle =
      [AfterHandleCall.CheckConvergeStatus t.Id,
        AfterHandleCall.StartMonitors t.Metadata.HookName] ∧
    (TaskHandler_GlobalHookEnableKubernetesBindings env op t).2.TaskQueues.Queues t.QueueName
      = op.TaskQueues.Queues t.QueueName ∧
    (∀ name, name ≠ t.QueueName → ∃ added,
      (TaskHandler_GlobalHookEnableKubernetesBindings env op t).2.TaskQueues.Queues name
        = (op.TaskQueues.Queues name).map (fun q => q ++ added) ∧
      added.Perm ((generatedSyncTasks env op t).filter
        (fun x => decide (x.QueueName = name)))) ∧
    (∀ x ∈ generatedSyncTasks env op t, x.QueueName ≠ t.QueueName → ∃ q added,
      op.TaskQueues.Queues x.QueueName = some q ∧
      (TaskHandler_GlobalHookEnableKubernetesBindings env op t).2.TaskQueues.Queues x.QueueName
        = some (q ++ added) ∧
      x ∈ added ∧
      added.Perm ((generatedSyncTasks env op t).filter
        (fun y => decide (y.QueueName = x.QueueName)))) := by
  have hMap := syncTasksFrom_map env t
    (env.HandleGlobalEnableKubernetesBindings t.Metadata.HookName).1 op.uuids
  have hOther : ∀ name, name ≠ t.QueueName → ∃ added,
      (TaskHandler_GlobalHookEnableKubernetesBindings env op t).2.TaskQueues.Queues name
        = (op.TaskQueues.Queues name).map (fun q => q ++ added) ∧
      added.Perm ((generatedSyncTasks env op t).filter
        (fun x => decide (x.QueueName = name))) := by
    intro name hName
    refine ⟨_, TaskHandler_GlobalHookEnableKubernetesBindings_Queues env op t hOk hUuid name, ?_⟩
    have h1 : (generatedSyncTasks env op t).filter (fun x =>
          decide (x.QueueName = name) &&
            (decide (x.QueueName ≠ t.QueueName) && x.Metadata.WaitForSynchronization))
        = (generatedSyncTasks env op t).filter (fun x =>
          decide (x.QueueName = name) && x.Metadata.WaitForSynchronization) := by
      apply List.filter_congr
      intro x _
      by_cases hx : x.QueueName = name
      · have : x.QueueName ≠ t.QueueName := by rw [hx]; exact hName
        simp [hx, hName]
      · simp [hx]
    have h2 : (generatedSyncTasks env op t).filter (fun x =>
          decide (x.QueueName = name) &&
            (decide (x.QueueName ≠ t.QueueName) && !x.Metadata.WaitForSynchronization))
        = (generatedSyncTasks env op t).filter (fun x =>
          decide (x.QueueName = name) && !x.Metadata.WaitForSynchronization) := by
      apply List.filter_congr
      intro x _
      by_cases hx : x.QueueName = name
      · simp [hx, hName]
      · simp [hx]
    rw [h1, h2]
    exact filter_queue_wait_perm _ name
  refine ⟨hMap, ?_, ?_, ?_, ?_, hOther, ?_⟩
  · rw [TaskHandler_GlobalHookEnableKubernetesBindings_ok env op t hOk]
    simp [finishTaskResult]
  · rw [TaskHandler_GlobalHookEnableKubernetesBindings_ok env op t hOk,
      collectSyncTasks_eq env op t hUuid]
    simp [finishTaskResult]
  · rw [TaskHandler_GlobalHookEnableKubernetesBindings_ok env op t hOk]
    simp [finishTaskResult]
  · rw [TaskHandler_GlobalHookEnableKubernetesBindings_Queues env op t hOk hUuid]
    have hNil1 : (generatedSyncTasks env op t).filter (fun x =>
          decide (x.QueueName = t.QueueName) &&
            (decide (x.QueueName ≠ t.QueueName) && x.Metadata.WaitForSynchronization)) = [] := by
      rw [List.filter_eq_nil_iff]
      intro x _
      by_cases hx : x.QueueName = t.QueueName <;> simp [hx]
    have hNil2 : (generatedSyncTasks env op t).filter (fun x =>
          decide (x.QueueName = t.QueueName) &&
            (decide (x.QueueName ≠ t.QueueName) && !x.Metadata.WaitForSynchronization)) = [] := by
      rw [List.filter_eq_nil_iff]
      intro x _
      by_cases hx : x.QueueName = t.QueueName <;> simp [hx]
    rw [hNil1, hNil2]
    cases h : op.TaskQueues.Queues t.QueueName <;> simp
  · intro x hx hName
    have hProj : (x.Metadata.HookName, x.QueueName, x.Metadata.WaitForSynchronization) ∈
        (env.HandleGlobalEnableKubernetesBindings t.Metadata.HookName).1.map
          (fun c => (c.1, c.2.QueueName, c.2.WaitForSynchronization)) := by
      rw [← hMap]
      exact List.mem_map.mpr ⟨x, hx, rfl⟩
    obtain ⟨c, hc, hEq⟩ := List.mem_map.mp hProj
    have hcq : c.2.QueueName = x.QueueName := by
      have := congrArg (fun p => p.2.1) hEq
      simpa using this
    obtain ⟨q, hq⟩ := hQueues c hc (by rw [hcq]; exact hName)
    rw [hcq] at hq
    obtain ⟨added, hAdded, hPerm⟩ := hOther x.QueueName hName
    refine ⟨q, added, hq, ?_, ?_, hPerm⟩
    · rw [hAdded, hq]
      rfl
    · rw [hPerm.mem_iff]
      exact List.mem_filter.mpr ⟨hx, by simp⟩

theorem demoOperatorEnv_uuid_injective : Function.Injective demoOperatorEnv.uuid := by
  intro a b h
  have hLen := congrArg (fun s : String => s.data.length) h
  simpa [demoOperatorEnv] using hLen

theorem demoMainOperator_queues :
    ∀ c ∈ (demoOperatorEnv.HandleGlobalEnableKubernetesBindings
        demoEnableTask.Metadata.HookName).1,
      c.2.QueueName ≠ demoEnableTask.QueueName →
      ∃ q, demoMainOperator.TaskQueues.Queues c.2.QueueName = some q := by
  intro c hc hne
  have hCases : c = ("watch", { QueueName := "main", WaitForSynchronization := true }) ∨
      c = ("watch", { QueueName := "side", WaitForSynchronization := true }) := by
    simpa [demoOperatorEnv] using hc
  rcases hCases with rfl | rfl
  · exact absurd rfl hne
  · exact ⟨[], rfl⟩

/-- C19 at a concrete input: two bindings of the hook `watch`, one for the queue `main` of
the handled task and one for the queue `side`. -/
theorem C19_synchronization_tasks_placed_once_witness :
    (demoOperatorEnv.HandleGlobalEnableKubernetesBindings demoEnableTask.Metadata.HookName).2
      = none ∧
    Function.Injective demoOperatorEnv.uuid ∧
    (∀ c ∈ (demoOperatorEnv.HandleGlobalEnableKubernetesBindings
        demoEnableTask.Metadata.HookName).1,
      c.2.QueueName ≠ demoEnableTask.QueueName →
      ∃ q, demoMainOperator.TaskQueues.Queues c.2.QueueName = some q) ∧
    (generatedSyncTasks demoOperatorEnv demoMainOperator demoEnableTask).map
        (fun x => (x.Metadata.HookName, x.QueueName, x.Metadata.WaitForSynchronization)) =
      (demoOperatorEnv.HandleGlobalEnableKubernetesBindings
        demoEnableTask.Metadata.HookName).1.map
        (fun c => (c.1, c.2.QueueName, c.2.WaitForSynchronization)) ∧
    (TaskHandler_GlobalHookEnableKubernetesBindings demoOperatorEnv demoMainOperator
      demoEnableTask).1.Status = "Success" ∧
    (TaskHandler_GlobalHookEnableKubernetesBindings demoOperatorEnv demoMainOperator
      demoEnableTask).1.HeadTasks =
      (generatedSyncTasks demoOperatorEnv demoMainOperator demoEnableTask).filter
        (fun x => decide (x.QueueName = demoEnableTask.QueueName)) ∧
    (TaskHandler_GlobalHookEnableKubernetesBindings demoOperatorEnv demoMainOperator
      demoEnableTask).1.AfterHandle =
      [AfterHandleCall.CheckConvergeStatus demoEnableTask.Id,
        AfterHandleCall.StartMonitors demoEnableTask.Metadata.HookName] ∧
    (TaskHandler_GlobalHookEnableKubernetesBindings demoOperatorEnv demoMainOperator
      demoEnableTask).2.TaskQueues.Queues demoEnableTask.QueueName
      = demoMainOperator.TaskQueues.Queues demoEnableTask.QueueName ∧
    (∀ name, name ≠ demoEnableTask.QueueName → ∃ added,
      (TaskHandler_GlobalHookEnableKubernetesBindings demoOperatorEnv demoMainOperator
        demoEnableTask).2.TaskQueues.Queues name
        = (demoMainOperator.TaskQueues.Queues name).map (fun q => q ++ added) ∧
      added.Perm ((generatedSyncTasks demoOperatorEnv demoMainOperator demoEnableTask).filter
        (fun x => decide (x.QueueName = name)))) ∧
    (∀ x ∈ generatedSyncTasks demoOperatorEnv demoMainOperator demoEnableTask,
      x.QueueName ≠ demoEnableTask.QueueName → ∃ q added,
      demoMainOperator.TaskQueues.Queues x.QueueName = some q ∧
      (TaskHandler_GlobalHookEnableKubernetesBindings demoOperatorEnv demoMainOperator
        demoEnableTask).2.TaskQueues.Queues x.QueueName = some (q ++ added) ∧
      x ∈ added ∧
      added.Perm ((generatedSyncTasks demoOperatorEnv demoMainOperator demoEnableTask).filter
        (fun y => decide (y.QueueName = x.QueueName)))) :=
  ⟨rfl, demoOperatorEnv_uuid_injective, demoMainOperator_queues,
    C19_synchronization_tasks_placed_once demoOperatorEnv demoMainOperator demoEnableTask rfl
      demoOperatorEnv_uuid_injective demoMainOperator_queues⟩

/-- The handling of the witness evaluated: the task for `main` is returned as head task, the
task for `side` is at the tail of `side`, and only the latter is registered as queued. -/
theorem TaskHandler_GlobalHookEnableKubernetesBindings_demo :
    generatedSyncTasks demoOperatorEnv demoMainOperator demoEnableTask
      = [demoSyncTask, demoSideSyncTask] ∧
    (TaskHandler_GlobalHookEnableKubernetesBindings demoOperatorEnv demoMainOperator
      demoEnableTask).1.HeadTasks = [demoSyncTask] ∧
    (TaskHandler_GlobalHookEnableKubernetesBindings demoOperatorEnv demoMainOperator
      demoEnableTask).2.TaskQueues.Queues "main" = some [demoScheduleTask] ∧
    (TaskHandler_GlobalHookEnableKubernetesBindings demoOperatorEnv demoMainOperator
      demoEnableTask).2.TaskQueues.Queues "side" = some [demoSideSyncTask] ∧
    (TaskHandler_GlobalHookEnableKubernetesBindings demoOperatorEnv demoMainOperator
      demoEnableTask).2.calls = [Call.SynchronizationQueued "uuu"] := by
  refine ⟨rfl, rfl, rfl, rfl, rfl⟩

/-! ## Registration of the Synchronization tasks of a global hook -/

theorem syncTasksFrom_bindingId (env : OperatorEnv) (t : Task)
    (calls : List (String × BindingExecutionInfo)) :
    ∀ (n : Nat) (x : Task), x ∈ syncTasksFrom env t n calls →
      ∃ k, n ≤ k ∧ x.Metadata.KubernetesBindingId = env.uuid k := by
  induction calls with
  | nil => intro n x hx; simp [syncTasksFrom] at hx
  | cons c rest ih =>
    intro n x hx
    simp only [syncTasksFrom, List.mem_cons] at hx
    rcases hx with hx | hx
    · exact ⟨n, Nat.le_refl n, by rw [hx]; rfl⟩
    · obtain ⟨k, hk, hEq⟩ := ih (n + 2) x hx
      exact ⟨k, by omega, hEq⟩

theorem syncTasksFrom_bindingId_inj (env : OperatorEnv) (t : Task)
    (hUuid : Function.Injective env.uuid) (calls : List (String × BindingExecutionInfo)) :
    ∀ (n : Nat) (x y : Task), x ∈ syncTasksFrom env t n calls →
      y ∈ syncTasksFrom env t n calls →
      x.Metadata.KubernetesBindingId = y.Metadata.KubernetesBindingId → x = y := by
  induction calls with
  | nil => intro n x y hx; simp [syncTasksFrom] at hx
  | cons c rest ih =>
    intro n x y hx hy hEq
    simp only [syncTasksFrom, List.mem_cons] at hx hy
    rcases hx with hx | hx <;> rcases hy with hy | hy
    · rw [hx, hy]
    · obtain ⟨k, hk, hyk⟩ := syncTasksFrom_bindingId env t rest (n + 2) y hy
      have hxn : x.Metadata.KubernetesBindingId = env.uuid n := by rw [hx]; rfl
      have := hUuid (hxn.symm.trans (hEq.trans hyk))
      omega
    · obtain ⟨k, hk, hxk⟩ := syncTasksFrom_bindingId env t rest (n + 2) x hx
      have hyn : y.Metadata.KubernetesBindingId = env.uuid n := by rw [hy]; rfl
      have := hUuid (hyn.symm.trans (hEq.symm.trans hxk))
      omega
    · exact ih (n + 2) x y hx hy hEq

/-- The calls made by the GlobalHookEnableKubernetesBindings case when it succeeds: one
registration per generated task that waits, is for another queue than the handled task, and
has its queue. -/
theorem TaskHandler_GlobalHookEnableKubernetesBindings_calls (env : OperatorEnv)
    (op : Operator) (t : Task)
    (hOk : (env.HandleGlobalEnableKubernetesBindings t.Metadata.HookName).2 = none)
    (hUuid : Function.Injective env.uuid) :
    (TaskHandler_GlobalHookEnableKubernetesBindings env op t).2.calls =
      op.calls ++ ((generatedSyncTasks env op t).filter (fun x =>
          (op.TaskQueues.Queues x.QueueName).isSome &&
            (decide (x.QueueName ≠ t.QueueName) && x.Metadata.WaitForSynchronization))).map
        (fun x => Call.SynchronizationQueued x.Metadata.KubernetesBindingId) := by
  rw [TaskHandler_GlobalHookEnableKubernetesBindings_ok env op t hOk,
    collectSyncTasks_eq env op t hUuid]
  simp only [queueParallelSyncTasks_calls, queueGlobalWaitSyncTasks_calls, List.filter_map,
    List.map_map, Function.comp_def, List.filter_filter]

/-- C20 as stated fails: the Synchronization task generated for a binding of the queue of the
handled task waits for synchronization, and `SynchronizationQueued` is not called with its
kubernetes binding id. -/
theorem C20_main_queue_task_not_registered :
    (demoOperatorEnv.HandleGlobalEnableKubernetesBindings demoEnableTask.Metadata.HookName).2
      = none ∧
    demoSyncTask ∈ generatedSyncTasks demoOperatorEnv demoMainOperator demoEnableTask ∧
    demoSyncTask.Metadata.WaitForSynchronization = true ∧
    Call.SynchronizationQueued demoSyncTask.Metadata.KubernetesBindingId ∉
      (TaskHandler_GlobalHookEnableKubernetesBindings demoOperatorEnv demoMainOperator
        demoEnableTask).2.calls := by
  refine ⟨rfl, ?_, rfl, ?_⟩
  · rw [show generatedSyncTasks demoOperatorEnv demoMainOperator demoEnableTask
        = [demoSyncTask, demoSideSyncTask] from rfl]
    exact List.mem_cons_self _ _
  · rw [show (TaskHandler_GlobalHookEnableKubernetesBindings demoOperatorEnv demoMainOperator
        demoEnableTask).2.calls = [Call.SynchronizationQueued "uuu"] from rfl]
    decide

/-- C20, amended: when the GlobalHookEnableKubernetesBindings case succeeds, uuids being
never drawn twice, every generated Synchronization task that waits for synchronization, is
for another queue than the handled task and has its queue is registered as queued:
`SynchronizationQueued` is called with its kubernetes binding id. A generated task for the
queue of the handled task is returned in `HeadTasks`, and no call made registers it. -/
theorem C20_other_queue_wait_tasks_registered (env : OperatorEnv) (op : Operator) (t : Task)
    (hOk : (env.HandleGlobalEnableKubernetesBindings t.Metadata.HookName).2 = none)
    (hUuid : Function.Injective env.uuid) :
    (∀ x ∈ generatedSyncTasks env op t,
      x.Metadata.WaitForSynchronization = true → x.QueueName ≠ t.QueueName →
      (∃ q, op.TaskQueues.Queues x.QueueName = some q) →
      Call.SynchronizationQueued x.Metadata.KubernetesBindingId ∈
        (TaskHandler_GlobalHookEnableKubernetesBindings env op t).2.calls) ∧
    (∃ extra,
      (TaskHandler_GlobalHookEnableKubernetesBindings env op t).2.calls = op.calls ++ extra ∧
      ∀ x ∈ generatedSyncTasks env op t, x.QueueName = t.QueueName →
        x ∈ (TaskHandler_GlobalHookEnableKubernetesBindings env op t).1.HeadTasks ∧
        Call.SynchronizationQueued x.Metadata.KubernetesBindingId ∉ extra) := by
  have hCalls := TaskHandler_GlobalHookEnableKubernetesBindings_calls env op t hOk hUuid
  constructor
  · intro x hx hWait hName hQueue
    rw [hCalls]
    apply List.mem_append_right
    refine List.mem_map.mpr ⟨x, List.mem_filter.mpr ⟨hx, ?_⟩, rfl⟩
    obtain ⟨q, hq⟩ := hQueue
    simp [hq, hName, hWait]
  · refine ⟨_, hCalls, ?_⟩
    intro x hx hName
    constructor
    · rw [TaskHandler_GlobalHookEnableKubernetesBindings_ok env op t hOk,
        collectSyncTasks_eq env op t hUuid]
      simp only [finishTaskResult_HeadTasks]
      exact List.mem_filter.mpr ⟨hx, by simp [hName]⟩
    · intro hMem
      obtain ⟨y, hy, hEq⟩ := List.mem_map.mp hMem
      obtain ⟨hyMem, hyP⟩ := List.mem_filter.mp hy
      have hBid : y.Metadata.KubernetesBindingId = x.Metadata.KubernetesBindingId := by
        injection hEq
      have hyx : y = x := syncTasksFrom_bindingId_inj env t hUuid _ op.uuids y x hyMem hx hBid
      subst hyx
      simp [hName] at hyP

/-- C20, amended, at a concrete input: of the two bindings that wait, the one for the queue
`side` is registered. -/
theorem C20_other_queue_wait_tasks_registered_witness :
    (demoOperatorEnv.HandleGlobalEnableKubernetesBindings demoEnableTask.Metadata.HookName).2
      = none ∧
    Function.Injective demoOperatorEnv.uuid ∧
    (∀ x ∈ generatedSyncTasks demoOperatorEnv demoMainOperator demoEnableTask,
      x.Metadata.WaitForSynchronization = true → x.QueueName ≠ demoEnableTask.QueueName →
      (∃ q, demoMainOperator.TaskQueues.Queues x.QueueName = some q) →
      Call.SynchronizationQueued x.Metadata.KubernetesBindingId ∈
        (TaskHandler_GlobalHookEnableKubernetesBindings demoOperatorEnv demoMainOperator
          demoEnableTask).2.calls) ∧
    (∃ extra,
      (TaskHandler_GlobalHookEnableKubernetesBindings demoOperatorEnv demoMainOperator
        demoEnableTask).2.calls = demoMainOperator.calls ++ extra ∧
      ∀ x ∈ generatedSyncTasks demoOperatorEnv demoMainOperator demoEnableTask,
        x.QueueName = demoEnableTask.QueueName →
        x ∈ (TaskHandler_GlobalHookEnableKubernetesBindings demoOperatorEnv demoMainOperator
          demoEnableTask).1.HeadTasks ∧
        Call.SynchronizationQueued x.Metadata.KubernetesBindingId ∉ extra) :=
  ⟨rfl, demoOperatorEnv_uuid_injective,
    C20_other_queue_wait_tasks_registered demoOperatorEnv demoMainOperator demoEnableTask rfl
      demoOperatorEnv_uuid_injective⟩

end AddonOperator

namespace KubeEventsManager

/-! ## The frame of one event -/

/-- C27: when `HandleKubeEvent` returns without error, whatever `sendSignal` is, the table maps
the id of the object to the new fingerprint and the entry of every other id is as before, and
the `ConfigId` is unchanged; with `sendSignal = false` nothing is sent, and any later event
for the same id with the same fingerprint sends nothing and leaves the informer as it is. -/
theorem C27_handle_kube_event_frame {Obj : Type} (env : KubeEnv Obj)
    (ei ei' : KubeEventsInformer) (obj : Obj) (newChecksum : String) (sendSignal : Bool)
    (sent : List String)
    (h : HandleKubeEvent env ei obj newChecksum sendSignal = .ok (ei', sent)) :
    ∃ objectId, runtimeResourceId env obj = .ok objectId ∧
      mapIndex ei'.Checksum objectId = newChecksum ∧
      (∀ k, k ≠ objectId → ei'.Checksum k = ei.Checksum k) ∧
      ei'.ConfigId = ei.ConfigId ∧
      (sendSignal = false → sent = []) ∧
      ∀ (obj2 : Obj) (sendSignal2 : Bool), runtimeResourceId env obj2 = .ok objectId →
        HandleKubeEvent env ei' obj2 newChecksum sendSignal2 = .ok (ei', []) := by
  cases hId : runtimeResourceId env obj with
  | error e =>
    unfold HandleKubeEvent at h
    rw [hId] at h
    simp at h
  | ok objectId =>
    rw [HandleKubeEvent_eq env ei obj objectId newChecksum sendSignal hId] at h
    refine ⟨objectId, rfl, ?_⟩
    by_cases hc : mapIndex ei.Checksum objectId = newChecksum
    · simp only [hc, ne_eq, not_true_eq_false, if_false, Except.ok.injEq, Prod.mk.injEq] at h
      obtain ⟨hE, hS⟩ := h
      subst hE
      subst hS
      refine ⟨hc, fun _ _ => rfl, rfl, fun _ => rfl, ?_⟩
      intro obj2 s2 h2
      rw [HandleKubeEvent_eq env ei obj2 objectId newChecksum s2 h2]
      simp [hc]
    · simp only [hc, ne_eq, not_false_eq_true, if_true, Except.ok.injEq, Prod.mk.injEq] at h
      obtain ⟨hE, hS⟩ := h
      subst hE
      have hNew : mapIndex (mapAssign ei.Checksum objectId newChecksum) objectId = newChecksum :=
        mapIndex_mapAssign_same _ _ _
      refine ⟨hNew, fun k hk => mapAssign_other _ _ _ _ hk, rfl, ?_, ?_⟩
      · intro hf
        subst hf
        simpa using hS.symm
      · intro obj2 s2 h2
        rw [HandleKubeEvent_eq env _ obj2 objectId newChecksum s2 h2]
        simp [hNew]

/-- C27 at a concrete input: a Delete-like delivery with `sendSignal = false` that replaces the
stored fingerprint `x` of the object `a` by `y`. -/
theorem C27_handle_kube_event_frame_witness :
    HandleKubeEvent demoEnv demoInformer ("a", "ns", "y") "y" false
        = .ok ({ demoInformer with
                 Checksum := mapAssign demoInformer.Checksum (generateChecksumId "a" "ns") "y" },
               []) ∧
    ∃ objectId, runtimeResourceId demoEnv ("a", "ns", "y") = .ok objectId ∧
      mapIndex (mapAssign demoInformer.Checksum (generateChecksumId "a" "ns") "y") objectId
        = "y" ∧
      (∀ k, k ≠ objectId →
        mapAssign demoInformer.Checksum (generateChecksumId "a" "ns") "y" k
          = demoInformer.Checksum k) ∧
      demoInformer.ConfigId = demoInformer.ConfigId ∧
      (false = false → ([] : List String) = []) ∧
      ∀ (obj2 : DemoObj) (sendSignal2 : Bool), runtimeResourceId demoEnv obj2 = .ok objectId →
        HandleKubeEvent demoEnv
            { demoInformer with
              Checksum := mapAssign demoInformer.Checksum (generateChecksumId "a" "ns") "y" }
            obj2 "y" sendSignal2
          = .ok ({ demoInformer with
                   Checksum :=
                     mapAssign demoInformer.Checksum (generateChecksumId "a" "ns") "y" },
                 []) :=
  ⟨rfl,
    C27_handle_kube_event_frame demoEnv demoInformer
      { demoInformer with
        Checksum := mapAssign demoInformer.Checksum (generateChecksumId "a" "ns") "y" }
      ("a", "ns", "y") "y" false [] rfl⟩

/-! ## The key of the fingerprint table -/

theorem append_cons_inj_of_not_mem {α : Type} (a : α) (l1 : List α) :
    ∀ (l2 r1 r2 : List α), a ∉ l1 → a ∉ l2 → l1 ++ a :: r1 = l2 ++ a :: r2 →
      l1 = l2 ∧ r1 = r2 := by
  induction l1 with
  | nil =>
    intro l2 r1 r2 _ h2 h
    cases l2 with
    | nil => simpa using h
    | cons b l2 =>
      simp only [List.nil_append, List.cons_append, List.cons.injEq] at h
      exact absurd (h.1 ▸ List.mem_cons_self _ _) h2
  | cons c l1 ih =>
    intro l2 r1 r2 h1 h2 h
    cases l2 with
    | nil =>
      simp only [List.nil_append, List.cons_append, List.cons.injEq] at h
      exact absurd (h.1 ▸ List.mem_cons_self _ _) h1
    | cons b l2 =>
      simp only [List.cons_append, List.cons.injEq] at h
      obtain ⟨hl, hr⟩ := ih l2 r1 r2 (fun hm => h1 (List.mem_cons_of_mem _ hm))
        (fun hm => h2 (List.mem_cons_of_mem _ hm)) h.2
      exact ⟨by rw [h.1, hl], hr⟩

/-- C28: `generateChecksumId` is injective on names without a space character: equal keys
come from equal names and equal namespaces (no condition on the namespaces is needed), so
two objects that differ in name or namespace have different keys. -/
theorem C28_generate_checksum_id_injective (name1 ns1 name2 ns2 : String)
    (h1 : ' ' ∉ name1.toList) (h2 : ' ' ∉ name2.toList) :
    (generateChecksumId name1 ns1 = generateChecksumId name2 ns2 →
      name1 = name2 ∧ ns1 = ns2) ∧
    ((name1, ns1) ≠ (name2, ns2) →
      generateChecksumId name1 ns1 ≠ generateChecksumId name2 ns2) := by
  have hInj : generateChecksumId name1 ns1 = generateChecksumId name2 ns2 →
      name1 = name2 ∧ ns1 = ns2 := by
    intro h
    unfold generateChecksumId at h
    have hd := congrArg String.data h
    simp only [String.data_append, List.append_assoc] at hd
    have hd2 := List.append_cancel_left hd
    simp only [List.cons_append] at hd2
    obtain ⟨hn, hr⟩ := append_cons_inj_of_not_mem _ _ _ _ _ h1 h2 hd2
    have hr2 : ns1.data = ns2.data := by simpa using hr
    exact ⟨String.ext hn, String.ext hr2⟩
  refine ⟨hInj, ?_⟩
  intro hne heq
  obtain ⟨hn, hs⟩ := hInj heq
  exact hne (by rw [hn, hs])

/-- C28 at a concrete input: the names `a-b` and `a` with the namespaces `c` and `b-c`. -/
theorem C28_generate_checksum_id_injective_witness :
    ' ' ∉ "a-b".toList ∧ ' ' ∉ "a".toList ∧
    (generateChecksumId "a-b" "c" = generateChecksumId "a" "b-c" →
      "a-b" = "a" ∧ "c" = "b-c") ∧
    ((("a-b", "c") : String × String) ≠ ("a", "b-c") →
      generateChecksumId "a-b" "c" ≠ generateChecksumId "a" "b-c") :=
  ⟨by decide, by decide,
    C28_generate_checksum_id_injective "a-b" "c" "a" "b-c" (by decide) (by decide)⟩

end KubeEventsManager

namespace AddonOperator

/-! ## The stop predicate of the hook run handlers -/

theorem stopCombine_eq_true_iff (hm : HookMetadata) (tsk : Task) :
    stopCombine hm tsk = true ↔
      hm.KubernetesBindingId ≠ "" ∧ tsk.Metadata.KubernetesBindingId ≠ "" ∧
        hm.WaitForSynchronization ≠ tsk.Metadata.WaitForSynchronization := by
  unfold stopCombine
  by_cases h1 : hm.KubernetesBindingId = "" <;>
    by_cases h2 : tsk.Metadata.KubernetesBindingId = "" <;>
    by_cases h3 : hm.WaitForSynchronization = tsk.Metadata.WaitForSynchronization <;>
    simp [h1, h2, h3]

theorem stop_false_of_mem_fusedPeers (q : List Task) (t tsk : Task) (stop : Task → Bool)
    (h : tsk ∈ fusedPeers q t stop) : stop tsk = false := by
  unfold fusedPeers at h
  have hp := List.mem_takeWhile_imp h
  simp only [Bool.and_eq_true, Bool.not_eq_true', decide_eq_true_eq] at hp
  exact hp.2

/-- C21: for a handled task and a queued task that are both Synchronization tasks (non-empty
`KubernetesBindingId`), the stop predicate of the GlobalHookRun and ModuleHookRun handlers
is true when their `WaitForSynchronization` flags differ and false when they are equal; so
the combiner never fuses a queued Synchronization task into a handled one with another
flag. -/
theorem C21_stop_predicate_synchronization_flags (hm : HookMetadata) (tsk : Task)
    (hHandled : hm.KubernetesBindingId ≠ "")
    (hQueued : tsk.Metadata.KubernetesBindingId ≠ "") :
    (hm.WaitForSynchronization ≠ tsk.Metadata.WaitForSynchronization →
      stopCombine hm tsk = true) ∧
    (hm.WaitForSynchronization = tsk.Metadata.WaitForSynchronization →
      stopCombine hm tsk = false) ∧
    (hm.WaitForSynchronization ≠ tsk.Metadata.WaitForSynchronization →
      ∀ (q : List Task) (t : Task), t.Metadata = hm →
        tsk ∉ fusedPeers q t (stopCombine t.Metadata)) := by
  have hTrue : hm.WaitForSynchronization ≠ tsk.Metadata.WaitForSynchronization →
      stopCombine hm tsk = true :=
    fun hne => (stopCombine_eq_true_iff hm tsk).2 ⟨hHandled, hQueued, hne⟩
  refine ⟨hTrue, ?_, ?_⟩
  · intro heq
    cases hS : stopCombine hm tsk with
    | false => rfl
    | true => exact absurd heq ((stopCombine_eq_true_iff hm tsk).1 hS).2.2
  · intro hne q t ht
    subst ht
    intro hMem
    have hF := stop_false_of_mem_fusedPeers q t tsk _ hMem
    rw [hTrue hne] at hF
    exact Bool.noConfusion hF

/-- C21 at a concrete input: a handled Synchronization task that does not wait and a queued
one that does. -/
theorem C21_stop_predicate_synchronization_flags_witness :
    (demoWaitTask "s0" false).Metadata.KubernetesBindingId ≠ "" ∧
    (demoWaitTask "s" true).Metadata.KubernetesBindingId ≠ "" ∧
    ((demoWaitTask "s0" false).Metadata.WaitForSynchronization
        ≠ (demoWaitTask "s" true).Metadata.WaitForSynchronization →
      stopCombine (demoWaitTask "s0" false).Metadata (demoWaitTask "s" true) = true) ∧
    ((demoWaitTask "s0" false).Metadata.WaitForSynchronization
        = (demoWaitTask "s" true).Metadata.WaitForSynchronization →
      stopCombine (demoWaitTask "s0" false).Metadata (demoWaitTask "s" true) = false) ∧
    ((demoWaitTask "s0" false).Metadata.WaitForSynchronization
        ≠ (demoWaitTask "s" true).Metadata.WaitForSynchronization →
      ∀ (q : List Task) (t : Task), t.Metadata = (demoWaitTask "s0" false).Metadata →
        demoWaitTask "s" true ∉ fusedPeers q t (stopCombine t.Metadata)) :=
  ⟨by decide, by decide,
    C21_stop_predicate_synchronization_flags (demoWaitTask "s0" false).Metadata
      (demoWaitTask "s" true) (by decide) (by decide)⟩

theorem stopCombine_demo :
    stopCombine (demoWaitTask "s0" false).Metadata (demoWaitTask "s" true) = true ∧
    stopCombine (demoWaitTask "s0" true).Metadata (demoWaitTask "s" true) = false ∧
    CombineBindingContextForHook [demoWaitTask "s0" false, demoWaitTask "s" true]
        (demoWaitTask "s0" false) (stopCombine (demoWaitTask "s0" false).Metadata)
      = (none, [demoWaitTask "s0" false, demoWaitTask "s" true]) := by
  refine ⟨by decide, by decide, by rfl⟩

/-- C22, as stated, fails: for a handled Event task (empty `KubernetesBindingId`) the stop
predicate is false on a queued Synchronization task with `WaitForSynchronization` set, and
handling the first task of the queue of two Events, such a Synchronization task and one more
Event fuses all four: the handled task gets the four binding contexts, it alone stays in
the queue, and the synchronization of the removed task is marked done. -/
theorem C22_event_task_fuses_synchronization :
    (demoEventTask "e1").Metadata.KubernetesBindingId = "" ∧
    (demoWaitTask "s" true).Metadata.KubernetesBindingId ≠ "" ∧
    (demoWaitTask "s" true).Metadata.WaitForSynchronization = true ∧
    stopCombine (demoEventTask "e1").Metadata (demoWaitTask "s" true) = false ∧
    fusedPeers demoBarrierQueue (demoEventTask "e1") (stopCombine (demoEventTask "e1").Metadata)
      = [demoEventTask "e2", demoWaitTask "s" true, demoEventTask "e3"] ∧
    fusedPeers demoBarrierQueue (demoEventTask "e1") (stopCombine (demoEventTask "e1").Metadata)
      ≠ [demoEventTask "e2"] ∧
    (((TaskHandler_GlobalHookRun demoCombineEnv (withQueue {} "main" demoBarrierQueue)
        (demoEventTask "e1")).2.TaskQueues.Queues "main").map
      (fun q => q.map (fun tsk => (tsk.Id, tsk.Metadata.BindingContext.map
        (fun bc => bc.WatchEvent)))))
      = some [("e1", ["e1", "e2", "Synchronization", "e3"])] ∧
    (TaskHandler_GlobalHookRun demoCombineEnv (withQueue {} "main" demoBarrierQueue)
        (demoEventTask "e1")).2.calls = [Call.SynchronizationDone "k"] := by
  refine ⟨by decide, by decide, rfl, by decide, by rfl, ?_, by rfl, by rfl⟩
  have h : fusedPeers demoBarrierQueue (demoEventTask "e1")
      (stopCombine (demoEventTask "e1").Metadata)
      = [demoEventTask "e2", demoWaitTask "s" true, demoEventTask "e3"] := by rfl
  rw [h]
  intro hEq
  have hLen := congrArg List.length hEq
  simp at hLen

/-- C22, amended: for a handled task with an empty `KubernetesBindingId` the stop predicate
is false on every queued task, so it never ends the fusion: the fused peers are the whole
run of tasks of the same hook and binding kind that follow the handled task; the predicate
is true only for two Synchronization tasks with different flags. -/
theorem C22_event_task_never_stops_fusion (t tsk : Task)
    (hEvent : t.Metadata.KubernetesBindingId = "") :
    stopCombine t.Metadata tsk = false ∧
    (∀ (q : List Task), fusedPeers q t (stopCombine t.Metadata) =
      ((q.dropWhile (fun x => decide (x.Id ≠ t.Id))).drop 1).takeWhile (fun x =>
        decide (x.Metadata.HookName = t.Metadata.HookName) &&
          decide (x.Metadata.BindingType = t.Metadata.BindingType))) ∧
    ∀ (hm : HookMetadata), stopCombine hm tsk = true →
      hm.KubernetesBindingId ≠ "" ∧ tsk.Metadata.KubernetesBindingId ≠ "" ∧
        hm.WaitForSynchronization ≠ tsk.Metadata.WaitForSynchronization := by
  have hFalse : ∀ x : Task, stopCombine t.Metadata x = false := by
    intro x
    cases hS : stopCombine t.Metadata x with
    | false => rfl
    | true => exact absurd hEvent ((stopCombine_eq_true_iff t.Metadata x).1 hS).1
  refine ⟨hFalse tsk, ?_, fun hm hS => (stopCombine_eq_true_iff hm tsk).1 hS⟩
  intro q
  unfold fusedPeers
  congr 1
  funext x
  simp [hFalse x]

/-- C22, amended, at a concrete input: the handled Event task and the queued Synchronization
task of the counterexample. -/
theorem C22_event_task_never_stops_fusion_witness :
    (demoEventTask "e1").Metadata.KubernetesBindingId = "" ∧
    stopCombine (demoEventTask "e1").Metadata (demoWaitTask "s" true) = false ∧
    (∀ (q : List Task),
      fusedPeers q (demoEventTask "e1") (stopCombine (demoEventTask "e1").Metadata) =
        ((q.dropWhile (fun x => decide (x.Id ≠ (demoEventTask "e1").Id))).drop 1).takeWhile
          (fun x =>
            decide (x.Metadata.HookName = (demoEventTask "e1").Metadata.HookName) &&
              decide (x.Metadata.BindingType = (demoEventTask "e1").Metadata.BindingType))) ∧
    ∀ (hm : HookMetadata), stopCombine hm (demoWaitTask "s" true) = true →
      hm.KubernetesBindingId ≠ "" ∧ (demoWaitTask "s" true).Metadata.KubernetesBindingId ≠ "" ∧
        hm.WaitForSynchronization ≠ (demoWaitTask "s" true).Metadata.WaitForSynchronization :=
  ⟨by decide,
    C22_event_task_never_stops_fusion (demoEventTask "e1") (demoWaitTask "s" true)
      (by decide)⟩

end AddonOperator

namespace AddonOperator

/-! ## ModulesChanged events -/

theorem Filter_hasTask (moduleName : String) (q : List Task) :
    ∀ (hasTask : Bool),
      Filter (fun (hasTask : Bool) (t : Task) =>
        if t.taskType = TaskType.ModuleRun then
          if t.Metadata.ModuleName = moduleName then (true, true) else (true, hasTask)
        else
          (true, hasTask)) hasTask q
      = (q, hasTask || q.any (isModuleRunTaskOf moduleName)) := by
  induction q with
  | nil => intro hasTask; simp [Filter]
  | cons t rest ih =>
    intro hasTask
    unfold Filter
    by_cases hT : t.taskType = TaskType.ModuleRun
    · by_cases hM : t.Metadata.ModuleName = moduleName
      · simp [hT, hM, ih, isModuleRunTaskOf]
      · simp [hT, hM, ih, isModuleRunTaskOf]
    · simp [hT, ih, isModuleRunTaskOf]

theorem QueueHasModuleRunTask_eq (q : List Task) (moduleName : String) :
    QueueHasModuleRunTask q moduleName = (q.any (isModuleRunTaskOf moduleName), q) := by
  unfold QueueHasModuleRunTask
  simp [Filter_hasTask]

theorem queueModuleRunIfMissing_main (env : OperatorEnv) (op : Operator) (moduleName : String)
    (q : List Task) (hMain : GetMain op.TaskQueues = some q) :
    GetMain (queueModuleRunIfMissing env op moduleName).TaskQueues =
      some (if q.any (isModuleRunTaskOf moduleName) then q
        else q ++ [moduleValuesChangedTask env op.uuids moduleName]) := by
  unfold GetMain at hMain
  unfold queueModuleRunIfMissing
  simp only [QueueHasModuleRunTask_eq, queueTasks, hMain]
  by_cases hHas : q.any (isModuleRunTaskOf moduleName) = true
  · simp [hHas, GetMain, setQueue, hMain]
  · simp [hHas, GetMain, setQueue, hMain, NewTask, AddLast, queueTasks, moduleValuesChangedTask]
theorem any_isModuleRunTaskOf_iff (q : List Task) (moduleName : String) :
    q.any (isModuleRunTaskOf moduleName) = true ↔
      ∃ t ∈ q, t.taskType = TaskType.ModuleRun ∧ t.Metadata.ModuleName = moduleName := by
  simp [List.any_eq_true, isModuleRunTaskOf]

theorem foldl_queueModuleRunIfMissing (env : OperatorEnv) (ms : List String) :
    ∀ (op : Operator) (q : List Task), GetMain op.TaskQueues = some q →
      ∃ added,
        GetMain (ms.foldl (queueModuleRunIfMissing env) op).TaskQueues = some (q ++ added) ∧
        (∀ t ∈ added, t.taskType = TaskType.ModuleRun ∧ t.QueueName = "main" ∧
          t.Metadata.EventDescription = "ModuleValuesChanged" ∧ t.Metadata.ModuleName ∈ ms) ∧
        ∀ m, added.countP (isModuleRunTaskOf m) =
          if m ∈ ms ∧ q.any (isModuleRunTaskOf m) = false then 1 else 0 := by
  induction ms with
  | nil =>
    intro op q hMain
    exact ⟨[], by simpa using hMain, by simp, by simp⟩
  | cons a rest ih =>
    intro op q hMain
    have h1 := queueModuleRunIfMissing_main env op a q hMain
    rw [List.foldl_cons]
    by_cases hHas : q.any (isModuleRunTaskOf a) = true
    · rw [if_pos hHas] at h1
      obtain ⟨added, hQ, hAll, hCount⟩ := ih _ q h1
      refine ⟨added, hQ, ?_, ?_⟩
      · intro t ht
        obtain ⟨h1, h2, h3, h4⟩ := hAll t ht
        exact ⟨h1, h2, h3, List.mem_cons_of_mem _ h4⟩
      · intro m
        rw [hCount m]
        by_cases hm : m = a
        · subst hm
          simp [hHas]
        · simp [hm]
    · rw [if_neg hHas] at h1
      obtain ⟨added, hQ, hAll, hCount⟩ := ih _ _ h1
      refine ⟨moduleValuesChangedTask env op.uuids a :: added, by simpa using hQ, ?_, ?_⟩
      · intro t ht
        rcases List.mem_cons.mp ht with ht | ht
        · subst ht
          exact ⟨rfl, rfl, rfl, List.mem_cons_self _ _⟩
        · obtain ⟨h1, h2, h3, h4⟩ := hAll t ht
          exact ⟨h1, h2, h3, List.mem_cons_of_mem _ h4⟩
      · intro m
        have hFalse : q.any (isModuleRunTaskOf a) = false := by
          cases hq : q.any (isModuleRunTaskOf a) with
          | false => rfl
          | true => exact absurd hq hHas
        rw [List.countP_cons, hCount m]
        by_cases hm : m = a
        · subst hm
          simp [hFalse, isModuleRunTaskOf, moduleValuesChangedTask]
        · have hNe : ¬ a = m := fun h => hm h.symm
          simp [hm, hNe, isModuleRunTaskOf, moduleValuesChangedTask]

/-- C25: on a ModulesChanged event, when the main queue exists, tasks are only appended to
its tail, each a ModuleRun task for the queue `main` of a module named in the event; for
every module, one such task is appended if and only if the module is named in the event and
the main queue held no ModuleRun task of that name, so the number of ModuleRun tasks of the
module grows by at most one, however often the event names it. `QueueHasModuleRunTask`
leaves the queue as it is and returns true exactly when the queue has such a task. -/
theorem C25_modules_changed_queues_missing_module_runs (env : OperatorEnv) (op : Operator)
    (moduleEvent : ModuleEvent) (q : List Task)
    (hType : moduleEvent.EventType = ModuleEventType.ModulesChanged)
    (hMain : GetMain op.TaskQueues = some q) :
    (∀ m, (QueueHasModuleRunTask q m).2 = q ∧
      ((QueueHasModuleRunTask q m).1 = true ↔
        ∃ t ∈ q, t.taskType = TaskType.ModuleRun ∧ t.Metadata.ModuleName = m)) ∧
    ∃ added,
      GetMain (handleModuleManagerEvent env op moduleEvent).TaskQueues = some (q ++ added) ∧
      (∀ t ∈ added, t.taskType = TaskType.ModuleRun ∧ t.QueueName = "main" ∧
        t.Metadata.EventDescription = "ModuleValuesChanged" ∧
        t.Metadata.ModuleName ∈ moduleEvent.ModulesChanges) ∧
      (∀ m, (added.filter (fun t => decide (t.Metadata.ModuleName = m))).length =
        if m ∈ moduleEvent.ModulesChanges ∧
            ¬ ∃ t ∈ q, t.taskType = TaskType.ModuleRun ∧ t.Metadata.ModuleName = m
        then 1 else 0) ∧
      ∀ m, (q ++ added).countP (isModuleRunTaskOf m) ≤ q.countP (isModuleRunTaskOf m) + 1 := by
  refine ⟨?_, ?_⟩
  · intro m
    rw [QueueHasModuleRunTask_eq]
    exact ⟨rfl, any_isModuleRunTaskOf_iff q m⟩
  · have hMain' : GetMain ({ op with uuids := op.uuids + 1 } : Operator).TaskQueues = some q :=
      hMain
    obtain ⟨added, hQ, hAll, hCount⟩ :=
      foldl_queueModuleRunIfMissing env moduleEvent.ModulesChanges _ q hMain'
    have hCount' : ∀ m, added.countP (isModuleRunTaskOf m) =
        if m ∈ moduleEvent.ModulesChanges ∧
            ¬ ∃ t ∈ q, t.taskType = TaskType.ModuleRun ∧ t.Metadata.ModuleName = m
        then 1 else 0 := by
      intro m
      rw [hCount m]
      have hIff := any_isModuleRunTaskOf_iff q m
      by_cases hAny : q.any (isModuleRunTaskOf m) = true
      · have hEx := hIff.1 hAny
        simp [hAny, hEx]
      · have hEx : ¬ ∃ t ∈ q, t.taskType = TaskType.ModuleRun ∧ t.Metadata.ModuleName = m :=
          fun h => hAny (hIff.2 h)
        have hFalse : q.any (isModuleRunTaskOf m) = false := by
          cases hq : q.any (isModuleRunTaskOf m) with
          | false => rfl
          | true => exact absurd hq hAny
        simp only [hFalse, hEx, not_false_eq_true, and_true]
    refine ⟨added, ?_, hAll, ?_, ?_⟩
    · unfold handleModuleManagerEvent
      simp only [hType]
      exact hQ
    · intro m
      rw [← hCount' m, List.countP_eq_length_filter]
      congr 1
      apply List.filter_congr
      intro t ht
      simp [isModuleRunTaskOf, (hAll t ht).1]
    · intro m
      rw [List.countP_append, hCount' m]
      split <;> omega

/-- C25 at a concrete input: the main queue holds one hook run and the event names the
module `a` twice and the module `b` once. -/
theorem C25_modules_changed_queues_missing_module_runs_witness :
    GetMain demoMainOperator.TaskQueues = some [demoScheduleTask] ∧
    (∀ m, (QueueHasModuleRunTask [demoScheduleTask] m).2 = [demoScheduleTask] ∧
      ((QueueHasModuleRunTask [demoScheduleTask] m).1 = true ↔
        ∃ t ∈ [demoScheduleTask], t.taskType = TaskType.ModuleRun ∧
          t.Metadata.ModuleName = m)) ∧
    ∃ added,
      GetMain (handleModuleManagerEvent demoOperatorEnv demoMainOperator
          (ModuleEvent.mk ModuleEventType.ModulesChanged ["a", "a", "b"])).TaskQueues
        = some ([demoScheduleTask] ++ added) ∧
      (∀ t ∈ added, t.taskType = TaskType.ModuleRun ∧ t.QueueName = "main" ∧
        t.Metadata.EventDescription = "ModuleValuesChanged" ∧
        t.Metadata.ModuleName ∈
          (ModuleEvent.mk ModuleEventType.ModulesChanged ["a", "a", "b"]).ModulesChanges) ∧
      (∀ m, (added.filter (fun t => decide (t.Metadata.ModuleName = m))).length =
        if m ∈ (ModuleEvent.mk ModuleEventType.ModulesChanged ["a", "a", "b"]).ModulesChanges ∧
            ¬ ∃ t ∈ [demoScheduleTask], t.taskType = TaskType.ModuleRun ∧
              t.Metadata.ModuleName = m
        then 1 else 0) ∧
      ∀ m, ([demoScheduleTask] ++ added).countP (isModuleRunTaskOf m)
        ≤ [demoScheduleTask].countP (isModuleRunTaskOf m) + 1 :=
  ⟨rfl,
    C25_modules_changed_queues_missing_module_runs demoOperatorEnv demoMainOperator
      (ModuleEvent.mk ModuleEventType.ModulesChanged ["a", "a", "b"]) [demoScheduleTask]
      rfl rfl⟩

theorem handleModuleManagerEvent_modulesChanged_demo :
    GetMain (handleModuleManagerEvent demoOperatorEnv demoMainOperator
        (ModuleEvent.mk ModuleEventType.ModulesChanged ["a", "a", "b"])).TaskQueues
      = some [demoScheduleTask, moduleValuesChangedTask demoOperatorEnv 1 "a",
          moduleValuesChangedTask demoOperatorEnv 2 "b"] := by
  rfl

end AddonOperator

namespace AddonOperator

/-! ## The converge status -/

theorem CheckConvergeStatus_flags (op : Operator) :
    (CheckConvergeStatus op).StartupConvergeStarted =
      (op.StartupConvergeStarted || decide (MainQueueHasConvergeTasks op > 0)) ∧
    (CheckConvergeStatus op).StartupConvergeDone =
      (op.StartupConvergeDone ||
        (op.StartupConvergeStarted && decide (MainQueueHasConvergeTasks op = 0))) ∧
    (CheckConvergeStatus op).TaskQueues = op.TaskQueues := by
  unfold CheckConvergeStatus
  by_cases hc : MainQueueHasConvergeTasks op = 0
  · cases hS : op.StartupConvergeStarted <;> cases hD : op.StartupConvergeDone <;>
      simp [hc, hS, hD, Operator.call]
  · have hPos : MainQueueHasConvergeTasks op > 0 := Nat.pos_of_ne_zero hc
    cases hS : op.StartupConvergeStarted <;> cases hD : op.StartupConvergeDone <;>
      simp [hc, hPos, hS, hD, Operator.call]

theorem MainQueueHasConvergeTasks_queues (op : Operator) (tqs : TaskQueueSet) :
    MainQueueHasConvergeTasks { op with TaskQueues := tqs } =
      MainQueueHasConvergeTasks { TaskQueues := tqs } := rfl

theorem checkConvergeStatusCalls_append (op : Operator) (pre post : List TaskQueueSet) :
    checkConvergeStatusCalls op (pre ++ post) =
      checkConvergeStatusCalls (checkConvergeStatusCalls op pre) post := by
  simp [checkConvergeStatusCalls, List.foldl_append]

theorem checkConvergeStatusCalls_invariant (steps : List TaskQueueSet) :
    ∀ (op : Operator),
      (op.StartupConvergeDone = true → op.StartupConvergeStarted = true) →
      ((checkConvergeStatusCalls op steps).StartupConvergeDone = true →
        (checkConvergeStatusCalls op steps).StartupConvergeStarted = true) := by
  induction steps with
  | nil => intro op h; exact h
  | cons s rest ih =>
    intro op h
    apply ih (CheckConvergeStatus { op with TaskQueues := s })
    obtain ⟨hS, hD, _⟩ := CheckConvergeStatus_flags { op with TaskQueues := s }
    rw [hS, hD]
    intro hDone
    cases hd : op.StartupConvergeDone with
    | true => simp [h hd]
    | false =>
      simp only [hd, Bool.false_or, Bool.and_eq_true] at hDone
      simp [hDone.1]

theorem checkConvergeStatusCalls_monotone (steps : List TaskQueueSet) :
    ∀ (op : Operator),
      (op.StartupConvergeStarted = true →
        (checkConvergeStatusCalls op steps).StartupConvergeStarted = true) ∧
      (op.StartupConvergeDone = true →
        (checkConvergeStatusCalls op steps).StartupConvergeDone = true) := by
  induction steps with
  | nil => intro op; exact ⟨fun h => h, fun h => h⟩
  | cons s rest ih =>
    intro op
    obtain ⟨hS, hD, _⟩ := CheckConvergeStatus_flags { op with TaskQueues := s }
    obtain ⟨ihS, ihD⟩ := ih (CheckConvergeStatus { op with TaskQueues := s })
    constructor
    · intro h
      apply ihS
      rw [hS]
      simp [h]
    · intro h
      apply ihD
      rw [hD]
      simp [h]

theorem checkConvergeStatusCalls_idle (steps : List TaskQueueSet) :
    ∀ (op : Operator),
      op.StartupConvergeStarted = false → op.StartupConvergeDone = false →
      (∀ tqs ∈ steps, MainQueueHasConvergeTasks { TaskQueues := tqs } = 0) →
      (checkConvergeStatusCalls op steps).StartupConvergeStarted = false ∧
        (checkConvergeStatusCalls op steps).StartupConvergeDone = false := by
  induction steps with
  | nil => intro op hS hD _; exact ⟨hS, hD⟩
  | cons s rest ih =>
    intro op hS hD hAll
    obtain ⟨hS1, hD1, _⟩ := CheckConvergeStatus_flags { op with TaskQueues := s }
    have h0 := hAll s (List.mem_cons_self _ _)
    rw [← MainQueueHasConvergeTasks_queues op s] at h0
    apply ih (CheckConvergeStatus { op with TaskQueues := s })
    · rw [hS1, h0]
      simpa using hS
    · rw [hD1]
      simp only [Bool.or_eq_false_iff, Bool.and_eq_false_imp]
      exact ⟨hD, fun h => by rw [hS] at h; cases h⟩
    · intro tqs hMem
      exact hAll tqs (List.mem_cons_of_mem _ hMem)

/-- C26: one call of `CheckConvergeStatus` sets `StartupConvergeStarted` to its old value or
`count > 0`, and `StartupConvergeDone` to its old value or (`StartupConvergeStarted` and
`count = 0`), for the number `count` of converge tasks of the main queue. Starting from both
flags false, after every sequence of calls Done implies Started, a flag that is set stays
set in every longer sequence, and as long as every call sees `count = 0` both flags stay
false. -/
theorem C26_converge_flags (op0 : Operator) (pre post : List TaskQueueSet)
    (hStarted : op0.StartupConvergeStarted = false)
    (hDone : op0.StartupConvergeDone = false) :
    (∀ op : Operator,
      (CheckConvergeStatus op).StartupConvergeStarted =
        (op.StartupConvergeStarted || decide (MainQueueHasConvergeTasks op > 0)) ∧
      (CheckConvergeStatus op).StartupConvergeDone =
        (op.StartupConvergeDone ||
          (op.StartupConvergeStarted && decide (MainQueueHasConvergeTasks op = 0)))) ∧
    ((checkConvergeStatusCalls op0 pre).StartupConvergeDone = true →
      (checkConvergeStatusCalls op0 pre).StartupConvergeStarted = true) ∧
    ((checkConvergeStatusCalls op0 pre).StartupConvergeStarted = true →
      (checkConvergeStatusCalls op0 (pre ++ post)).StartupConvergeStarted = true) ∧
    ((checkConvergeStatusCalls op0 pre).StartupConvergeDone = true →
      (checkConvergeStatusCalls op0 (pre ++ post)).StartupConvergeDone = true) ∧
    ((∀ tqs ∈ pre, MainQueueHasConvergeTasks { TaskQueues := tqs } = 0) →
      (checkConvergeStatusCalls op0 pre).StartupConvergeStarted = false ∧
        (checkConvergeStatusCalls op0 pre).StartupConvergeDone = false) := by
  refine ⟨fun op => ⟨(CheckConvergeStatus_flags op).1, (CheckConvergeStatus_flags op).2.1⟩,
    ?_, ?_, ?_, ?_⟩
  · exact checkConvergeStatusCalls_invariant pre op0 (fun h => by rw [hDone] at h; cases h)
  · rw [checkConvergeStatusCalls_append]
    exact (checkConvergeStatusCalls_monotone post _).1
  · rw [checkConvergeStatusCalls_append]
    exact (checkConvergeStatusCalls_monotone post _).2
  · exact checkConvergeStatusCalls_idle pre op0 hStarted hDone

/-- C26 at a concrete input: an empty main queue, then one with a ReloadAllModules task,
then an empty one again. -/
theorem C26_converge_flags_witness :
    ({} : Operator).StartupConvergeStarted = false ∧
    ({} : Operator).StartupConvergeDone = false ∧
    (∀ op : Operator,
      (CheckConvergeStatus op).StartupConvergeStarted =
        (op.StartupConvergeStarted || decide (MainQueueHasConvergeTasks op > 0)) ∧
      (CheckConvergeStatus op).StartupConvergeDone =
        (op.StartupConvergeDone ||
          (op.StartupConvergeStarted && decide (MainQueueHasConvergeTasks op = 0)))) ∧
    ((checkConvergeStatusCalls {} [mainQueueOf [], mainQueueOf [demoReloadTask]]
        ).StartupConvergeDone = true →
      (checkConvergeStatusCalls {} [mainQueueOf [], mainQueueOf [demoReloadTask]]
        ).StartupConvergeStarted = true) ∧
    ((checkConvergeStatusCalls {} [mainQueueOf [], mainQueueOf [demoReloadTask]]
        ).StartupConvergeStarted = true →
      (checkConvergeStatusCalls {}
        ([mainQueueOf [], mainQueueOf [demoReloadTask]] ++ [mainQueueOf []])
        ).StartupConvergeStarted = true) ∧
    ((checkConvergeStatusCalls {} [mainQueueOf [], mainQueueOf [demoReloadTask]]
        ).StartupConvergeDone = true →
      (checkConvergeStatusCalls {}
        ([mainQueueOf [], mainQueueOf [demoReloadTask]] ++ [mainQueueOf []])
        ).StartupConvergeDone = true) ∧
    ((∀ tqs ∈ [mainQueueOf [], mainQueueOf [demoReloadTask]],
        MainQueueHasConvergeTasks { TaskQueues := tqs } = 0) →
      (checkConvergeStatusCalls {} [mainQueueOf [], mainQueueOf [demoReloadTask]]
        ).StartupConvergeStarted = false ∧
      (checkConvergeStatusCalls {} [mainQueueOf [], mainQueueOf [demoReloadTask]]
        ).StartupConvergeDone = false) :=
  ⟨rfl, rfl,
    C26_converge_flags {} [mainQueueOf [], mainQueueOf [demoReloadTask]] [mainQueueOf []]
      rfl rfl⟩

theorem checkConvergeStatusCalls_demo :
    (checkConvergeStatusCalls {} [mainQueueOf []]).StartupConvergeDone = false ∧
    (checkConvergeStatusCalls {} [mainQueueOf [], mainQueueOf [demoReloadTask]]
      ).StartupConvergeStarted = true ∧
    (checkConvergeStatusCalls {} [mainQueueOf [], mainQueueOf [demoReloadTask]]
      ).StartupConvergeDone = false ∧
    (checkConvergeStatusCalls {} [mainQueueOf [], mainQueueOf [demoReloadTask], mainQueueOf []]
      ).StartupConvergeDone = true ∧
    (checkConvergeStatusCalls {} [mainQueueOf [], mainQueueOf [demoReloadTask], mainQueueOf []]
      ).calls = [Call.SetReapLocked false] := by
  refine ⟨by rfl, by rfl, by rfl, by rfl, by rfl⟩

end AddonOperator

namespace ModuleManager

/-! ## A module run -/

theorem Module.run_demo :
    demoModule.run demoRunEnv =
      (some "exit status 1",
        [Effect.HelmDeleteSingleFailedRevision "web",
          Effect.HookRun "before-1" BindingType.BeforeHelm,
          Effect.HookRun "before-2" BindingType.BeforeHelm]) ∧
    demoModule.run { demoRunEnv with hookRun := fun _ _ => none } =
      (none,
        [Effect.HelmDeleteSingleFailedRevision "web",
          Effect.HookRun "before-1" BindingType.BeforeHelm,
          Effect.HookRun "before-2" BindingType.BeforeHelm,
          Effect.DumpValuesYaml "web.yaml",
          Effect.HelmUpgrade "modules/010-web" "web" "tmp/web.yaml",
          Effect.HookRun "after-1" BindingType.AfterHelm]) ∧
    demoModule.run
        { demoRunEnv with
          hookRun := fun _ _ => none
          execHelmUpgrade := fun _ _ _ => some "exit status 2" } =
      (some "module 'web': helm FAILED: exit status 2",
        [Effect.HelmDeleteSingleFailedRevision "web",
          Effect.HookRun "before-1" BindingType.BeforeHelm,
          Effect.HookRun "before-2" BindingType.BeforeHelm,
          Effect.DumpValuesYaml "web.yaml",
          Effect.HelmUpgrade "modules/010-web" "web" "tmp/web.yaml"]) := by
  refine ⟨by rfl, by rfl, by rfl⟩

theorem Module.run_lookup_error (env : RunEnv) (m : Module) (err : String)
    (hPrune : (m.cleanup env).1 = none)
    (hBefore : env.GetModuleHooksInOrder m.Name BindingType.BeforeHelm = .error err) :
    m.run env = (some err, (m.cleanup env).2) := by
  simp [Module.run, hPrune, hBefore]

end ModuleManager

namespace ModuleManager

/-! ## The index of the modules -/

theorem validModuleName_eq_some (d n : String) (h : validModuleName d = some n) :
    ∃ c0 c1 c2 rest, d.toList = c0 :: c1 :: c2 :: '-' :: rest ∧
      c0.isDigit = true ∧ c1.isDigit = true ∧ c2.isDigit = true ∧
      Char.ofNat 10 ∉ rest ∧ n = String.mk rest := by
  unfold validModuleName at h
  split at h
  · rename_i c0 c1 c2 c3 rest hList
    split at h
    · rename_i hCond
      simp only [Bool.and_eq_true, beq_iff_eq, List.all_eq_true, bne_iff_ne, ne_eq] at hCond
      obtain ⟨⟨⟨⟨h0, h1⟩, h2⟩, h3⟩, hAll⟩ := hCond
      subst h3
      refine ⟨c0, c1, c2, rest, hList, h0, h1, h2, fun hMem => hAll _ hMem rfl, ?_⟩
      simpa using h.symm
    · simp at h
  · simp at h

theorem validModuleName_of_toList (d : String) (c0 c1 c2 : Char) (rest : List Char)
    (hList : d.toList = c0 :: c1 :: c2 :: '-' :: rest)
    (h0 : c0.isDigit = true) (h1 : c1.isDigit = true) (h2 : c2.isDigit = true)
    (hRest : Char.ofNat 10 ∉ rest) :
    validModuleName d = some (String.mk rest) := by
  unfold validModuleName
  rw [hList]
  have hAll : rest.all (fun c => c != Char.ofNat 10) = true := by
    simp only [List.all_eq_true, bne_iff_ne, ne_eq]
    intro c hc hEq
    exact hRest (hEq ▸ hc)
  simp [h0, h1, h2, hAll]

theorem validModuleName_toList (d n : String) (h : validModuleName d = some n) :
    n.toList = d.toList.drop 4 := by
  obtain ⟨c0, c1, c2, rest, hList, _, _, _, _, hn⟩ := validModuleName_eq_some d n h
  rw [hn, hList]
  rfl

theorem validModuleName_eq_moduleNameOf (file : FileInfo) (n : String)
    (h : validModuleName file.Name = some n) : n = moduleNameOf file := by
  obtain ⟨c0, c1, c2, rest, hList, _, _, _, _, hn⟩ := validModuleName_eq_some file.Name n h
  rw [hn, moduleNameOf, hList]
  rfl

theorem matchesSpecPattern_iff (d : String) :
    matchesSpecPattern d = true ↔
      ∃ n, validModuleName d = some n ∧ n ≠ "" := by
  constructor
  · intro h
    unfold matchesSpecPattern at h
    split at h
    · rename_i c0 c1 c2 c3 c4 rest hList
      simp only [Bool.and_eq_true, beq_iff_eq, List.all_eq_true, bne_iff_ne, ne_eq] at h
      obtain ⟨⟨⟨⟨h0, h1⟩, h2⟩, h3⟩, hAll⟩ := h
      subst h3
      refine ⟨String.mk (c4 :: rest), ?_, ?_⟩
      · exact validModuleName_of_toList d c0 c1 c2 (c4 :: rest) hList h0 h1 h2
          (fun hMem => hAll _ hMem rfl)
      · intro hEq
        have := congrArg String.data hEq
        simp at this
    · simp at h
  · rintro ⟨n, hn, hne⟩
    obtain ⟨c0, c1, c2, rest, hList, h0, h1, h2, hRest, hEq⟩ := validModuleName_eq_some d n hn
    cases rest with
    | nil => exact absurd hEq hne
    | cons c4 rest =>
      unfold matchesSpecPattern
      rw [hList]
      have hAll : (c4 :: rest).all (fun c => c != Char.ofNat 10) = true := by
        simp only [List.all_eq_true, bne_iff_ne, ne_eq]
        intro c hc hEq
        exact hRest (hEq ▸ hc)
      simp only [h0, h1, h2, hAll, beq_self_eq_true, Bool.and_self]

theorem indexModules_spec (env : IndexEnv) (modulesDir : String)
    (hHooks : ∀ module hooks, ∃ h, env.initModuleHooks module hooks = .ok h) :
    ∀ (files : List FileInfo) (mm : MainModuleManager) (bad : List String),
      (∀ f ∈ files, ∃ c, getModuleConfig env (env.Join modulesDir f.Name) = .ok c) →
      (indexModules env modulesDir files mm bad).1 = none ∧
      (indexModules env modulesDir files mm bad).2.1.allModuleNamesInOrder =
        mm.allModuleNamesInOrder ++ (files.filter (registers env modulesDir)).map moduleNameOf ∧
      (indexModules env modulesDir files mm bad).2.2 =
        bad ++ (files.filter (fun f => f.IsDir && (validModuleName f.Name).isNone)).map
          (fun f => env.Join modulesDir f.Name) ∧
      (∀ n, n ∉ (files.filter (registers env modulesDir)).map moduleNameOf →
        (indexModules env modulesDir files mm bad).2.1.modulesByName n = mm.modulesByName n) ∧
      (∀ n, n ∈ (files.filter (registers env modulesDir)).map moduleNameOf →
        ∃ module, (indexModules env modulesDir files mm bad).2.1.modulesByName n = some module ∧
          module.Name = n) := by
  intro files
  induction files with
  | nil =>
    intro mm bad _
    simp [indexModules]
  | cons file rest ih =>
    intro mm bad hCfg
    have hRest : ∀ f ∈ rest, ∃ c, getModuleConfig env (env.Join modulesDir f.Name) = .ok c :=
      fun f hf => hCfg f (List.mem_cons_of_mem _ hf)
    obtain ⟨c, hc⟩ := hCfg file (List.mem_cons_self _ _)
    cases hDir : file.IsDir with
    | false =>
      have hReg : registers env modulesDir file = false := by simp [registers, hDir]
      have hStep : indexModules env modulesDir (file :: rest) mm bad =
          indexModules env modulesDir rest mm bad := by
        simp [indexModules, hDir]
      rw [hStep]
      simpa [List.filter_cons, hReg, hDir] using ih mm bad hRest
    | true =>
      cases hValid : validModuleName file.Name with
      | none =>
        have hReg : registers env modulesDir file = false := by
          simp [registers, hDir, hValid]
        have hStep : indexModules env modulesDir (file :: rest) mm bad =
            indexModules env modulesDir rest mm (bad ++ [env.Join modulesDir file.Name]) := by
          simp [indexModules, hDir, hValid]
        rw [hStep]
        simpa [List.filter_cons, hReg, hDir, hValid] using
          ih mm (bad ++ [env.Join modulesDir file.Name]) hRest
      | some moduleName =>
        have hName := validModuleName_eq_moduleNameOf file moduleName hValid
        cases hEnabled : c.all (fun c => c.IsEnabled) with
        | false =>
          have hReg : registers env modulesDir file = false := by
            simp [registers, hDir, hValid, hc, hEnabled]
          have hStep : indexModules env modulesDir (file :: rest) mm bad =
              indexModules env modulesDir rest mm bad := by
            simp [indexModules, hDir, hValid, hc, hEnabled]
          rw [hStep]
          simpa [List.filter_cons, hReg, hDir, hValid] using ih mm bad hRest
        | true =>
          have hReg : registers env modulesDir file = true := by
            simp [registers, hDir, hValid, hc, hEnabled]
          obtain ⟨h, hh⟩ := hHooks
            (Module.mk moduleName file.Name (env.Join modulesDir file.Name))
            (registerModule mm (Module.mk moduleName file.Name (env.Join modulesDir file.Name))
              c).hooks
          obtain ⟨mm1, hAll1, hBy1, hStep⟩ : ∃ mm1 : MainModuleManager,
              mm1.allModuleNamesInOrder = mm.allModuleNamesInOrder ++ [moduleName] ∧
              (∀ n, mm1.modulesByName n =
                if n = moduleName then
                  some (Module.mk moduleName file.Name (env.Join modulesDir file.Name))
                else mm.modulesByName n) ∧
              indexModules env modulesDir (file :: rest) mm bad =
                indexModules env modulesDir rest mm1 bad := by
            refine ⟨MainModuleManager.mk
              (registerModule mm (Module.mk moduleName file.Name
                (env.Join modulesDir file.Name)) c).modulesByName h
              (registerModule mm (Module.mk moduleName file.Name
                (env.Join modulesDir file.Name)) c).allModuleNamesInOrder
              (registerModule mm (Module.mk moduleName file.Name
                (env.Join modulesDir file.Name)) c).globalConfigValues
              (registerModule mm (Module.mk moduleName file.Name
                (env.Join modulesDir file.Name)) c).globalModulesConfigValues
              (registerModule mm (Module.mk moduleName file.Name
                (env.Join modulesDir file.Name)) c).modulesDynamicValues, ?_, ?_, ?_⟩
            · cases c <;> rfl
            · intro n
              cases c <;> rfl
            · simp [indexModules, hDir, hValid, hc, hEnabled, hh]
          rw [hStep]
          obtain ⟨i1, i2, i3, i4, i5⟩ := ih mm1 bad hRest
          rw [hName] at hAll1 hBy1
          refine ⟨i1, ?_, ?_, ?_, ?_⟩
          · rw [i2, hAll1]
            simp [List.filter_cons, hReg]
          · rw [i3]
            simp [List.filter_cons, hDir, hValid]
          · intro n hn
            simp only [List.filter_cons, hReg, if_true, List.map_cons, List.mem_cons,
              not_or] at hn
            rw [i4 n hn.2, hBy1 n, if_neg hn.1]
          · intro n hn
            simp only [List.filter_cons, hReg, if_true, List.map_cons, List.mem_cons] at hn
            by_cases hIn : n ∈ (rest.filter (registers env modulesDir)).map moduleNameOf
            · exact i5 n hIn
            · rcases hn with hn | hn
              · rw [i4 n hIn, hBy1 n, if_pos hn]
                exact ⟨_, rfl, hn.symm⟩
              · exact absurd hn hIn

theorem initModulesIndex_spec (env : IndexEnv) (mm : MainModuleManager)
    (files : List FileInfo)
    (hRead : env.ReadDir (env.Join env.WorkingDir "modules") = .ok files)
    (hGlobal : ∃ values, readModulesValues env = .ok values)
    (hCfg : ∀ f ∈ files, ∃ c,
      getModuleConfig env (env.Join (env.Join env.WorkingDir "modules") f.Name) = .ok c)
    (hHooks : ∀ module hooks, ∃ h, env.initModuleHooks module hooks = .ok h) :
    (initModulesIndex env mm).2.allModuleNamesInOrder =
      mm.allModuleNamesInOrder ++
        (files.filter (registers env (env.Join env.WorkingDir "modules"))).map moduleNameOf ∧
    (∀ n, (∃ module, (initModulesIndex env mm).2.modulesByName n = some module) ↔
      n ∈ (files.filter (registers env (env.Join env.WorkingDir "modules"))).map
        moduleNameOf) ∧
    ((initModulesIndex env mm).1 = none ↔
      ∀ f ∈ files, f.IsDir = true → (validModuleName f.Name).isSome = true) := by
  obtain ⟨values, hValues⟩ := hGlobal
  obtain ⟨i1, i2, i3, i4, i5⟩ := indexModules_spec env (env.Join env.WorkingDir "modules")
    hHooks files
    { modulesByName := fun _ => none, hooks := [],
      allModuleNamesInOrder := mm.allModuleNamesInOrder,
      globalConfigValues := values,
      globalModulesConfigValues := mm.globalModulesConfigValues,
      modulesDynamicValues := fun _ => none } [] hCfg
  have hRun : initModulesIndex env mm =
      (if (indexModules env (env.Join env.WorkingDir "modules") files
            { modulesByName := fun _ => none, hooks := [],
              allModuleNamesInOrder := mm.allModuleNamesInOrder,
              globalConfigValues := values,
              globalModulesConfigValues := mm.globalModulesConfigValues,
              modulesDynamicValues := fun _ => none } []).2.2.length > 0 then
          some ("bad module directory names, must match regex '"
            ++ "^[0-9][0-9][0-9]-(.*)$" ++ "': " ++ ", ".intercalate
              (indexModules env (env.Join env.WorkingDir "modules") files
                { modulesByName := fun _ => none, hooks := [],
                  allModuleNamesInOrder := mm.allModuleNamesInOrder,
                  globalConfigValues := values,
                  globalModulesConfigValues := mm.globalModulesConfigValues,
                  modulesDynamicValues := fun _ => none } []).2.2)
        else none,
        (indexModules env (env.Join env.WorkingDir "modules") files
          { modulesByName := fun _ => none, hooks := [],
            allModuleNamesInOrder := mm.allModuleNamesInOrder,
            globalConfigValues := values,
            globalModulesConfigValues := mm.globalModulesConfigValues,
            modulesDynamicValues := fun _ => none } []).2.1) := by
    unfold initModulesIndex
    simp only [hRead, setGlobalConfigValues, hValues, i1]
    split <;> rfl
  rw [hRun]
  refine ⟨i2, ?_, ?_⟩
  · intro n
    constructor
    · rintro ⟨module, hModule⟩
      by_contra hNot
      rw [i4 n hNot] at hModule
      cases hModule
    · intro hn
      obtain ⟨module, hModule, _⟩ := i5 n hn
      exact ⟨module, hModule⟩
  · simp only [i3, List.nil_append, List.length_map]
    constructor
    · intro h f hf hDir
      by_contra hNone
      have hMem : f ∈ files.filter (fun f => f.IsDir && (validModuleName f.Name).isNone) := by
        simp only [List.mem_filter, Bool.and_eq_true]
        refine ⟨hf, hDir, ?_⟩
        cases hv : validModuleName f.Name with
        | none => rfl
        | some n => rw [hv] at hNone; exact absurd rfl hNone
      have hPos := List.length_pos_of_mem hMem
      simp [hPos] at h
    · intro h
      have hNil : files.filter (fun f => f.IsDir && (validModuleName f.Name).isNone) = [] := by
        rw [List.filter_eq_nil_iff]
        intro f hf
        cases hDir : f.IsDir with
        | false => simp
        | true =>
          have := h f hf hDir
          cases hv : validModuleName f.Name with
          | none => rw [hv] at this; cases this
          | some n => simp
      simp [hNil]

theorem registers_iff (env : IndexEnv) (modulesDir : String) (file : FileInfo) :
    registers env modulesDir file = true ↔
      file.IsDir = true ∧ (validModuleName file.Name).isSome = true ∧
        (getModuleConfig env (env.Join modulesDir file.Name) = .ok none ∨
          ∃ cfg, getModuleConfig env (env.Join modulesDir file.Name) = .ok (some cfg) ∧
            cfg.IsEnabled = true) := by
  unfold registers
  cases hc : getModuleConfig env (env.Join modulesDir file.Name) with
  | error err => simp
  | ok c =>
    cases c with
    | none => simp
    | some cfg => simp [and_assoc]

/-- C23, as stated, fails: the directory `000-` does not match the pattern of the spec, with
its non-empty name, and is registered, as the module of the empty name; the directory
`020-off` matches the pattern and is not registered, its values disable it. -/
theorem C23_index_accepts_empty_name :
    matchesSpecPattern "000-" = false ∧
    matchesSpecPattern "020-off" = true ∧
    (initModulesIndex (demoIndexEnv demoListing) {}).1 = none ∧
    (initModulesIndex (demoIndexEnv demoListing) {}).2.allModuleNamesInOrder = ["", "web"] ∧
    (initModulesIndex (demoIndexEnv demoListing) {}).2.modulesByName "" =
      some { Name := "", DirectoryName := "000-", Path := "work/modules/000-" } ∧
    (initModulesIndex (demoIndexEnv demoListing) {}).2.modulesByName "off" = none := by
  refine ⟨by rfl, by rfl, by rfl, by rfl, by rfl, by rfl⟩

/-- C23, amended: a directory name is accepted by the pattern of the code if and only if it
is three decimal digits, a dash and a name without newline that may be empty (the pattern of
the spec is the same with a non-empty name), and the module name is the directory name
without its first four characters. When the listing, the global values, the module configs
and the hooks are read without error, the entries registered are the directories of an
accepted name whose config is absent or enabled: their module names are appended to
`allModuleNamesInOrder` in the order of the listing, so in ascending order of the directory
names when the listing is sorted, they are the keys of `modulesByName`, and the function
returns nil exactly when every directory has an accepted name. -/
theorem C23_index_registers_matching_enabled_directories (env : IndexEnv)
    (mm : MainModuleManager) (files : List FileInfo)
    (hRead : env.ReadDir (env.Join env.WorkingDir "modules") = .ok files)
    (hGlobal : ∃ values, readModulesValues env = .ok values)
    (hCfg : ∀ f ∈ files, ∃ c,
      getModuleConfig env (env.Join (env.Join env.WorkingDir "modules") f.Name) = .ok c)
    (hHooks : ∀ module hooks, ∃ h, env.initModuleHooks module hooks = .ok h) :
    (∀ d, (validModuleName d).isSome = true ↔
      ∃ c0 c1 c2 rest, d.toList = c0 :: c1 :: c2 :: '-' :: rest ∧
        c0.isDigit = true ∧ c1.isDigit = true ∧ c2.isDigit = true ∧ Char.ofNat 10 ∉ rest) ∧
    (∀ d, matchesSpecPattern d = true ↔ ∃ n, validModuleName d = some n ∧ n ≠ "") ∧
    (∀ d n, validModuleName d = some n → n.toList = d.toList.drop 4) ∧
    (∀ f, registers env (env.Join env.WorkingDir "modules") f = true ↔
      f.IsDir = true ∧ (validModuleName f.Name).isSome = true ∧
        (getModuleConfig env (env.Join (env.Join env.WorkingDir "modules") f.Name) = .ok none ∨
          ∃ cfg, getModuleConfig env (env.Join (env.Join env.WorkingDir "modules") f.Name)
              = .ok (some cfg) ∧ cfg.IsEnabled = true)) ∧
    (initModulesIndex env mm).2.allModuleNamesInOrder =
      mm.allModuleNamesInOrder ++
        (files.filter (registers env (env.Join env.WorkingDir "modules"))).map moduleNameOf ∧
    ((files.map (fun f => f.Name)).Pairwise (fun a b => a < b) →
      ((files.filter (registers env (env.Join env.WorkingDir "modules"))).map
        (fun f => f.Name)).Pairwise (fun a b => a < b)) ∧
    (∀ n, (∃ module, (initModulesIndex env mm).2.modulesByName n = some module) ↔
      n ∈ (files.filter (registers env (env.Join env.WorkingDir "modules"))).map
        moduleNameOf) ∧
    ((initModulesIndex env mm).1 = none ↔
      ∀ f ∈ files, f.IsDir = true → (validModuleName f.Name).isSome = true) := by
  obtain ⟨hNames, hKeys, hNil⟩ := initModulesIndex_spec env mm files hRead hGlobal hCfg hHooks
  refine ⟨?_, matchesSpecPattern_iff, validModuleName_toList, registers_iff env _, hNames, ?_,
    hKeys, hNil⟩
  · intro d
    constructor
    · intro h
      cases hv : validModuleName d with
      | none => rw [hv] at h; cases h
      | some n =>
        obtain ⟨c0, c1, c2, rest, hList, h0, h1, h2, hRest, _⟩ := validModuleName_eq_some d n hv
        exact ⟨c0, c1, c2, rest, hList, h0, h1, h2, hRest⟩
    · rintro ⟨c0, c1, c2, rest, hList, h0, h1, h2, hRest⟩
      rw [validModuleName_of_toList d c0 c1 c2 rest hList h0 h1 h2 hRest]
      rfl
  · intro hSorted
    exact hSorted.sublist (List.Sublist.map _ (List.filter_sublist _))

theorem demoIndexEnv_getModuleConfig (files : List FileInfo) (path : String) :
    ∃ c, getModuleConfig (demoIndexEnv files) path = .ok c := by
  unfold getModuleConfig
  by_cases h : (demoIndexEnv files).fileExists ((demoIndexEnv files).Join path "values.yaml")
      = false
  · exact ⟨none, by simp [h]⟩
  · exact ⟨some { IsEnabled := false, Values := "offEnabled: false" }, by
      simp [h]
      rfl⟩

/-- C23, amended, at a concrete input: the listing of the counterexample, of which the
directories `000-` and `010-web` are registered. -/
theorem C23_index_registers_matching_enabled_directories_witness :
    (demoIndexEnv demoListing).ReadDir
        ((demoIndexEnv demoListing).Join (demoIndexEnv demoListing).WorkingDir "modules")
      = .ok demoListing ∧
    (∃ values, readModulesValues (demoIndexEnv demoListing) = .ok values) ∧
    (initModulesIndex (demoIndexEnv demoListing) {}).2.allModuleNamesInOrder =
      ({} : MainModuleManager).allModuleNamesInOrder ++
        (demoListing.filter (registers (demoIndexEnv demoListing)
          ((demoIndexEnv demoListing).Join (demoIndexEnv demoListing).WorkingDir "modules"))).map
          moduleNameOf :=
  ⟨rfl, ⟨"", rfl⟩,
    (C23_index_registers_matching_enabled_directories (demoIndexEnv demoListing) {} demoListing
      rfl ⟨"", rfl⟩ (fun _ _ => demoIndexEnv_getModuleConfig demoListing _)
      (fun module hooks => ⟨hooks ++ [module.Name ++ "/hook"], rfl⟩)).2.2.2.2.1⟩

theorem initModulesIndex_twice (env : IndexEnv) (mm : MainModuleManager)
    (files : List FileInfo)
    (hRead : env.ReadDir (env.Join env.WorkingDir "modules") = .ok files)
    (hGlobal : ∃ values, readModulesValues env = .ok values)
    (hCfg : ∀ f ∈ files, ∃ c,
      getModuleConfig env (env.Join (env.Join env.WorkingDir "modules") f.Name) = .ok c)
    (hHooks : ∀ module hooks, ∃ h, env.initModuleHooks module hooks = .ok h) :
    (initModulesIndex env (initModulesIndex env mm).2).2.allModuleNamesInOrder =
      (initModulesIndex env mm).2.allModuleNamesInOrder ++
        (files.filter (registers env (env.Join env.WorkingDir "modules"))).map moduleNameOf := by
  exact (initModulesIndex_spec env _ files hRead hGlobal hCfg hHooks).1

/-- C30 fails on the code: with the one module directory `010-web`, a first run of
`initModulesIndex` on a new manager records the names `[web]` and a second run on the
unchanged layout returns nil as well and leaves the names `[web, web]`, the name twice; the
map `modulesByName` holds the same module after both runs. -/
theorem C30_second_index_run_repeats_names :
    (initModulesIndex (demoIndexEnv [FileInfo.mk "010-web" true]) {}).1 = none ∧
    (initModulesIndex (demoIndexEnv [FileInfo.mk "010-web" true]) {}).2.allModuleNamesInOrder
      = ["web"] ∧
    (initModulesIndex (demoIndexEnv [FileInfo.mk "010-web" true])
      (initModulesIndex (demoIndexEnv [FileInfo.mk "010-web" true]) {}).2).1 = none ∧
    (initModulesIndex (demoIndexEnv [FileInfo.mk "010-web" true])
      (initModulesIndex (demoIndexEnv [FileInfo.mk "010-web" true]) {}).2
      ).2.allModuleNamesInOrder = ["web", "web"] ∧
    (initModulesIndex (demoIndexEnv [FileInfo.mk "010-web" true])
      (initModulesIndex (demoIndexEnv [FileInfo.mk "010-web" true]) {}).2
      ).2.modulesByName "web" =
      (initModulesIndex (demoIndexEnv [FileInfo.mk "010-web" true]) {}).2.modulesByName "web" ∧
    (initModulesIndex (demoIndexEnv [FileInfo.mk "010-web" true])
      (initModulesIndex (demoIndexEnv [FileInfo.mk "010-web" true]) {}).2
      ).2.hooks =
      (initModulesIndex (demoIndexEnv [FileInfo.mk "010-web" true]) {}).2.hooks := by
  refine ⟨by rfl, by rfl, by rfl, by rfl, by rfl, by rfl⟩

end ModuleManager

namespace HooksController

/-! ## The kubernetes hooks controller -/

theorem addMonitors_EnabledModules (env : ControllerEnv) (moduleHook : ModuleHook)
    (configs : List OnKubernetesEventConfig) :
    ∀ (c : kubernetesHooksController),
      (addMonitors env moduleHook configs c).2.EnabledModules = c.EnabledModules := by
  induction configs with
  | nil => intro c; rfl
  | cons config rest ih =>
    intro c
    cases hA : env.AddMonitor config.ConfigId with
    | some err => simp [addMonitors, hA]
    | none => simp [addMonitors, hA, ih]

theorem enableHooks_EnabledModules (env : ControllerEnv) (names : List String) :
    ∀ (c : kubernetesHooksController),
      (enableHooks env names c).2.EnabledModules = c.EnabledModules := by
  induction names with
  | nil => intro c; rfl
  | cons name rest ih =>
    intro c
    cases hR : (addMonitors env (env.GetModuleHook name)
        (env.GetModuleHook name).OnKubernetesEvents c).1 with
    | some err => simp [enableHooks, hR, addMonitors_EnabledModules]
    | none => simp [enableHooks, hR, ih, addMonitors_EnabledModules]

theorem any_beq_iff_mem (l : List String) (m : String) :
    l.any (fun x => x == m) = true ↔ m ∈ l := by
  simp [List.any_eq_true]

theorem EnableModuleHooks_of_mem (env : ControllerEnv) (c : kubernetesHooksController)
    (moduleName : String) (h : moduleName ∈ c.EnabledModules) :
    EnableModuleHooks env c moduleName = (none, c) := by
  unfold EnableModuleHooks
  rw [if_pos ((any_beq_iff_mem _ _).2 h)]

theorem EnableModuleHooks_EnabledModules (env : ControllerEnv)
    (c : kubernetesHooksController) (moduleName : String) :
    (EnableModuleHooks env c moduleName).2.EnabledModules =
      if moduleName ∈ c.EnabledModules ∨ (EnableModuleHooks env c moduleName).1 ≠ none then
        c.EnabledModules
      else c.EnabledModules ++ [moduleName] := by
  by_cases hMem : moduleName ∈ c.EnabledModules
  · rw [EnableModuleHooks_of_mem env c moduleName hMem]
    simp [hMem]
  · have hAny : ¬ (c.EnabledModules.any (fun x => x == moduleName) = true) :=
      fun h => hMem ((any_beq_iff_mem _ _).1 h)
    unfold EnableModuleHooks
    rw [if_neg hAny]
    cases hG : env.GetModuleHooksInOrder moduleName with
    | error err => simp
    | ok moduleHooks =>
      cases hR : (enableHooks env moduleHooks c).1 with
      | some err => simp [hR, enableHooks_EnabledModules]
      | none => simp [hR, hMem, enableHooks_EnabledModules]

theorem moduleEnabledInd_cons (x : String) (xs : List String) (m : String) :
    moduleEnabledInd (x :: xs) m =
      if x = m then some 0 else (moduleEnabledInd xs m).map (fun i => i + 1) := by
  unfold moduleEnabledInd
  by_cases h : x = m
  · simp [List.findIdx_cons, h]
  · have hb : (x == m) = false := by simp [h]
    simp only [List.findIdx_cons, hb, cond_false, List.length_cons,
      Nat.add_lt_add_iff_right, if_neg h]
    by_cases hLt : List.findIdx (fun enabledModuleName => enabledModuleName == m) xs < xs.length
    · simp [hLt]
    · simp [hLt]

theorem moduleEnabledInd_spec (m : String) (l : List String) :
    match moduleEnabledInd l m with
    | none => m ∉ l
    | some i => m ∈ l ∧ (l.take i ++ l.drop (i + 1)).Sublist l ∧
        (l.Nodup → m ∉ l.take i ++ l.drop (i + 1)) := by
  induction l with
  | nil => simp [moduleEnabledInd]
  | cons x xs ih =>
    rw [moduleEnabledInd_cons]
    by_cases h : x = m
    · subst h
      simp only [if_true, List.mem_cons, true_or, List.take_zero, List.nil_append,
        Nat.zero_add, List.drop_succ_cons, List.drop_zero, true_and]
      exact ⟨List.sublist_cons_self _ _, fun hN => (List.nodup_cons.mp hN).1⟩
    · rw [if_neg h]
      cases hI : moduleEnabledInd xs m with
      | none =>
        rw [hI] at ih
        simp only [Option.map_none']
        intro hMem
        rcases List.mem_cons.mp hMem with hMem | hMem
        · exact h hMem.symm
        · exact ih hMem
      | some i =>
        rw [hI] at ih
        obtain ⟨i1, i2, i3⟩ := ih
        simp only [Option.map_some', List.take_succ_cons, List.drop_succ_cons,
          List.cons_append]
        refine ⟨List.mem_cons_of_mem _ i1, i2.cons₂ _, ?_⟩
        intro hN hMem
        rcases List.mem_cons.mp hMem with hMem | hMem
        · exact h hMem.symm
        · exact i3 (List.nodup_cons.mp hN).2 hMem

theorem stopMonitors_frame (env : ControllerEnv) (disabled : List String)
    (entries : List (String × KubeEventHook)) :
    ∀ (c : kubernetesHooksController),
      (stopMonitors env disabled entries c).2.EnabledModules = c.EnabledModules := by
  induction entries with
  | nil => intro c; rfl
  | cons e rest ih =>
    intro c
    obtain ⟨configId, desc⟩ := e
    cases hM : disabled.any (fun n => desc.HookName == n) with
    | true =>
      cases hS : env.StopMonitor configId with
      | some err => simp [stopMonitors, hM, hS]
      | none => simp [stopMonitors, hM, hS, ih]
    | false => simp [stopMonitors, hM, ih]

theorem stopMonitors_ModuleHooks (env : ControllerEnv) (disabled : List String)
    (entries : List (String × KubeEventHook)) :
    ∀ (c : kubernetesHooksController),
      (stopMonitors env disabled entries c).1 = none →
      (stopMonitors env disabled entries c).2.ModuleHooks =
        c.ModuleHooks.filter (fun e =>
          !entries.any (fun x => x.1 == e.1 &&
            disabled.any (fun n => x.2.HookName == n))) := by
  induction entries with
  | nil => intro c _; simp [stopMonitors]
  | cons e rest ih =>
    intro c
    obtain ⟨configId, desc⟩ := e
    cases hM : disabled.any (fun n => desc.HookName == n) with
    | true =>
      cases hS : env.StopMonitor configId with
      | some err => simp [stopMonitors, hM, hS]
      | none =>
        intro hNone
        simp only [stopMonitors, hM, hS, if_true] at hNone ⊢
        rw [ih _ hNone]
        simp only [hooksDelete, List.filter_filter]
        apply List.filter_congr
        intro x _
        simp only [List.any_cons, hM, Bool.and_true, Bool.not_or]
        cases hk : (configId == x.1) with
        | true =>
          have hEq : x.1 = configId := (beq_iff_eq.mp hk).symm
          simp [hEq]
        | false =>
          have hNe : configId ≠ x.1 := fun h => by simp [h] at hk
          have hNe2 : x.1 ≠ configId := fun h => hNe h.symm
          simp [hNe2]
    | false =>
      intro hNone
      simp only [stopMonitors, hM, Bool.false_eq_true, if_false] at hNone ⊢
      rw [ih _ hNone]
      apply List.filter_congr
      intro x _
      simp [List.any_cons, hM]

theorem DisableModuleHooks_of_not_mem (env : ControllerEnv) (c : kubernetesHooksController)
    (moduleName : String) (h : moduleName ∉ c.EnabledModules) :
    DisableModuleHooks env c moduleName = (none, c) := by
  have hSpec := moduleEnabledInd_spec moduleName c.EnabledModules
  unfold DisableModuleHooks
  cases hI : moduleEnabledInd c.EnabledModules moduleName with
  | none => rfl
  | some i =>
    rw [hI] at hSpec
    exact absurd hSpec.1 h

theorem DisableModuleHooks_EnabledModules (env : ControllerEnv)
    (c : kubernetesHooksController) (moduleName : String) :
    ((DisableModuleHooks env c moduleName).2.EnabledModules).Sublist c.EnabledModules ∧
    (c.EnabledModules.Nodup → moduleName ∉ (DisableModuleHooks env c moduleName).2.EnabledModules) := by
  have hSpec := moduleEnabledInd_spec moduleName c.EnabledModules
  unfold DisableModuleHooks
  cases hI : moduleEnabledInd c.EnabledModules moduleName with
  | none =>
    rw [hI] at hSpec
    exact ⟨List.Sublist.refl _, fun _ => hSpec⟩
  | some i =>
    rw [hI] at hSpec
    cases hG : env.GetModuleHooksInOrder moduleName with
    | error err => exact ⟨hSpec.2.1, hSpec.2.2⟩
    | ok disabled =>
      simp only [stopMonitors_frame]
      exact ⟨hSpec.2.1, hSpec.2.2⟩

theorem DisableModuleHooks_ModuleHooks (env : ControllerEnv) (c : kubernetesHooksController)
    (moduleName : String) (names : List String)
    (hMem : moduleName ∈ c.EnabledModules)
    (hNames : env.GetModuleHooksInOrder moduleName = .ok names)
    (hNone : (DisableModuleHooks env c moduleName).1 = none) :
    ∀ e ∈ (DisableModuleHooks env c moduleName).2.ModuleHooks, e.2.HookName ∉ names := by
  have hSpec := moduleEnabledInd_spec moduleName c.EnabledModules
  unfold DisableModuleHooks at hNone ⊢
  cases hI : moduleEnabledInd c.EnabledModules moduleName with
  | none =>
    rw [hI] at hSpec
    exact absurd hMem hSpec
  | some i =>
    simp only [hI, hNames] at hNone ⊢
    rw [stopMonitors_ModuleHooks env names _ _ hNone]
    intro e he hIn
    simp only [List.mem_filter, Bool.not_eq_true', List.any_eq_false, Bool.and_eq_true,
      beq_iff_eq, List.any_eq_true, not_and, not_exists] at he
    exact he.2 e he.1 rfl e.2.HookName hIn rfl

theorem applyCalls_append (env : ControllerEnv) (c : kubernetesHooksController)
    (ops : List ControllerCall) (op : ControllerCall) :
    applyCalls env c (ops ++ [op]) =
      match op with
      | ControllerCall.Enable moduleName =>
        (EnableModuleHooks env (applyCalls env c ops) moduleName).2
      | ControllerCall.Disable moduleName =>
        (DisableModuleHooks env (applyCalls env c ops) moduleName).2 := by
  simp [applyCalls, List.foldl_append]

theorem applyCalls_Nodup (env : ControllerEnv) (ops : List ControllerCall) :
    ∀ (c : kubernetesHooksController), c.EnabledModules.Nodup →
      (applyCalls env c ops).EnabledModules.Nodup := by
  induction ops with
  | nil => intro c h; exact h
  | cons op rest ih =>
    intro c h
    cases op with
    | Enable moduleName =>
      apply ih
      rw [EnableModuleHooks_EnabledModules]
      split
      · exact h
      · rename_i hNot
        rw [not_or] at hNot
        exact List.nodup_append.2 ⟨h, List.nodup_singleton _,
          fun a ha hb => hNot.1 ((List.mem_singleton.mp hb) ▸ ha)⟩
    | Disable moduleName =>
      apply ih
      exact h.sublist (DisableModuleHooks_EnabledModules env c moduleName).1

/-- C29, as stated, fails: in `demoControllerEnv` the first call of `EnableModuleHooks` for
the module `web` adds the monitor `c1` of the hook `watch`, fails on the monitor `c2` and
does not enable the module; `DisableModuleHooks` for `web` then returns nil and the map
`ModuleHooks` still holds the entry `c1` of the hook `watch` of the module. -/
theorem C29_disable_keeps_hooks_of_failed_enable :
    (EnableModuleHooks demoControllerEnv NewKubernetesHooksController "web").1 =
      some "run kube monitor for hook watch: no such kind" ∧
    (applyCalls demoControllerEnv NewKubernetesHooksController
      [ControllerCall.Enable "web"]).EnabledModules = [] ∧
    demoControllerEnv.GetModuleHooksInOrder "web" = .ok ["watch"] ∧
    (DisableModuleHooks demoControllerEnv
      (applyCalls demoControllerEnv NewKubernetesHooksController [ControllerCall.Enable "web"])
      "web").1 = none ∧
    (DisableModuleHooks demoControllerEnv
      (applyCalls demoControllerEnv NewKubernetesHooksController [ControllerCall.Enable "web"])
      "web").2.ModuleHooks = [("c1", KubeEventHook.mk "watch" "pods" false)] := by
  refine ⟨by rfl, by rfl, by rfl, by rfl, by rfl⟩

/-- C29, amended: after every sequence of calls of `EnableModuleHooks` and
`DisableModuleHooks` on a new controller, `EnabledModules` has no duplicates; there,
`EnableModuleHooks` for an enabled module returns nil and changes nothing, so a second call
after a first that returned nil changes nothing; a call that returns an error leaves
`EnabledModules` as it is; after `DisableModuleHooks` the module is not in `EnabledModules`;
when the module was enabled and `DisableModuleHooks` returns nil, `ModuleHooks` holds no
entry of a hook of the module; when the module was not enabled, `DisableModuleHooks` returns
nil and changes nothing. -/
theorem C29_enabled_modules_without_duplicates (env : ControllerEnv)
    (ops : List ControllerCall) (moduleName : String) :
    (applyCalls env NewKubernetesHooksController ops).EnabledModules.Nodup ∧
    (moduleName ∈ (applyCalls env NewKubernetesHooksController ops).EnabledModules →
      EnableModuleHooks env (applyCalls env NewKubernetesHooksController ops) moduleName =
        (none, applyCalls env NewKubernetesHooksController ops)) ∧
    ((EnableModuleHooks env (applyCalls env NewKubernetesHooksController ops) moduleName).1
        = none →
      EnableModuleHooks env
          (EnableModuleHooks env (applyCalls env NewKubernetesHooksController ops)
            moduleName).2 moduleName =
        (none, (EnableModuleHooks env (applyCalls env NewKubernetesHooksController ops)
          moduleName).2)) ∧
    ((EnableModuleHooks env (applyCalls env NewKubernetesHooksController ops) moduleName).1
        ≠ none →
      (EnableModuleHooks env (applyCalls env NewKubernetesHooksController ops)
          moduleName).2.EnabledModules =
        (applyCalls env NewKubernetesHooksController ops).EnabledModules) ∧
    moduleName ∉ (DisableModuleHooks env (applyCalls env NewKubernetesHooksController ops)
      moduleName).2.EnabledModules ∧
    (moduleName ∈ (applyCalls env NewKubernetesHooksController ops).EnabledModules →
      (DisableModuleHooks env (applyCalls env NewKubernetesHooksController ops)
        moduleName).1 = none →
      ∀ names, env.GetModuleHooksInOrder moduleName = .ok names →
        ∀ e ∈ (DisableModuleHooks env (applyCalls env NewKubernetesHooksController ops)
          moduleName).2.ModuleHooks, e.2.HookName ∉ names) ∧
    (moduleName ∉ (applyCalls env NewKubernetesHooksController ops).EnabledModules →
      DisableModuleHooks env (applyCalls env NewKubernetesHooksController ops) moduleName =
        (none, applyCalls env NewKubernetesHooksController ops)) := by
  have hNodup := applyCalls_Nodup env ops NewKubernetesHooksController List.nodup_nil
  refine ⟨hNodup, EnableModuleHooks_of_mem env _ moduleName, ?_, ?_,
    (DisableModuleHooks_EnabledModules env _ moduleName).2 hNodup, ?_,
    DisableModuleHooks_of_not_mem env _ moduleName⟩
  · intro hNone
    apply EnableModuleHooks_of_mem
    rw [EnableModuleHooks_EnabledModules]
    by_cases hMem : moduleName ∈ (applyCalls env NewKubernetesHooksController ops).EnabledModules
    · simp [hMem]
    · simp [hMem, hNone]
  · intro hErr
    rw [EnableModuleHooks_EnabledModules]
    simp [hErr]
  · intro hMem hNone names hNames
    exact DisableModuleHooks_ModuleHooks env _ moduleName names hMem hNames hNone

theorem applyCalls_demo :
    applyCalls { demoControllerEnv with AddMonitor := fun _ => none }
        NewKubernetesHooksController
        [ControllerCall.Enable "web", ControllerCall.Enable "web"] =
      { ModuleHooks := [("c1", KubeEventHook.mk "watch" "pods" false),
          ("c2", KubeEventHook.mk "watch" "nodes" false)],
        EnabledModules := ["web"],
        calls := [ManagerCall.AddMonitor "c1", ManagerCall.AddMonitor "c2",
          ManagerCall.Start] } ∧
    applyCalls { demoControllerEnv with AddMonitor := fun _ => none }
        NewKubernetesHooksController
        [ControllerCall.Enable "web", ControllerCall.Disable "web"] =
      { calls := [ManagerCall.AddMonitor "c1", ManagerCall.AddMonitor "c2",
          ManagerCall.Start, ManagerCall.StopMonitor "c1", ManagerCall.StopMonitor "c2"] } := by
  refine ⟨by rfl, by rfl⟩

end HooksController
